import Mathlib

/-!
# Verification of the EDI → JSON converter core

A shallow embedding, in Lean 4, of the parser/validator core of the
`edi-json-converter` repository (files `src/cdm.py`, `src/edi_parser.py`,
`src/edi_schema_models.py`, `src/ta1_generator.py`, `src/ta1_validator.py`),
together with theorems settling the frozen claims about it.

Conventions used throughout:
* Python strings are Lean `String`s; character-level operations go through
  `String.data : String → List Char`.
* Python `dict`s (which preserve insertion order and have unique keys) are
  association lists `List (String × α)`; lookup returns the first binding.
* Code that can raise an exception which escapes the function at hand is
  embedded in `Except String α`, the error carrying a description of the
  Python exception.  Code whose exceptions are caught locally stays pure.
* `datetime.now()` is an effect; functions of the source that consult it
  receive the two `strftime` renderings (`%y%m%d` and `%H%M`) as arguments.
-/

namespace EdiJson

/-! ## Python string primitives -/

/-- The whitespace set of Python `str.strip()` (ASCII part). -/
def isPySpace (c : Char) : Bool :=
  c = ' ' || c = '\t' || c = '\n' || c = '\r' || c = '\x0b' || c = '\x0c'

/-- Python `str.strip()` with no argument. -/
def pyStrip (s : String) : String :=
  String.mk (((s.data.dropWhile isPySpace).reverse.dropWhile isPySpace).reverse)

/-- Lexicographic-by-code-point comparison of character lists (how Python
compares strings). -/
def charsLe : List Char → List Char → Bool
  | [], _ => true
  | _ :: _, [] => false
  | a :: as, b :: bs =>
    if a.val < b.val then true
    else if b.val < a.val then false
    else charsLe as bs

/-- Python `<=` on strings. -/
def strLeB (a b : String) : Bool := charsLe a.data b.data

/-- Stable ascending insertion of a string into a sorted list. -/
def insertAsc (x : String) : List String → List String
  | [] => [x]
  | y :: rest => if strLeB x y then x :: y :: rest else y :: insertAsc x rest

/-- Python `sorted()` on strings (insertion sort, ascending). -/
def sortStrings : List String → List String
  | [] => []
  | x :: rest => insertAsc x (sortStrings rest)

/-- Order-preserving deduplication (the effect of building a `set` and
iterating it, up to order — the callers sort the result). -/
def dedupStrings (seen : List String) : List String → List String
  | [] => []
  | x :: rest =>
    if seen.contains x then dedupStrings seen rest
    else x :: dedupStrings (x :: seen) rest

/-- Python `str.startswith`. -/
def pyStartsWith (s pre : String) : Bool := pre.data.isPrefixOf s.data

/-- Decimal value of a digit-character list. -/
def decimalValue (l : List Char) : Nat :=
  l.foldl (fun acc c => acc * 10 + (c.toNat - '0'.toNat)) 0

/-- One pass of Python `str.replace` over character lists; the fuel is the
input length, which always suffices since each step consumes at least one
character. -/
def pyReplaceAux (pat rep : List Char) : Nat → List Char → List Char
  | _, [] => []
  | 0, s => s
  | fuel + 1, c :: rest =>
    if !pat.isEmpty && pat.isPrefixOf (c :: rest) then
      rep ++ pyReplaceAux pat rep fuel ((c :: rest).drop pat.length)
    else c :: pyReplaceAux pat rep fuel rest

/-- Python `str.replace` (all non-overlapping occurrences, left to right;
the sources never call it with an empty pattern). -/
def pyReplace (s pat rep : String) : String :=
  String.mk (pyReplaceAux pat.data rep.data s.data.length s.data)

/-- Python truthiness for strings composed with `or`:
`a or b` on strings yields `b` when `a` is empty. -/
def pyOrStr (a : Option String) (d : String) : String :=
  match a with
  | none => d
  | some s => if s = "" then d else s

/-- Python `str.zfill(n)` (values here are never signed). -/
def zfill (n : Nat) (s : String) : String :=
  if s.length ≥ n then s
  else String.mk (List.replicate (n - s.length) '0') ++ s

/-- Python `int(s)` on a string: surrounding whitespace is stripped, an
optional sign is allowed, then decimal digits.  (PEP 515 underscore
separators are not modelled; the schemas at hand do not use them.) -/
def pyIntParse (s : String) : Option Int :=
  let t := pyStrip s
  match t.data with
  | [] => none
  | '+' :: rest => if rest ≠ [] && rest.all Char.isDigit then some (decimalValue rest) else none
  | '-' :: rest => if rest ≠ [] && rest.all Char.isDigit then some (-(decimalValue rest : Int)) else none
  | l => if l.all Char.isDigit then some (decimalValue l) else none

/-- Whether Python `float(s)` succeeds: optional surrounding whitespace and
sign, then either a decimal literal (`d+`, `d+.d*`, `.d+`, optional
exponent) or one of `inf`, `infinity`, `nan` (case-insensitive). -/
def pyFloatParses (s : String) : Bool :=
  let t := (pyStrip s).data.map Char.toLower
  let t := match t with
    | '+' :: r => r
    | '-' :: r => r
    | r => r
  let isNamed := t = "inf".data || t = "infinity".data || t = "nan".data
  let mantissa : List Char → Option (List Char) := fun l =>
    let intPart := l.takeWhile Char.isDigit
    let rest := l.drop intPart.length
    match rest with
    | '.' :: r =>
      let fracPart := r.takeWhile Char.isDigit
      if intPart.isEmpty && fracPart.isEmpty then none
      else some (r.drop fracPart.length)
    | r => if intPart.isEmpty then none else some r
  let expOk : List Char → Bool := fun l =>
    match l with
    | [] => true
    | 'e' :: r =>
      let r := match r with
        | '+' :: r2 => r2
        | '-' :: r2 => r2
        | r2 => r2
      !r.isEmpty && r.all Char.isDigit
    | _ => false
  isNamed ||
    (match mantissa t with
     | none => false
     | some rest => expOk rest)

/-- Python `str.isdigit()` (ASCII fragment, which is all the inputs use). -/
def pyIsDigit (s : String) : Bool :=
  s.data ≠ [] && s.data.all Char.isDigit

/-- Python `str.isalnum()` on a single character (ASCII fragment). -/
def pyIsAlnumChar (c : Char) : Bool :=
  c.isAlpha || c.isDigit

/-- Split a character list at every occurrence of the character `c`
(Python `str.split(c)` semantics: empty pieces are kept). -/
def splitOnChar (c : Char) : List Char → List (List Char)
  | [] => [[]]
  | x :: xs =>
    if x = c then
      [] :: splitOnChar c xs
    else
      match splitOnChar c xs with
      | [] => [[x]]
      | p :: ps => (x :: p) :: ps

/-- `splitOnChar` as an operation on strings. -/
def pySplit (sep : Char) (s : String) : List String :=
  (splitOnChar sep s.data).map String.mk

/-- `re.sub(r'\D', '', s)`: keep only digit characters. -/
def keepDigits (s : String) : String :=
  String.mk (s.data.filter Char.isDigit)

/-- `int(re.sub(r'\D', '', element_id))`, which raises `ValueError`
when no digit is left. -/
def extractPos (elementId : String) : Except String Nat :=
  let d := keepDigits elementId
  if d.data.isEmpty then .error "ValueError: invalid literal for int() with base 10"
  else .ok (decimalValue d.data)

/-- Association-list lookup standing for a Python `dict` access. -/
def lookupA {α : Type} (m : List (String × α)) (k : String) : Option α :=
  match m.find? (fun p => p.1 = k) with
  | some p => some p.2
  | none => none

/-- Whether an `Except` computation succeeded (a Python call that did not
raise). -/
def isOkB {ε α : Type} : Except ε α → Bool
  | .ok _ => true
  | .error _ => false

/-! ## Canonical data model (`src/cdm.py`) -/

/-- `CdmValidationError` (cdm.py): a validation finding. -/
structure CdmValidationError where
  message : String
  line_number : Option Nat := none
  segment_id : Option String := none
  element_xid : Option String := none
  is_identifier_error : Bool := false
  deriving Repr, DecidableEq

/-- `CdmElement` (cdm.py). -/
structure CdmElement where
  value : String
  position : Nat
  deriving Repr, DecidableEq

/-- `CdmSegment` (cdm.py). -/
structure CdmSegment where
  segment_id : String
  elements : List CdmElement
  line_number : Nat
  raw_segment : String
  errors : List CdmValidationError := []
  deriving Repr, DecidableEq

/-- `CdmSegment.get_element` (cdm.py): 1-based positional access. -/
def CdmSegment.get_element (s : CdmSegment) (position : Nat) : Option String :=
  if h : 1 ≤ position ∧ position ≤ s.elements.length then
    some ((s.elements.get ⟨position - 1, by omega⟩).value)
  else
    none

/-- `CdmLoop` (cdm.py): a hierarchical loop.  The Python `loops` dict
(child xid → ordered list of instances, keys in first-insertion order)
is an association list. -/
inductive CdmLoop where
  | mk (loop_id : String) (segments : List CdmSegment)
       (loops : List (String × List CdmLoop))
       (errors : List CdmValidationError)

def CdmLoop.loop_id : CdmLoop → String
  | .mk i _ _ _ => i

def CdmLoop.segments : CdmLoop → List CdmSegment
  | .mk _ s _ _ => s

def CdmLoop.loops : CdmLoop → List (String × List CdmLoop)
  | .mk _ _ l _ => l

def CdmLoop.errors : CdmLoop → List CdmValidationError
  | .mk _ _ _ e => e

/-- `CdmLoop.add_loop` (cdm.py): append an instance under its `loop_id`
key, creating the key at the end of the dict if absent. -/
def addLoopEntry (entries : List (String × List CdmLoop)) (l : CdmLoop) :
    List (String × List CdmLoop) :=
  match entries with
  | [] => [(l.loop_id, [l])]
  | (k, ls) :: rest =>
    if k = l.loop_id then (k, ls ++ [l]) :: rest
    else (k, ls) :: addLoopEntry rest l

def CdmLoop.add_loop (parent : CdmLoop) (l : CdmLoop) : CdmLoop :=
  match parent with
  | .mk i s entries e => .mk i s (addLoopEntry entries l) e

/-- `CdmTransaction` (cdm.py). -/
structure CdmTransaction where
  header : CdmSegment
  trailer : CdmSegment
  body : CdmLoop
  errors : List CdmValidationError := []

/-- `CdmFunctionalGroup` (cdm.py). -/
structure CdmFunctionalGroup where
  header : CdmSegment
  trailer : CdmSegment
  transactions : List CdmTransaction := []
  errors : List CdmValidationError := []

/-- `CdmInterchange` (cdm.py). -/
structure CdmInterchange where
  header : CdmSegment
  trailer : CdmSegment
  functional_groups : List CdmFunctionalGroup := []
  errors : List CdmValidationError := []

end EdiJson

namespace EdiJson

/-! ## Schema model (`src/edi_schema_models.py`)

The validator operates on the `model_dump(exclude_none=True)` rendering of
the pydantic models, i.e. on string-keyed dictionaries.  The embedding
types below model those dictionaries: `Option` fields stand for keys that
may be absent after `exclude_none`; fields the validation code never reads
(`name`, `description`, `data_ele`, `snipLevel`, `severity`, `tags`) are
omitted.  An explicit `None` stored *inside* a contextual-override
dictionary (as opposed to an absent key) is not modelled; the schemas in
the repository do not contain such entries. -/

/-- A `format` value: `Optional[Union[str, List[str]]]`. -/
inductive FormatTok where
  | str (s : String)
  | list (l : List String)
  deriving Repr, DecidableEq

/-- A JSON scalar appearing in an `Any`-typed schema field
(`ConditionClause.value`, `AssertionClause.value`). -/
inductive JVal where
  | int (n : Int)
  | str (s : String)
  deriving Repr, DecidableEq

/-- `CodeDefinition` (edi_schema_models.py). -/
structure CodeDefinition where
  code : String
  description : String
  deriving Repr, DecidableEq

/-- The dumped form of a `BaseElement` (edi_schema_models.py): what
`_validate_element_recursively` reads.  `sub_elements` is recursive. -/
inductive EDef where
  | mk (xid : String) (usage : String) (seq : Int) (dataType : String)
       (minLength maxLength : Option Int) (format : Option FormatTok)
       (valid_codes : Option (List CodeDefinition))
       (sub_elements : Option (List EDef)) (is_identifier : Bool)

def EDef.xid : EDef → String
  | .mk x _ _ _ _ _ _ _ _ _ => x

def EDef.usage : EDef → String
  | .mk _ u _ _ _ _ _ _ _ _ => u

def EDef.seq : EDef → Int
  | .mk _ _ s _ _ _ _ _ _ _ => s

def EDef.dataType : EDef → String
  | .mk _ _ _ d _ _ _ _ _ _ => d

def EDef.minLength : EDef → Option Int
  | .mk _ _ _ _ m _ _ _ _ _ => m

def EDef.maxLength : EDef → Option Int
  | .mk _ _ _ _ _ m _ _ _ _ => m

def EDef.format : EDef → Option FormatTok
  | .mk _ _ _ _ _ _ f _ _ _ => f

def EDef.valid_codes : EDef → Option (List CodeDefinition)
  | .mk _ _ _ _ _ _ _ v _ _ => v

def EDef.sub_elements : EDef → Option (List EDef)
  | .mk _ _ _ _ _ _ _ _ s _ => s

def EDef.is_identifier : EDef → Bool
  | .mk _ _ _ _ _ _ _ _ _ i => i

/-- One contextual override for a single element: the flat dictionary of
replacement fields (the keys `_get_effective_definition` can copy onto a
base element).  A `none` field is an absent key. -/
structure EOvScalar where
  xid : Option String := none
  usage : Option String := none
  seq : Option Int := none
  dataType : Option String := none
  minLength : Option Int := none
  maxLength : Option Int := none
  format : Option FormatTok := none
  valid_codes : Option (List CodeDefinition) := none
  is_identifier : Option Bool := none

/-- A contextual override for an element together with its optional
`sub_elements` override (sub-element xid → flat field updates). -/
structure EOverride where
  scalar : EOvScalar := {}
  sub_elements : Option (List (String × EOvScalar)) := none

/-- `ConditionClause` (edi_schema_models.py); the operator is compared as a
string by the source, so it stays a string here. -/
structure ConditionClause where
  element : String
  operator : String
  value : Option JVal := none
  deriving Repr, DecidableEq

/-- `Conditions` (edi_schema_models.py): a `none` field is a key absent
from the dumped dictionary. -/
structure Conditions where
  all_of : Option (List ConditionClause) := none
  any_of : Option (List ConditionClause) := none
  deriving Repr, DecidableEq

/-- `AssertionClause` (edi_schema_models.py).  The Python field `then` of
`SyntaxRule` is named `thenList` here (`then` is reserved in Lean). -/
structure AssertionClause where
  element : Option String := none
  elements : Option (List String) := none
  assertion : String
  value : Option JVal := none
  deriving Repr, DecidableEq

/-- `SyntaxRule` (edi_schema_models.py). -/
structure SyntaxRule where
  ruleId : String
  conditions : Conditions
  thenList : List AssertionClause
  deriving Repr, DecidableEq

/-- `SegmentDefinition` (edi_schema_models.py); `rules = []` models both an
absent and an empty rule list (the source reads `get("rules", [])`). -/
structure SegmentDefinition where
  id : String
  usage : String
  max_use : Int
  elements : List EDef
  rules : List SyntaxRule := []

/-- `ContextualDefinition` (edi_schema_models.py): element xid → override.
An empty list models both a missing and an empty `elements` map
(the source reads `get("elements", {})` and tests falsiness). -/
structure ContextualDefinition where
  id : String
  elements : List (String × EOverride) := []

/-- The loop `repeat` field: `Union[str, int]`.  (Named `RepeatTok`;
`repeat` is a Lean tactic keyword.) -/
inductive RepeatTok where
  | int (n : Int)
  | str (s : String)
  deriving Repr, DecidableEq

/-- `StructureChild` (edi_schema_models.py): the tagged union of
`StructureSegment` and `StructureLoop`. -/
inductive StructureChild where
  | segment (xid : String) (name : Option String) (usage : String)
            (max_use : Int) (segmentDefinitionId : Option String)
            (baseDefinitionId : Option String)
            (contextDefinitionId : Option String)
  | loop (xid : String) (name : String) (usage : String)
         (repeatTok : RepeatTok) (children : List StructureChild)

def StructureChild.xid : StructureChild → String
  | .segment x _ _ _ _ _ _ => x
  | .loop x _ _ _ _ => x

def StructureChild.usage : StructureChild → String
  | .segment _ _ u _ _ _ _ => u
  | .loop _ _ u _ _ => u

/-- The `{node.name}` interpolation used in the required-missing message:
Python renders a `None` name as the string `None`. -/
def StructureChild.nameStr : StructureChild → String
  | .segment _ n _ _ _ _ _ => n.getD "None"
  | .loop _ n _ _ _ => n

/-- `ImplementationGuideSchema` (edi_schema_models.py).  The `structure`
field is named `structureNodes` (`structure` is a Lean keyword); the
unread metadata fields (`transactionName`, `version`, `description`,
top-level `rules`) are omitted. -/
structure ImplementationGuideSchema where
  segmentDefinitions : List (String × SegmentDefinition) := []
  contextualDefinitions : List (String × ContextualDefinition) := []
  structureNodes : List StructureChild := []

/-! ## Effective-definition merger (`_get_effective_definition`) -/

/-- Copy the present fields of a flat override onto a base element
(the per-key assignment loop of `_get_effective_definition`, and
`dict.update` for sub-elements). -/
def applyScalar (el : EDef) (o : EOvScalar) : EDef :=
  .mk (o.xid.getD el.xid) (o.usage.getD el.usage) (o.seq.getD el.seq)
      (o.dataType.getD el.dataType)
      (match o.minLength with | some v => some v | none => el.minLength)
      (match o.maxLength with | some v => some v | none => el.maxLength)
      (match o.format with | some v => some v | none => el.format)
      (match o.valid_codes with | some v => some v | none => el.valid_codes)
      el.sub_elements
      (o.is_identifier.getD el.is_identifier)

/-- Merge one base element with its contextual override: sub-element
overrides are applied element-wise first, then the scalar fields.
(When the override carries `sub_elements` but the base element has none,
the source stores the override dictionary itself under `sub_elements`;
the validator's `isinstance(…, list)` test then skips sub-element
validation, which is observationally the same as keeping the base's
missing list, so that corner keeps the base value here.) -/
def mergeElement (el : EDef) (ov : EOverride) : EDef :=
  let el1 : EDef :=
    match ov.sub_elements, el.sub_elements with
    | some subOv, some subs =>
      .mk el.xid el.usage el.seq el.dataType el.minLength el.maxLength
          el.format el.valid_codes
          (some (subs.map (fun sb =>
            match lookupA subOv sb.xid with
            | some so => applyScalar sb so
            | none => sb)))
          el.is_identifier
    | _, _ => el
  applyScalar el1 ov.scalar

/-- `_get_effective_definition` (edi_parser.py). -/
def getEffectiveDefinition (baseDef : SegmentDefinition)
    (ctx : Option ContextualDefinition) : SegmentDefinition :=
  match ctx with
  | none => baseDef
  | some c =>
    match c.elements with
    | [] => baseDef
    | _ =>
      { baseDef with
        elements := baseDef.elements.map (fun el =>
          match lookupA c.elements el.xid with
          | none => el
          | some ov => mergeElement el ov) }

end EdiJson

namespace EdiJson

/-! ## Segment validator (`src/edi_parser.py`, `SegmentValidator` and the
module-level helpers) -/

/-- `_validate_data_type` (edi_parser.py). -/
def validateDataType (value : String) (dataType : String) : Bool :=
  if dataType = "Composite" then true
  else if dataType = "AN" || dataType = "ID" then true
  else if dataType = "N0" || dataType = "N1" || dataType = "N2" || dataType = "R" then
    if value = "" then true else pyFloatParses value
  else if dataType = "DT" || dataType = "TM" then true
  else false

/-- Gregorian leap year, as `datetime` uses it. -/
def isLeapYear (y : Nat) : Bool :=
  y % 4 = 0 && (y % 100 ≠ 0 || y % 400 = 0)

/-- Days in a month, as `datetime` uses it. -/
def daysInMonth (y m : Nat) : Nat :=
  if m = 2 then (if isLeapYear y then 29 else 28)
  else if m = 4 || m = 6 || m = 9 || m = 11 then 30
  else 31

/-- The `CCYYMMDD` check of `_validate_format`: eight digits that
`datetime.strptime(value, '%Y%m%d')` accepts.  On an eight-digit string
the `%Y` pattern must take exactly four digits and `%m`/`%d` two each,
so this is the strict split; the year must be at least `MINYEAR = 1`. -/
def validCcyymmdd (value : String) : Bool :=
  value.length = 8 && pyIsDigit value &&
    (let y := decimalValue (value.data.take 4)
     let m := decimalValue ((value.data.drop 4).take 2)
     let d := decimalValue (value.data.drop 6)
     1 ≤ y && 1 ≤ m && m ≤ 12 && 1 ≤ d && d ≤ daysInMonth y m)

/-- The `HHMM` check of `_validate_format`. -/
def validHhmm (value : String) : Bool :=
  value.length = 4 && pyIsDigit value &&
    (let h := decimalValue (value.data.take 2)
     let mi := decimalValue (value.data.drop 2)
     h ≤ 23 && mi ≤ 59)

/-- `_validate_format` (edi_parser.py).  Only the string tokens
`CCYYMMDD` and `HHMM` are checked; everything else passes. -/
def validateFormat (value : String) (dataFormat : FormatTok) : Bool :=
  if value = "" then true
  else
    match dataFormat with
    | .str "CCYYMMDD" => validCcyymmdd value
    | .str "HHMM" => validHhmm value
    | _ => true

/-- Python truthiness of an optional `format` value
(`if data_format and …`). -/
def formatTruthy : Option FormatTok → Bool
  | none => false
  | some (.str s) => s ≠ ""
  | some (.list l) => !l.isEmpty

/-- Python rendering of a `format` value inside an f-string (the list case
cannot actually reach an error message, since list formats always pass). -/
def formatRender : FormatTok → String
  | .str s => s
  | .list l => "[" ++ String.intercalate ", " (l.map (fun s => "'" ++ s ++ "'")) ++ "]"

/-- Rendering of an `Any`-typed schema scalar inside an f-string. -/
def jvalRender : JVal → String
  | .int n => toString n
  | .str s => s

/-- Python list indexing, which accepts negative indices and raises
`IndexError` out of range. -/
def pyIndex {α : Type} (l : List α) (i : Int) : Except String α :=
  let j := if i ≥ 0 then i else i + l.length
  if h : 0 ≤ j ∧ j < (l.length : Int) then
    .ok (l.get ⟨j.toNat, by omega⟩)
  else
    .error "IndexError: list index out of range"

/-- The `full_xid` computation of `_validate_element_recursively`
(`f"{parent_xid}-{xid}" if parent_xid else xid`). -/
def fullXidOf (parentXid : Option String) (xid : String) : String :=
  match parentXid with
  | some p => if p = "" then xid else p ++ "-" ++ xid
  | none => xid

/-- The sorted, deduplicated, comma-joined code list of the invalid-code
message (`', '.join(sorted(list({str(c['code']) for c in …})))`). -/
def renderAllowedCodes (codes : List CodeDefinition) : String :=
  String.intercalate ", " (sortStrings (dedupStrings [] (codes.map (fun c => c.code))))

/-- The straight-line scalar checks of `_validate_element_recursively`
(min/max length, data type, format, code table), in source order. -/
def elemScalarErrs (edef : EDef) (value : String) (fullXid : String) :
    List CdmValidationError :=
  let isId := edef.is_identifier
  let minErr : List CdmValidationError :=
    match edef.minLength with
    | some m =>
      if (value.length : Int) < m then
        [⟨"Element '" ++ fullXid ++ "': Value is shorter than min length " ++
          toString m ++ ".", none, none, some fullXid, isId⟩]
      else []
    | none => []
  let maxErr : List CdmValidationError :=
    match edef.maxLength with
    | some m =>
      if (value.length : Int) > m then
        [⟨"Element '" ++ fullXid ++ "': Value is longer than max length " ++
          toString m ++ ".", none, none, some fullXid, isId⟩]
      else []
    | none => []
  let typeErr : List CdmValidationError :=
    if edef.dataType ≠ "" && !validateDataType value edef.dataType then
      [⟨"Element '" ++ fullXid ++ "': Value does not match expected data type '" ++
        edef.dataType ++ "'.", none, none, some fullXid, isId⟩]
    else []
  let fmtErr : List CdmValidationError :=
    match edef.format with
    | some f =>
      if formatTruthy (some f) && !validateFormat value f then
        [⟨"Element '" ++ fullXid ++ "': Value does not match expected format '" ++
          formatRender f ++ "'.", none, none, some fullXid, isId⟩]
      else []
    | none => []
  let codeErr : List CdmValidationError :=
    match edef.valid_codes with
    | some codes =>
      if !codes.isEmpty then
        if (codes.map (fun c => c.code)).contains value then []
        else
          [⟨"Element '" ++ fullXid ++ "': Invalid code value. Allowed: " ++
            renderAllowedCodes codes ++ ".", none, none, some fullXid, isId⟩]
      else []
    | none => []
  minErr ++ maxErr ++ typeErr ++ fmtErr ++ codeErr

mutual

/-- `SegmentValidator._validate_element_recursively` (edi_parser.py).
Raises (as `.error`) only where the Python code would: a negative
sub-element `seq` can produce an out-of-range negative list index. -/
def validateElementRec (compSep : Char) : EDef → String → Option String →
    Except String (List CdmValidationError)
  | .mk xid usage seq dt minL maxL fmt codes (some subs) isIdent, value, parentXid =>
    let edef : EDef := .mk xid usage seq dt minL maxL fmt codes (some subs) isIdent
    let fullXid := fullXidOf parentXid xid
    let isPresent := value ≠ ""
    if usage = "R" && !isPresent then
      .ok [⟨"Required element '" ++ fullXid ++ "' is missing.", none, none, some fullXid, isIdent⟩]
    else
      let errs0 : List CdmValidationError :=
        if usage = "N" && isPresent then
          [⟨"Element '" ++ fullXid ++ "' is Not Used and should not contain data.",
            none, none, some fullXid, isIdent⟩]
        else []
      if !isPresent then .ok errs0
      else if dt = "Composite" then do
        -- split on the component separator and recurse into sub-elements
        let subErrs ← validateSubElements compSep subs (pySplit compSep value) fullXid
        .ok (errs0 ++ subErrs)
      else
        .ok (errs0 ++ elemScalarErrs edef value fullXid)
  | .mk xid usage seq dt minL maxL fmt codes none isIdent, value, parentXid =>
    let edef : EDef := .mk xid usage seq dt minL maxL fmt codes none isIdent
    let fullXid := fullXidOf parentXid xid
    let isPresent := value ≠ ""
    if usage = "R" && !isPresent then
      .ok [⟨"Required element '" ++ fullXid ++ "' is missing.", none, none, some fullXid, isIdent⟩]
    else
      let errs0 : List CdmValidationError :=
        if usage = "N" && isPresent then
          [⟨"Element '" ++ fullXid ++ "' is Not Used and should not contain data.",
            none, none, some fullXid, isIdent⟩]
        else []
      if !isPresent then .ok errs0
      else if dt = "Composite" then .ok errs0
      else
        .ok (errs0 ++ elemScalarErrs edef value fullXid)

/-- The sub-element loop of `_validate_element_recursively`. -/
def validateSubElements (compSep : Char) (subs : List EDef)
    (subVals : List String) (parentFullXid : String) :
    Except String (List CdmValidationError) :=
  match subs with
  | [] => .ok []
  | sub :: rest => do
    let es ←
      (if sub.seq = 0 then pure ([] : List CdmValidationError)  -- `if not sub_pos: continue`
       else if sub.seq - 1 < (subVals.length : Int) then do
         let sv ← pyIndex subVals (sub.seq - 1)
         validateElementRec compSep sub sv (some parentFullXid)
       else
         validateElementRec compSep sub "" (some parentFullXid))
    let esRest ← validateSubElements compSep rest subVals parentFullXid
    .ok (es ++ esRest)

end

end EdiJson

namespace EdiJson

/-- Monadic `all(...)` with Python's short-circuit semantics. -/
def allE {α : Type} (f : α → Except String Bool) : List α → Except String Bool
  | [] => .ok true
  | x :: rest => do
    let b ← f x
    if b then allE f rest else .ok false

/-- Monadic `any(...)` with Python's short-circuit semantics. -/
def anyE {α : Type} (f : α → Except String Bool) : List α → Except String Bool
  | [] => .ok false
  | x :: rest => do
    let b ← f x
    if b then .ok true else anyE f rest

/-- Python equality between a string and an `Any`-typed schema value
(`value == clause["value"]`): a string never equals an int. -/
def jvalEqStr (v : JVal) (s : String) : Bool :=
  match v with
  | .str t => s = t
  | .int _ => false

/-- `SegmentValidator._evaluate_condition_clause` (edi_parser.py).
The position extraction runs first and raises `ValueError` when the
element reference has no digits; `IS`/`IS_NOT` read `clause["value"]`,
raising `KeyError` when the key is absent. -/
def evalConditionClause (seg : CdmSegment) (clause : ConditionClause) :
    Except String Bool := do
  let pos ← extractPos clause.element
  let value := (seg.get_element pos).getD ""
  if clause.operator = "IS_PRESENT" then .ok (pyStrip value ≠ "")
  else if clause.operator = "IS_NOT_PRESENT" then .ok (pyStrip value = "")
  else if clause.operator = "IS" then
    match clause.value with
    | some v => .ok (jvalEqStr v value)
    | none => .error "KeyError: value"
  else if clause.operator = "IS_NOT" then
    match clause.value with
    | some v => .ok (!jvalEqStr v value)
    | none => .error "KeyError: value"
  else .ok false

/-- `SegmentValidator._evaluate_conditions` (edi_parser.py). -/
def evalConditions (seg : CdmSegment) (conds : Conditions) :
    Except String Bool :=
  match conds.all_of with
  | some clauses => allE (evalConditionClause seg) clauses
  | none =>
    match conds.any_of with
    | some clauses => anyE (evalConditionClause seg) clauses
    | none => .ok true

/-- `SegmentValidator._execute_assertion` (edi_parser.py). -/
def execAssertion (seg : CdmSegment) (a : AssertionClause) (ruleId : String) :
    Except String (List CdmValidationError) := do
  if a.assertion = "MUST_BE_PRESENT" then do
    let elementId ← match a.element with
      | some e => Except.ok e
      | none => Except.error "KeyError: element"
    let pos ← extractPos elementId
    let value := (seg.get_element pos).getD ""
    let failed := !(value != "" && pyStrip value != "")
    let logDetail := "Asserting " ++ elementId ++ " MUST BE PRESENT. Data='" ++ value ++ "'"
    .ok (if failed then
      [⟨"Syntax Rule Failed (" ++ ruleId ++ "): " ++ logDetail, none, none, none, false⟩]
    else [])
  else if a.assertion = "MUST_HAVE_LENGTH" then do
    let elementId ← match a.element with
      | some e => Except.ok e
      | none => Except.error "KeyError: element"
    let pos ← extractPos elementId
    let value := (seg.get_element pos).getD ""
    let expected ← match a.value with
      | some v => Except.ok v
      | none => Except.error "KeyError: value"
    let failed := match expected with
      | .int n => (value.length : Int) != n
      | .str _ => true   -- Python `len(value) != expected` on a str is always True
    let logDetail := "Asserting " ++ elementId ++ " MUST HAVE LENGTH " ++
      jvalRender expected ++ ". Data='" ++ value ++ "' (length=" ++
      toString value.length ++ ")"
    .ok (if failed then
      [⟨"Syntax Rule Failed (" ++ ruleId ++ "): " ++ logDetail, none, none, none, false⟩]
    else [])
  else if a.assertion = "ANY_OF_MUST_BE_PRESENT" then do
    let elementIds ← match a.elements with
      | some l => Except.ok l
      | none => Except.error "KeyError: elements"
    let positions ← elementIds.mapM extractPos
    let failed := !(positions.any (fun pos =>
      match seg.get_element pos with
      | some v => v != ""
      | none => false))
    let logDetail := "Asserting ANY OF " ++ String.intercalate ", " elementIds ++
      " MUST BE PRESENT."
    .ok (if failed then
      [⟨"Syntax Rule Failed (" ++ ruleId ++ "): " ++ logDetail, none, none, none, false⟩]
    else [])
  else .ok []

/-- The assertion loop of `_validate_syntax_rules`. -/
def runAssertions (seg : CdmSegment) (ruleId : String) :
    List AssertionClause → Except String (List CdmValidationError)
  | [] => .ok []
  | a :: rest => do
    let es ← execAssertion seg a ruleId
    let esRest ← runAssertions seg ruleId rest
    .ok (es ++ esRest)

/-- The rule loop of `SegmentValidator._validate_syntax_rules`. -/
def runRules (seg : CdmSegment) : List SyntaxRule → Except String (List CdmValidationError)
  | [] => .ok []
  | r :: rest => do
    let met ← evalConditions seg r.conditions
    let es ← if met then runAssertions seg r.ruleId r.thenList else pure []
    let esRest ← runRules seg rest
    .ok (es ++ esRest)

/-- `SegmentValidator._validate_syntax_rules` (edi_parser.py). -/
def validateSyntaxRules (seg : CdmSegment) (eff : SegmentDefinition) :
    Except String (List CdmValidationError) :=
  runRules seg eff.rules

/-- The `elements_in_data` dict of `SegmentValidator.validate` followed by
`.get(el_pos, "")`: in a dict comprehension a later duplicate position
overwrites an earlier one. -/
def elemDataGet (els : List CdmElement) (p : Int) : String :=
  match (els.filter (fun e => (e.position : Int) = p)).getLast? with
  | some e => e.value
  | none => ""

/-- The per-element loop of `SegmentValidator.validate`. -/
def runElementChecks (compSep : Char) (seg : CdmSegment) :
    List EDef → Except String (List CdmValidationError)
  | [] => .ok []
  | edef :: rest => do
    let es ←
      if edef.seq = 0 then pure ([] : List CdmValidationError)  -- `if not el_pos: continue`
      else validateElementRec compSep edef (elemDataGet seg.elements edef.seq) none
    let esRest ← runElementChecks compSep seg rest
    .ok (es ++ esRest)

/-- The contextual-definition lookup of `SegmentValidator.validate`
(`self.schema.contextual_definitions.get(context_id) if context_id else None`). -/
def ctxLookup (schema : ImplementationGuideSchema) :
    Option String → Option ContextualDefinition
  | some c => lookupA schema.contextualDefinitions c
  | none => none

/-- `SegmentValidator.validate` (edi_parser.py).  A missing base
definition short-circuits with a single finding; otherwise element checks
run against the effective definition, followed by the syntax rules. -/
def validateSegment (schema : ImplementationGuideSchema) (compSep : Char)
    (seg : CdmSegment) (ctxId : Option String) :
    Except String (List CdmValidationError) :=
  match lookupA schema.segmentDefinitions seg.segment_id with
  | none =>
    .ok [⟨"Base definition for segment '" ++ seg.segment_id ++ "' not found in schema.",
          none, none, none, false⟩]
  | some baseDef =>
    let ctxDef := ctxLookup schema ctxId
    let eff := getEffectiveDefinition baseDef ctxDef
    do
      let elemErrs ← runElementChecks compSep seg eff.elements
      let ruleErrs ← validateSyntaxRules seg eff
      .ok (elemErrs ++ ruleErrs)

end EdiJson

namespace EdiJson

/-! ## Structural matcher (`src/edi_parser.py`, `EdiParser._find_best_schema_match`
and `EdiParser._build_tree`) -/

mutual

/-- Size of a structure node, the termination measure for tree-walking. -/
def scSize : StructureChild → Nat
  | .segment _ _ _ _ _ _ _ => 1
  | .loop _ _ _ _ children => 1 + scsSize children

/-- Size of a structure-node list. -/
def scsSize : List StructureChild → Nat
  | [] => 0
  | c :: rest => scSize c + scsSize rest

end

/-- `EdiParser._get_starting_segment_id` (edi_parser.py): a segment's own
xid; a loop's recursively through its first child; `none` for a childless
loop. -/
def getStartingSegmentId : StructureChild → Option String
  | .segment x _ _ _ _ _ _ => some x
  | .loop _ _ _ _ children =>
    match children with
    | [] => none
    | c :: _ => getStartingSegmentId c

/-- The `max_repeats` computation of `_find_best_schema_match`:
`max_use` for a segment node, `repeat` for a loop node, with a
non-integer string mapped to `99999`. -/
def maxRepeatsOf : StructureChild → Int
  | .segment _ _ _ mu _ _ _ => mu
  | .loop _ _ _ rep _ =>
    match rep with
    | .int n => n
    | .str s =>
      match pyIntParse s with
      | some n => n
      | none => 99999

/-- The `context_id` selection of `_find_best_schema_match`: a segment
node's own `contextDefinitionId`; for a loop node, the first child's when
that child is a segment; otherwise `none`. -/
def contextIdOf : StructureChild → Option String
  | .segment _ _ _ _ _ _ ctxId => ctxId
  | .loop _ _ _ _ children =>
    match children with
    | (.segment _ _ _ _ _ _ ctxId) :: _ => ctxId
    | _ => none

/-- Increment one entry of the usage-count dict
(`usage_counts[schema_node_index] += 1`). -/
def bump (j : Nat) (counts : Nat → Nat) : Nat → Nat :=
  fun k => if k = j then counts k + 1 else counts k

/-- The scan of `_find_best_schema_match`, with `i` the index of the head
of the remaining node list.  Skips a node whose usage reached its repeat
limit or whose starting id differs from the current segment's id; for the
remaining candidates performs the trial validation and selects the first
whose findings contain no identifier error. -/
def findBestAux (schema : ImplementationGuideSchema) (compSep : Char)
    (seg : CdmSegment) (counts : Nat → Nat) (i : Nat) :
    List StructureChild → Except String (Option (StructureChild × Nat))
  | [] => .ok none
  | node :: rest =>
    if (counts i : Int) ≥ maxRepeatsOf node then
      findBestAux schema compSep seg counts (i + 1) rest
    else if getStartingSegmentId node ≠ some seg.segment_id then
      findBestAux schema compSep seg counts (i + 1) rest
    else do
      let trialErrors ← validateSegment schema compSep seg (contextIdOf node)
      let identifierErrors := trialErrors.filter (fun e => e.is_identifier_error)
      if identifierErrors.isEmpty then .ok (some (node, i))
      else findBestAux schema compSep seg counts (i + 1) rest

/-- `EdiParser._find_best_schema_match` (edi_parser.py).  The Python
`(None, -1)` no-match result is `none`. -/
def findBestSchemaMatch (schema : ImplementationGuideSchema) (compSep : Char)
    (seg : CdmSegment) (nodes : List StructureChild) (counts : Nat → Nat) :
    Except String (Option (StructureChild × Nat)) :=
  findBestAux schema compSep seg counts 0 nodes

/-- Total remaining usage allowance of a node list under a count dict,
starting at index `i`: part of the termination measure of the matcher's
while loop. -/
def usageSlack (counts : Nat → Nat) : List StructureChild → Nat → Nat
  | [], _ => 0
  | node :: rest, i =>
    ((maxRepeatsOf node).toNat - counts i) + usageSlack counts rest (i + 1)

/-- Termination fact: a successful scan returns a node of the list at the
returned index, whose usage is strictly below its repeat limit. -/
def findBestAux_okBound :
    ∀ (schema : ImplementationGuideSchema) (compSep : Char) (seg : CdmSegment)
      (counts : Nat → Nat) (nodes : List StructureChild) (i : Nat)
      (n : StructureChild) (j : Nat),
      findBestAux schema compSep seg counts i nodes = .ok (some (n, j)) →
      i ≤ j ∧ j - i < nodes.length ∧ nodes.get? (j - i) = some n ∧
        (counts j : Int) < maxRepeatsOf n := by
  intro schema compSep seg counts nodes
  induction nodes with
  | nil => intro i n j h; simp [findBestAux] at h
  | cons node rest ih =>
    intro i n j h
    rw [findBestAux] at h
    split at h
    · have := ih (i + 1) n j h
      obtain ⟨h1, h2, h3, h4⟩ := this
      refine ⟨by omega, by simp; omega, ?_, h4⟩
      have hj : j - i = (j - (i + 1)) + 1 := by omega
      rw [hj]
      simpa using h3
    · split at h
      · have := ih (i + 1) n j h
        obtain ⟨h1, h2, h3, h4⟩ := this
        refine ⟨by omega, by simp; omega, ?_, h4⟩
        have hj : j - i = (j - (i + 1)) + 1 := by omega
        rw [hj]
        simpa using h3
      · rename_i hgate hid
        cases hval : validateSegment schema compSep seg (contextIdOf node) with
        | error e => rw [hval] at h; simp only [Bind.bind, Except.bind] at h; exact absurd h (by simp)
        | ok errs =>
          rw [hval] at h
          simp only [Bind.bind, Except.bind] at h
          split at h
          · simp at h
            obtain ⟨hn, hj⟩ := h
            subst hn; subst hj
            exact ⟨le_refl _, by simp, by simp, by omega⟩
          · have := ih (i + 1) n j h
            obtain ⟨h1, h2, h3, h4⟩ := this
            refine ⟨by omega, by simp; omega, ?_, h4⟩
            have hj : j - i = (j - (i + 1)) + 1 := by omega
            rw [hj]
            simpa using h3

/-- Termination fact, specialised to `findBestSchemaMatch`. -/
def findBest_okBound :
    ∀ (schema : ImplementationGuideSchema) (compSep : Char) (seg : CdmSegment)
      (counts : Nat → Nat) (nodes : List StructureChild)
      (n : StructureChild) (j : Nat),
      findBestSchemaMatch schema compSep seg nodes counts = .ok (some (n, j)) →
      j < nodes.length ∧ nodes.get? j = some n ∧
        (counts j : Int) < maxRepeatsOf n := by
  intro schema compSep seg counts nodes n j h
  have := findBestAux_okBound schema compSep seg counts nodes 0 n j h
  simpa using this

end EdiJson

namespace EdiJson

/-- Termination fact: `usageSlack` only reads indices at or above its
start index. -/
def usageSlack_congr :
    ∀ (nodes : List StructureChild) (f g : Nat → Nat) (i : Nat),
      (∀ k, i ≤ k → f k = g k) →
      usageSlack f nodes i = usageSlack g nodes i := by
  intro nodes
  induction nodes with
  | nil => intro f g i _; simp [usageSlack]
  | cons node rest ih =>
    intro f g i hfg
    simp only [usageSlack]
    rw [hfg i (le_refl i), ih f g (i + 1) (fun k hk => hfg k (by omega))]

/-- Termination fact: bumping a usage count that is strictly below its
node's repeat limit decreases the total slack by exactly one. -/
def usageSlack_bump :
    ∀ (nodes : List StructureChild) (counts : Nat → Nat) (i j : Nat)
      (n : StructureChild),
      i ≤ j → nodes.get? (j - i) = some n →
      counts j < (maxRepeatsOf n).toNat →
      usageSlack (bump j counts) nodes i + 1 = usageSlack counts nodes i := by
  intro nodes
  induction nodes with
  | nil => intro counts i j n _ hget _; simp at hget
  | cons node rest ih =>
    intro counts i j n hij hget hlt
    by_cases hji : j = i
    · subst hji
      simp only [Nat.sub_self, List.get?] at hget
      injection hget with hn
      subst hn
      simp only [usageSlack]
      have hrest : usageSlack (bump j counts) rest (j + 1) = usageSlack counts rest (j + 1) := by
        apply usageSlack_congr
        intro k hk
        simp only [bump]
        have : k ≠ j := by omega
        simp [this]
      rw [hrest]
      have hbj : bump j counts j = counts j + 1 := by simp [bump]
      rw [hbj]
      omega
    · have hij1 : i + 1 ≤ j := by omega
      have hget1 : rest.get? (j - (i + 1)) = some n := by
        have : j - i = (j - (i + 1)) + 1 := by omega
        rw [this] at hget
        simpa using hget
      have := ih counts (i + 1) j n hij1 hget1 hlt
      simp only [usageSlack]
      have hhead : bump j counts i = counts i := by
        simp only [bump]
        have : i ≠ j := by omega
        simp [this]
      rw [hhead]
      omega

/-- Termination fact: a member of a node list is no larger than the list. -/
def scsSize_get :
    ∀ (nodes : List StructureChild) (j : Nat) (n : StructureChild),
      nodes.get? j = some n → scSize n ≤ scsSize nodes := by
  intro nodes
  induction nodes with
  | nil => intro j n h; simp at h
  | cons node rest ih =>
    intro j n h
    cases j with
    | zero =>
      rw [List.get?_cons_zero] at h
      injection h with h
      subst h
      simp [scsSize]
    | succ j' =>
      rw [List.get?_cons_succ] at h
      have := ih j' n h
      simp [scsSize]
      omega

/-- Termination fact: the children of a loop node occurring in a node list
are strictly smaller than the list. -/
def scsSize_children_lt :
    ∀ (nodes : List StructureChild) (j : Nat) (x nm u : String)
      (rep : RepeatTok) (children : List StructureChild),
      nodes.get? j = some (.loop x nm u rep children) →
      scsSize children < scsSize nodes := by
  intro nodes j x nm u rep children h
  have h1 := scsSize_get nodes j _ h
  have h2 : scSize (.loop x nm u rep children) = 1 + scsSize children := by
    simp [scSize]
  omega

/-- Append a matched segment to the loop under construction
(`cdm_loop.segments.append(current_segment)`). -/
def CdmLoop.appendSegment (l : CdmLoop) (s : CdmSegment) : CdmLoop :=
  match l with
  | .mk i segs lo e => .mk i (segs ++ [s]) lo e

/-- Extend the loop's findings (`cdm_loop.errors.extend(…)`). -/
def CdmLoop.appendErrors (l : CdmLoop) (es : List CdmValidationError) : CdmLoop :=
  match l with
  | .mk i segs lo e => .mk i segs lo (e ++ es)

/-- One required-missing finding, as `_build_tree` renders it
(note: the node name is parenthesised but not quoted in the source). -/
def requiredMissingError (pid : String) (node : StructureChild) : CdmValidationError :=
  ⟨"Required segment or loop '" ++ node.xid ++ "' (" ++ node.nameStr ++
    ") is missing from loop '" ++ pid ++ "'.", none, none, none, false⟩

/-- The required-missing scan at the end of `_build_tree`, with `i` the
index of the head of the remaining node list. -/
def requiredMissingAux (pid : String) (counts : Nat → Nat) (i : Nat) :
    List StructureChild → List CdmValidationError
  | [] => []
  | node :: rest =>
    (if node.usage = "R" && counts i = 0 then [requiredMissingError pid node] else []) ++
      requiredMissingAux pid counts (i + 1) rest

/-- The findings appended by the required-missing check of `_build_tree`. -/
def requiredMissingErrors (nodes : List StructureChild) (counts : Nat → Nat)
    (pid : String) : List CdmValidationError :=
  requiredMissingAux pid counts 0 nodes

mutual

/-- `EdiParser._build_tree` (edi_parser.py): run the matching loop from
cursor 0 with zeroed usage counts and an empty loop, then append the
required-missing findings.  Returns the built loop and the number of
segments consumed. -/
def buildTree (schema : ImplementationGuideSchema) (compSep : Char)
    (segs : List CdmSegment) (nodes : List StructureChild) (pid : String) :
    Except String (CdmLoop × Nat) :=
  match buildTreeGo schema compSep segs nodes pid (fun _ => 0) 0 (.mk pid [] [] []) with
  | .error e => .error e
  | .ok (acc, cursor, counts) =>
    .ok (acc.appendErrors (requiredMissingErrors nodes counts pid), cursor)
termination_by (scsSize nodes, segs.length + usageSlack (fun _ => 0) nodes 0 + 1)
decreasing_by
  exact Prod.Lex.right _ (by omega)

/-- The `while cursor < len(segments)` loop of `_build_tree`, as explicit
state passing: `counts` is the usage dict, `cursor` the position in the
segment window, `acc` the loop built so far.  Returns the final loop
state, cursor, and usage counts. -/
def buildTreeGo (schema : ImplementationGuideSchema) (compSep : Char)
    (segs : List CdmSegment) (nodes : List StructureChild) (pid : String)
    (counts : Nat → Nat) (cursor : Nat) (acc : CdmLoop) :
    Except String (CdmLoop × Nat × (Nat → Nat)) :=
  if h : cursor < segs.length then
    match hfb : findBestSchemaMatch schema compSep (segs.get ⟨cursor, h⟩) nodes counts with
    | .error e => .error e
    | .ok none => .ok (acc, cursor, counts)   -- no match: break, leave the loop
    | .ok (some (node, j)) =>
      match hn : node with
      | .segment _ _ _ _ _ _ ctxId =>
        -- final validation, attach findings, commit the segment
        match validateSegment schema compSep (segs.get ⟨cursor, h⟩) ctxId with
        | .error e => .error e
        | .ok vErrs =>
          let seg' := if vErrs.isEmpty then segs.get ⟨cursor, h⟩
            else { segs.get ⟨cursor, h⟩ with
                   errors := (segs.get ⟨cursor, h⟩).errors ++ vErrs }
          buildTreeGo schema compSep segs nodes pid (bump j counts) (cursor + 1)
            (acc.appendSegment seg')
      | .loop x _ _ _ children =>
        -- recursively parse the sub-loop on the window tail
        match buildTree schema compSep (segs.drop cursor) children x with
        | .error e => .error e
        | .ok (sub, consumed) =>
          buildTreeGo schema compSep segs nodes pid (bump j counts) (cursor + consumed)
            ((acc.add_loop sub).appendErrors sub.errors)
  else .ok (acc, cursor, counts)
termination_by (scsSize nodes, (segs.length - cursor) + usageSlack counts nodes 0)
decreasing_by
  · have hb := findBest_okBound schema compSep (segs.get ⟨cursor, h⟩) counts nodes _ j hfb
    obtain ⟨hj, hget, hlt⟩ := hb
    have hslack := usageSlack_bump nodes counts 0 j _ (by omega) (by simpa using hget) (by omega)
    exact Prod.Lex.right _ (by omega)
  · have hb := findBest_okBound schema compSep (segs.get ⟨cursor, h⟩) counts nodes _ j hfb
    obtain ⟨hj, hget, hlt⟩ := hb
    exact Prod.Lex.left _ _ (scsSize_children_lt nodes j _ _ _ _ _ hget)
  · have hb := findBest_okBound schema compSep (segs.get ⟨cursor, h⟩) counts nodes _ j hfb
    obtain ⟨hj, hget, hlt⟩ := hb
    have hslack := usageSlack_bump nodes counts 0 j _ (by omega) (by simpa using hget) (by omega)
    exact Prod.Lex.right _ (by omega)

end

end EdiJson

namespace EdiJson

/-! ## Envelope decoding and the top-level driver (`EdiParser`) -/

/-- `EdiParser._detect_delimiters` (edi_parser.py): fixed offsets 3, 105,
104 of the opening ISA when present, defaults `('*', '~', ':')` otherwise.
Returned in source order: element delimiter, segment terminator, component
separator. -/
def detectDelimiters (ediString : String) : Char × Char × Char :=
  let clean := pyStrip ediString
  if pyStartsWith clean "ISA" && clean.length ≥ 106 then
    (clean.data.getD 3 '*', clean.data.getD 105 '~', clean.data.getD 104 ':')
  else
    ('*', '~', ':')

/-- The piece loop of `EdiParser._segmentize`: `i` is the raw piece index
(so `line_number = i + 1` counts empty pieces too); scanning stops right
after an `IEA` segment is appended. -/
def segmentizeAux (elementDelim : Char) : List (List Char) → Nat → List CdmSegment
  | [], _ => []
  | piece :: rest, i =>
    let cleanSeg := pyStrip (String.mk piece)
    if cleanSeg = "" then segmentizeAux elementDelim rest (i + 1)
    else
      let parts := pySplit elementDelim cleanSeg
      let segmentId := parts.headD ""
      let elements := (parts.drop 1).enum.map (fun p => CdmElement.mk p.2 (p.1 + 1))
      let seg : CdmSegment := ⟨segmentId, elements, i + 1, cleanSeg, []⟩
      if segmentId = "IEA" then [seg]
      else seg :: segmentizeAux elementDelim rest (i + 1)

/-- `EdiParser._segmentize` (edi_parser.py): normalise line endings, strip
newlines when the segment terminator is not newline, split on the segment
terminator, and build segments from the non-empty pieces. -/
def segmentize (ediString : String) (elementDelim segTerm : Char) :
    List CdmSegment :=
  let content0 := pyReplace (pyReplace (pyStrip ediString) "\r\n" "\n") "\r" "\n"
  let content := if segTerm ≠ '\n' then pyReplace content0 "\n" "" else content0
  segmentizeAux elementDelim (splitOnChar segTerm content.data) 0

/-- The scan of `_find_next_segment` over the remaining suffix, carrying
the absolute index of the suffix head. -/
def findNextAux (segmentId : String) : List CdmSegment → Nat → Option Nat
  | [], _ => none
  | s :: rest, i =>
    if s.segment_id = segmentId then some i
    else findNextAux segmentId rest (i + 1)

/-- `EdiParser._find_next_segment` (edi_parser.py): first index at or
after `startIndex` whose segment has the given id; Python's `-1` result
is `none`. -/
def findNextSegment (segmentId : String) (segments : List CdmSegment)
    (startIndex : Nat) : Option Nat :=
  findNextAux segmentId (segments.drop startIndex) startIndex

/-- Driver fact: a found index lies between the scan's start index and
start plus the scanned suffix length. -/
def findNextAux_okBound :
    ∀ (segmentId : String) (l : List CdmSegment) (i j : Nat),
      findNextAux segmentId l i = some j → i ≤ j ∧ j - i < l.length := by
  intro sid l
  induction l with
  | nil => intro i j h; simp [findNextAux] at h
  | cons s rest ih =>
    intro i j h
    rw [findNextAux] at h
    split at h
    · injection h with h
      subst h
      simp
    · have := ih (i + 1) j h
      simp only [List.length_cons]
      omega

/-- Driver fact: a found index lies between the start index and the list
length (used for the termination of the envelope scanning loops). -/
def findNextSegment_okBound :
    ∀ (segmentId : String) (segs : List CdmSegment) (start i : Nat),
      findNextSegment segmentId segs start = some i →
      start ≤ i ∧ i < segs.length := by
  intro sid segs start i h
  have := findNextAux_okBound sid (segs.drop start) start i h
  rw [List.length_drop] at this
  omega

/-- A placeholder segment for (unreachable) out-of-range `getD` accesses:
every index fed to it is produced by `findNextSegment` and is in range. -/
def dummySeg : CdmSegment := ⟨"", [], 0, "", []⟩

/-- The children of a loop node ("falsy" empty list for a segment node). -/
def loopChildren : StructureChild → List StructureChild
  | .loop _ _ _ _ c => c
  | .segment _ _ _ _ _ _ _ => []

/-- `next((n for n in nodes if isinstance(n, StructureLoop) and n.xid == x), None)`. -/
def findLoopWithXid (nodes : List StructureChild) (x : String) :
    Option StructureChild :=
  nodes.find? (fun n =>
    match n with
    | .loop x' _ _ _ _ => x' = x
    | .segment _ _ _ _ _ _ _ => false)

/-- The `ST_LOOP` schema lookup of `_parse_transaction_set`, with the
`ValueError`s the source raises when the structure tree lacks the
expected envelope loops. -/
def findStLoopSchema (schema : ImplementationGuideSchema) :
    Except String StructureChild :=
  match findLoopWithXid schema.structureNodes "ST_LOOP" with
  | some n => .ok n
  | none =>
    match findLoopWithXid schema.structureNodes "ISA_LOOP" with
    | none => .error "ValueError: ISA_LOOP not found in schema structure"
    | some isaLoop =>
      if (loopChildren isaLoop).isEmpty then
        .error "ValueError: ISA_LOOP not found in schema structure"
      else
        match findLoopWithXid (loopChildren isaLoop) "GS_LOOP" with
        | none => .error "ValueError: GS_LOOP not found in schema structure"
        | some gsLoop =>
          if (loopChildren gsLoop).isEmpty then
            .error "ValueError: GS_LOOP not found in schema structure"
          else
            match findLoopWithXid (loopChildren gsLoop) "ST_LOOP" with
            | some st => .ok st
            | none => .error "ValueError: ST_LOOP not found in schema structure"

/-- The `try` body of `_parse_transaction_set`: locate `ST_LOOP`, run the
matcher over the body window against its children (minus `ST`/`SE`),
propagate the body loop's findings, and record an unparsed-tail finding
when the matcher left segments unconsumed. -/
def parseTransactionSetBody (schema : ImplementationGuideSchema)
    (compSep : Char) (stSeg seSeg : CdmSegment)
    (bodySegs : List CdmSegment) : Except String CdmTransaction := do
  let stLoopSchema ← findStLoopSchema schema
  let stLoopChildren := (loopChildren stLoopSchema).filter
    (fun c => c.xid ≠ "ST" && c.xid ≠ "SE")
  let (bodyLoop, consumed) ← buildTree schema compSep bodySegs stLoopChildren "ST_LOOP"
  let t1 : CdmTransaction := ⟨stSeg, seSeg, bodyLoop, bodyLoop.errors⟩
  if consumed < bodySegs.length then
    match bodySegs.drop consumed with
    | [] => .ok t1   -- unreachable: `consumed < length` makes the tail non-empty
    | problematic :: _ =>
      let unparsedCount := bodySegs.length - consumed
      let errorMsg := "Transaction parsing incomplete. Could not process " ++
        toString unparsedCount ++ " remaining segments starting with '" ++
        problematic.segment_id ++ "' (line " ++ toString problematic.line_number ++
        "). This may indicate an unsupported structure or validation issue."
      .ok { t1 with errors := t1.errors ++
        [⟨errorMsg, some problematic.line_number, some problematic.segment_id, none, false⟩] }
  else .ok t1

/-- `EdiParser._parse_transaction_set` (edi_parser.py).  `segments[0]` and
`segments[-1]` sit outside the source's `try`, so an empty block raises;
everything else is caught and downgraded to a critical-error transaction
(the Lean error string stands for the Python exception text). -/
def parseTransactionSet (schema : ImplementationGuideSchema) (compSep : Char)
    (segs : List CdmSegment) : Except String CdmTransaction :=
  match segs with
  | [] => .error "IndexError: list index out of range"
  | st :: rest =>
    let se := (st :: rest).getLast (by simp)
    let bodySegs := ((st :: rest).drop 1).dropLast
    match parseTransactionSetBody schema compSep st se bodySegs with
    | .ok t => .ok t
    | .error e =>
      .ok ⟨st, se, .mk "ST_LOOP" [] [] [],
        [⟨"Critical parsing error: " ++ e, some st.line_number, some st.segment_id, none, false⟩]⟩

/-- The `while ts_cursor < len(transaction_segments)` loop of `parse`:
collects the transactions of one functional group, together with the
interchange-level findings (unclosed transaction sets) it records. -/
def parseTransactions (schema : ImplementationGuideSchema) (compSep : Char)
    (transactionSegments : List CdmSegment) (tsCursor : Nat) :
    Except String (List CdmTransaction × List CdmValidationError) :=
  match hst : findNextSegment "ST" transactionSegments tsCursor with
  | none => .ok ([], [])
  | some stIdx =>
    match hse : findNextSegment "SE" transactionSegments stIdx with
    | none =>
      .ok ([], [⟨"Unclosed transaction set at line " ++
        toString (transactionSegments.getD stIdx dummySeg).line_number ++ ".",
        none, none, none, false⟩])
    | some seIdx => do
      let block := (transactionSegments.drop stIdx).take (seIdx + 1 - stIdx)
      let t ← parseTransactionSet schema compSep block
      let (restTs, restErrs) ← parseTransactions schema compSep transactionSegments (seIdx + 1)
      .ok (t :: restTs, restErrs)
termination_by transactionSegments.length - tsCursor
decreasing_by
  have h1 := findNextSegment_okBound "ST" transactionSegments tsCursor stIdx hst
  have h2 := findNextSegment_okBound "SE" transactionSegments stIdx seIdx hse
  omega

/-- The `while cursor < len(group_segments)` loop of `parse`: collects the
functional groups of the interchange, together with the interchange-level
findings (unclosed groups / unclosed transactions) recorded on the way. -/
def parseGroups (schema : ImplementationGuideSchema) (compSep : Char)
    (groupSegments : List CdmSegment) (cursor : Nat) :
    Except String (List CdmFunctionalGroup × List CdmValidationError) :=
  match hgs : findNextSegment "GS" groupSegments cursor with
  | none => .ok ([], [])
  | some gsIdx =>
    match hge : findNextSegment "GE" groupSegments gsIdx with
    | none =>
      .ok ([], [⟨"Unclosed functional group at line " ++
        toString (groupSegments.getD gsIdx dummySeg).line_number ++ ".",
        none, none, none, false⟩])
    | some geIdx => do
      let gsSeg := groupSegments.getD gsIdx dummySeg
      let geSeg := groupSegments.getD geIdx dummySeg
      let gsErrs ← validateSegment schema compSep gsSeg none
      let geErrs ← validateSegment schema compSep geSeg none
      let gsSeg1 := { gsSeg with errors := gsSeg.errors ++ gsErrs }
      let geSeg1 := { geSeg with errors := geSeg.errors ++ geErrs }
      let transactionSegments := (groupSegments.drop (gsIdx + 1)).take (geIdx - (gsIdx + 1))
      let (transactions, transErrs) ← parseTransactions schema compSep transactionSegments 0
      let fg : CdmFunctionalGroup := ⟨gsSeg1, geSeg1, transactions, []⟩
      let (restGroups, restErrs) ← parseGroups schema compSep groupSegments (geIdx + 1)
      .ok (fg :: restGroups, transErrs ++ restErrs)
termination_by groupSegments.length - cursor
decreasing_by
  have h1 := findNextSegment_okBound "GS" groupSegments cursor gsIdx hgs
  have h2 := findNextSegment_okBound "GE" groupSegments gsIdx geIdx hge
  omega

/-- `EdiParser.parse` (edi_parser.py), composed with the constructor's
delimiter detection and segmentisation (`EdiParser.__init__`).  The final
`_collect_all_errors` walk of the source only feeds logging and does not
change the returned interchange, so it is not replayed here.  Errors of
the envelope-segment validations (ISA, IEA, GS, GE) propagate out of
`parse`, exactly as the uncaught Python exceptions would. -/
def parse (ediString : String) (schema : ImplementationGuideSchema) :
    Except String CdmInterchange :=
  let delims := detectDelimiters ediString
  let compSep := delims.2.2
  let allSegments := segmentize ediString delims.1 delims.2.1
  let isaIdxOpt := findNextSegment "ISA" allSegments 0
  let ieaIdxOpt := findNextSegment "IEA" allSegments (isaIdxOpt.getD 0)
  match isaIdxOpt, ieaIdxOpt with
  | some isaIdx, some ieaIdx => do
    let isaSeg := allSegments.getD isaIdx dummySeg
    let ieaSeg := allSegments.getD ieaIdx dummySeg
    let isaErrs ← validateSegment schema compSep isaSeg none
    let ieaErrs ← validateSegment schema compSep ieaSeg none
    let isaSeg1 := { isaSeg with errors := isaSeg.errors ++ isaErrs }
    let ieaSeg1 := { ieaSeg with errors := ieaSeg.errors ++ ieaErrs }
    let groupSegments := (allSegments.drop (isaIdx + 1)).take (ieaIdx - (isaIdx + 1))
    let (groups, groupErrs) ← parseGroups schema compSep groupSegments 0
    .ok ⟨isaSeg1, ieaSeg1, groups, groupErrs⟩
  | _, _ =>
    .ok ⟨⟨"ISA", [], 0, "", []⟩, ⟨"IEA", [], 0, "", []⟩, [],
      [⟨"ISA/IEA envelope not found.", none, none, none, false⟩]⟩

end EdiJson

namespace EdiJson

/-! ## TA1 definitions, generator, and envelope validator
(`src/ta1_generator.py`, `src/ta1_validator.py`) -/

/-- Modelled from the spec: the repository imports `ta1_defs`
(`TA1NoteCode`, `TA1AcknowledgementCode`, `InterchangeError`), which is
not under `src/`; the note-code taxonomy and its three-digit values are
taken from spec §4.5 (and corroborated by the repository's tests). -/
inductive TA1NoteCode where
  | NO_ERROR
  | ICN_MISMATCH_IN_HEADER_TRAILER
  | INVALID_SEGMENT_TERMINATOR
  | INVALID_SENDER_ID_QUALIFIER
  | INVALID_SENDER_ID
  | INVALID_RECEIVER_ID_QUALIFIER
  | INVALID_RECEIVER_ID
  | INVALID_AUTH_QUALIFIER
  | INVALID_AUTH_VALUE
  | INVALID_SECURITY_QUALIFIER
  | INVALID_SECURITY_VALUE
  | INVALID_INTERCHANGE_DATE
  | INVALID_INTERCHANGE_TIME
  | INVALID_INTERCHANGE_STANDARDS_ID
  | INVALID_INTERCHANGE_VERSION_ID
  | INVALID_INTERCHANGE_CONTROL_NUMBER
  | INVALID_ACKNOWLEDGMENT_REQUESTED
  | INVALID_TEST_INDICATOR
  | INVALID_GROUP_COUNT
  | INVALID_CONTROL_STRUCTURE
  | INVALID_ELEMENT_SEPARATOR
  | INVALID_COMPONENT_SEPARATOR
  deriving Repr, DecidableEq

/-- Modelled from the spec: the three-digit wire value of each note code
(spec §4.5). -/
def TA1NoteCode.value : TA1NoteCode → String
  | .NO_ERROR => "000"
  | .ICN_MISMATCH_IN_HEADER_TRAILER => "001"
  | .INVALID_SEGMENT_TERMINATOR => "004"
  | .INVALID_SENDER_ID_QUALIFIER => "005"
  | .INVALID_SENDER_ID => "006"
  | .INVALID_RECEIVER_ID_QUALIFIER => "007"
  | .INVALID_RECEIVER_ID => "008"
  | .INVALID_AUTH_QUALIFIER => "010"
  | .INVALID_AUTH_VALUE => "011"
  | .INVALID_SECURITY_QUALIFIER => "012"
  | .INVALID_SECURITY_VALUE => "013"
  | .INVALID_INTERCHANGE_DATE => "014"
  | .INVALID_INTERCHANGE_TIME => "015"
  | .INVALID_INTERCHANGE_STANDARDS_ID => "016"
  | .INVALID_INTERCHANGE_VERSION_ID => "017"
  | .INVALID_INTERCHANGE_CONTROL_NUMBER => "018"
  | .INVALID_ACKNOWLEDGMENT_REQUESTED => "019"
  | .INVALID_TEST_INDICATOR => "020"
  | .INVALID_GROUP_COUNT => "021"
  | .INVALID_CONTROL_STRUCTURE => "022"
  | .INVALID_ELEMENT_SEPARATOR => "026"
  | .INVALID_COMPONENT_SEPARATOR => "027"

/-- Modelled from the spec: the acknowledgement code enum of `ta1_defs`
(`A` accepted, `R` rejected; spec §4.6 and the repository's tests). -/
inductive TA1AcknowledgementCode where
  | ACCEPTED
  | REJECTED
  deriving Repr, DecidableEq

def TA1AcknowledgementCode.value : TA1AcknowledgementCode → String
  | .ACCEPTED => "A"
  | .REJECTED => "R"

/-- Modelled from the spec: the `InterchangeError` record of `ta1_defs`
carries a note code. -/
structure InterchangeError where
  note_code : TA1NoteCode
  deriving Repr, DecidableEq

/-- `TA1Generator.generate` (ta1_generator.py).  `datetime.now()` is an
effect: the two `strftime` renderings (`%y%m%d` and `%H%M`) are passed in;
the response ICN is their concatenation (`%y%m%d%H%M`) zero-filled. -/
def generateTA1 (isaHeader : CdmSegment) (errors : List InterchangeError)
    (forceGeneration : Bool) (responseDate responseTime : String) :
    Option String :=
  if isaHeader.elements.length < 16 then none
  else
    let ackRequested := match isaHeader.get_element 14 with
      | some v => if v = "" then false else pyStrip v = "1"
      | none => false
    let hasErrors := !errors.isEmpty
    if !hasErrors && !ackRequested && !forceGeneration then none
    else
      let ackCode := if !hasErrors then TA1AcknowledgementCode.ACCEPTED
        else TA1AcknowledgementCode.REJECTED
      let noteCode := if !hasErrors then TA1NoteCode.NO_ERROR
        else (errors.headD ⟨TA1NoteCode.NO_ERROR⟩).note_code
      let originalIcn := zfill 9 (pyStrip ((isaHeader.get_element 13).getD ""))
      let originalDateStr := (isaHeader.get_element 9).getD ""
      let originalTimeStr := (isaHeader.get_element 10).getD ""
      let ta1Date := if originalDateStr.length = 8 then
        String.mk (originalDateStr.data.drop 2) else originalDateStr
      let ta1Time := originalTimeStr
      let responseIcn := zfill 9 (responseDate ++ responseTime)
      let originalAuthQual := pyOrStr (isaHeader.get_element 1) "00"
      let originalAuthInfo := pyOrStr (isaHeader.get_element 2) "          "
      let originalSecurityQual := pyOrStr (isaHeader.get_element 3) "00"
      let originalSecurityInfo := pyOrStr (isaHeader.get_element 4) "          "
      let originalSenderQual := pyOrStr (isaHeader.get_element 5) "ZZ"
      let originalSenderId := pyOrStr (isaHeader.get_element 6) "               "
      let originalReceiverQual := pyOrStr (isaHeader.get_element 7) "ZZ"
      let originalReceiverId := pyOrStr (isaHeader.get_element 8) "               "
      let originalStandardsId := pyOrStr (isaHeader.get_element 11) "^"
      let originalVersion := pyOrStr (isaHeader.get_element 12) "00501"
      let originalTestIndicator := pyOrStr (isaHeader.get_element 15) "P"
      let originalComponentSeparator := pyOrStr (isaHeader.get_element 16) ">"
      let ta1Segment := "TA1*" ++ originalIcn ++ "*" ++ ta1Date ++ "*" ++
        ta1Time ++ "*" ++ ackCode.value ++ "*" ++ noteCode.value
      let isaResponse := "ISA*" ++ originalAuthQual ++ "*" ++ originalAuthInfo ++ "*" ++
        originalSecurityQual ++ "*" ++ originalSecurityInfo ++ "*" ++
        originalReceiverQual ++ "*" ++ originalReceiverId ++ "*" ++
        originalSenderQual ++ "*" ++ originalSenderId ++ "*" ++
        responseDate ++ "*" ++ responseTime ++ "*" ++ originalStandardsId ++ "*" ++
        originalVersion ++ "*" ++ responseIcn ++ "*0*" ++ originalTestIndicator ++
        "*" ++ originalComponentSeparator ++ "~"
      let ieaResponse := "IEA*1*" ++ responseIcn ++ "~"
      some (isaResponse ++ ta1Segment ++ "~" ++ ieaResponse)

/-- Whether `datetime.strptime(s, '%y%m%d')` succeeds: two year digits,
then a one- or two-digit month and day (strptime's regex allows both),
the whole string consumed, and a real calendar date after the century
mapping (`00–68 → 2000s`, `69–99 → 1900s`). -/
def pyStrptimeYyMmDd (s : String) : Bool :=
  match s.data with
  | y1 :: y2 :: rest =>
    if !(y1.isDigit && y2.isDigit) then false
    else
      let y := (y1.toNat - '0'.toNat) * 10 + (y2.toNat - '0'.toNat)
      let year := if y ≤ 68 then 2000 + y else 1900 + y
      let tokVal : List Char → Option Nat := fun cs =>
        if cs.all Char.isDigit && !cs.isEmpty then
          some (decimalValue cs)
        else none
      let tryMD : Nat → Nat → Bool := fun mlen dlen =>
        if mlen + dlen = rest.length then
          match tokVal (rest.take mlen), tokVal (rest.drop mlen) with
          | some m, some d =>
            1 ≤ m && m ≤ 12 && 1 ≤ d && d ≤ 31 && d ≤ daysInMonth year m
          | _, _ => false
        else false
      tryMD 2 2 || tryMD 2 1 || tryMD 1 2 || tryMD 1 1
  | _ => false

/-- Whether `datetime.strptime(s, '%H%M')` succeeds: a one- or two-digit
hour (0–23) and minute (0–59) consuming the whole string. -/
def pyStrptimeHhMm (s : String) : Bool :=
  let cs := s.data
  let tokVal : List Char → Option Nat := fun l =>
    if l.all Char.isDigit && !l.isEmpty then some (decimalValue l) else none
  let tryHM : Nat → Nat → Bool := fun hlen mlen =>
    if hlen + mlen = cs.length then
      match tokVal (cs.take hlen), tokVal (cs.drop hlen) with
      | some h, some mi => h ≤ 23 && mi ≤ 59
      | _, _ => false
    else false
  tryHM 2 2 || tryHM 2 1 || tryHM 1 2 || tryHM 1 1

/-- The `add_error` helper of `validate_interchange_envelope`: errors are
deduplicated by note code. -/
def addNote (errors : List InterchangeError) (nc : TA1NoteCode) :
    List InterchangeError :=
  if errors.any (fun e => e.note_code = nc) then errors else errors ++ [⟨nc⟩]

/-- `.strip()` on an `Optional[str]`, raising `AttributeError` on `None`
exactly where the source would. -/
def stripReq (o : Option String) : Except String String :=
  match o with
  | some s => .ok (pyStrip s)
  | none => .error "AttributeError: NoneType object has no attribute strip"

/-- The delimiter self-test of `validate_interchange_envelope`: the three
conditional `add_error` calls on the characters at offsets 3, 105, 104
(the trimmed input is known to start with `ISA` and reach offset 105).
`len(…) != 1` of the source is always false, the delimiters being single
indexed characters. -/
def envelopeDelimiterErrors (raw : String) : List InterchangeError :=
  let clean := pyStrip raw
  let elementSep := clean.data.getD 3 ' '
  let segmentTerm := clean.data.getD 105 ' '
  let componentSep := clean.data.getD 104 ' '
  let errs1 := if pyIsAlnumChar elementSep || elementSep = '\r' || elementSep = '\n'
    then addNote [] .INVALID_ELEMENT_SEPARATOR else []
  let errs2 := if pyIsAlnumChar segmentTerm
    then addNote errs1 .INVALID_SEGMENT_TERMINATOR else errs1
  if pyIsAlnumChar componentSep
    then addNote errs2 .INVALID_COMPONENT_SEPARATOR else errs2

/-- The element-level checks of `validate_interchange_envelope` (run only
when the delimiter self-test produced no errors, so `errs` is empty). -/
def envelopeElementChecks (interchange : CdmInterchange)
    (errs3 : List InterchangeError) : Except String (List InterchangeError) := do
      let isa := interchange.header
      let iea := interchange.trailer
      let isa13s ← stripReq (isa.get_element 13)
      let iea2s ← stripReq (iea.get_element 2)
      let e1 := if isa13s ≠ iea2s then addNote errs3 .ICN_MISMATCH_IN_HEADER_TRAILER else errs3
      let isa5s ← stripReq (isa.get_element 5)
      let e2 := if !(["01", "14", "20", "27", "28", "29", "30", "33", "ZZ"].contains isa5s)
        then addNote e1 .INVALID_SENDER_ID_QUALIFIER else e1
      let e3 := if (match isa.get_element 6 with
          | none => true
          | some v => v = "" || pyStrip v = "")
        then addNote e2 .INVALID_SENDER_ID else e2
      let isa7s ← stripReq (isa.get_element 7)
      let e4 := if !(["01", "14", "20", "27", "28", "29", "30", "33", "ZZ"].contains isa7s)
        then addNote e3 .INVALID_RECEIVER_ID_QUALIFIER else e3
      let e5 := if (match isa.get_element 8 with
          | none => true
          | some v => v = "" || pyStrip v = "")
        then addNote e4 .INVALID_RECEIVER_ID else e4
      let isa1s ← stripReq (isa.get_element 1)
      let e6 := if !(["00", "03"].contains isa1s)
        then addNote e5 .INVALID_AUTH_QUALIFIER else e5
      let e7 := if isa1s = "03" && (match isa.get_element 2 with
          | none => true
          | some v => v = "" || pyStrip v = "")
        then addNote e6 .INVALID_AUTH_VALUE else e6
      let e8 ← if isa1s = "00" then do
          let isa2s ← stripReq (isa.get_element 2)
          pure (if isa2s ≠ "" then addNote e7 .INVALID_AUTH_VALUE else e7)
        else pure e7
      let isa3s ← stripReq (isa.get_element 3)
      let e9 := if !(["00", "01"].contains isa3s)
        then addNote e8 .INVALID_SECURITY_QUALIFIER else e8
      let e10 := if isa3s = "01" && (match isa.get_element 4 with
          | none => true
          | some v => v = "" || pyStrip v = "")
        then addNote e9 .INVALID_SECURITY_VALUE else e9
      let e11 ← if isa3s = "00" then do
          let isa4s ← stripReq (isa.get_element 4)
          pure (if isa4s ≠ "" then addNote e10 .INVALID_SECURITY_VALUE else e10)
        else pure e10
      let e12 := if (match isa.get_element 9 with
          | none => true   -- strptime(None, …) raises TypeError, caught
          | some v => !pyStrptimeYyMmDd v)
        then addNote e11 .INVALID_INTERCHANGE_DATE else e11
      let e13 := if (match isa.get_element 10 with
          | none => true
          | some v => !pyStrptimeHhMm v)
        then addNote e12 .INVALID_INTERCHANGE_TIME else e12
      let e14 := if isa.get_element 11 ≠ some "^"
        then addNote e13 .INVALID_INTERCHANGE_STANDARDS_ID else e13
      let e15 := if (match isa.get_element 12 with
          | none => true
          | some v => v = "" || v.length ≠ 5 || !pyIsDigit v)
        then addNote e14 .INVALID_INTERCHANGE_VERSION_ID else e14
      let e16 := if (match isa.get_element 13 with
          | none => true
          | some v => v = "" || !pyIsDigit (pyStrip v) || (pyStrip v).length ≠ 9)
        then addNote e15 .INVALID_INTERCHANGE_CONTROL_NUMBER else e15
      let e17 := if (match isa.get_element 14 with
          | none => true
          | some v => v ≠ "0" && v ≠ "1")
        then addNote e16 .INVALID_ACKNOWLEDGMENT_REQUESTED else e16
      let e18 := if (match isa.get_element 15 with
          | none => true
          | some v => v ≠ "T" && v ≠ "P")
        then addNote e17 .INVALID_TEST_INDICATOR else e17
      let gsCount := interchange.functional_groups.length
      let e19 := (match iea.get_element 1 with
        | none => addNote e18 .INVALID_GROUP_COUNT      -- int(None): TypeError, caught
        | some v =>
          match pyIntParse v with
          | none => addNote e18 .INVALID_GROUP_COUNT    -- int(str): ValueError, caught
          | some n => if (gsCount : Int) ≠ n then addNote e18 .INVALID_GROUP_COUNT else e18)
      .ok e19

/-- `validate_interchange_envelope` (ta1_validator.py). -/
def validateInterchangeEnvelope (interchange : CdmInterchange)
    (rawEdiString : String) : Except String (List InterchangeError) :=
  let clean := pyStrip rawEdiString
  if !(pyStartsWith clean "ISA" && clean.length ≥ 106) then
    .ok (addNote [] .INVALID_CONTROL_STRUCTURE)
  else
    let errs3 := envelopeDelimiterErrors rawEdiString
    if !errs3.isEmpty then .ok errs3
    else if interchange.header.elements.isEmpty || interchange.trailer.elements.isEmpty then
      .ok (addNote errs3 .INVALID_CONTROL_STRUCTURE)
    else envelopeElementChecks interchange errs3

end EdiJson

namespace EdiJson

/-! ## Observations on the built document: counting and traversal -/

mutual

/-- Number of segments stored anywhere in a loop tree. -/
def treeSegCount : CdmLoop → Nat
  | .mk _ segs entries _ => segs.length + treeSegCountEntries entries

def treeSegCountEntries : List (String × List CdmLoop) → Nat
  | [] => 0
  | (_, ls) :: rest => treeSegCountList ls + treeSegCountEntries rest

def treeSegCountList : List CdmLoop → Nat
  | [] => 0
  | l :: ls => treeSegCount l + treeSegCountList ls

end

mutual

/-- Structure-following pre-order traversal of a loop tree: a loop's
directly-contained segments, then its child-loop dict in key order, each
instance list in insertion order. -/
def preorderLoop : CdmLoop → List CdmSegment
  | .mk _ segs entries _ => segs ++ preorderEntries entries

def preorderEntries : List (String × List CdmLoop) → List CdmSegment
  | [] => []
  | (_, ls) :: rest => preorderList ls ++ preorderEntries rest

def preorderList : List CdmLoop → List CdmSegment
  | [] => []
  | l :: ls => preorderLoop l ++ preorderList ls

end

mutual

/-- The directly-contained segment list of every loop in a tree. -/
def directSegLists : CdmLoop → List (List CdmSegment)
  | .mk _ segs entries _ => segs :: directSegListsEntries entries

def directSegListsEntries : List (String × List CdmLoop) → List (List CdmSegment)
  | [] => []
  | (_, ls) :: rest => directSegListsList ls ++ directSegListsEntries rest

def directSegListsList : List CdmLoop → List (List CdmSegment)
  | [] => []
  | l :: ls => directSegLists l ++ directSegListsList ls

end

/-- Pre-order traversal of a whole interchange: ISA, then each group
(GS, its transactions as ST/body/SE, GE), then IEA. -/
def preorderInterchange (ic : CdmInterchange) : List CdmSegment :=
  [ic.header] ++
    (ic.functional_groups.flatMap (fun g =>
      [g.header] ++
        (g.transactions.flatMap (fun t =>
          [t.header] ++ preorderLoop t.body ++ [t.trailer])) ++
        [g.trailer])) ++
    [ic.trailer]

/-- Number of segments appearing anywhere in an interchange: headers,
trailers and loop bodies at all depths. -/
def interchangeSegCount (ic : CdmInterchange) : Nat :=
  (preorderInterchange ic).length

/-- Number of segments of one transaction (ST, SE, and its body tree). -/
def transactionSegCount (t : CdmTransaction) : Nat :=
  2 + treeSegCount t.body

end EdiJson

namespace EdiJson

/-! ## Auxiliary predicates and concrete fixtures for the claims -/

/-- The stream positions (line numbers) of a segment list. -/
def lineNos (l : List CdmSegment) : List Nat := l.map (fun s => s.line_number)

/-- Invariant of the matcher's accumulator: its direct segments come, in
order, from the already-scanned prefix of the window, and every segment
list of an already-committed sub-loop respects the window's order. -/
def AccInv (segs : List CdmSegment) (cursor : Nat) (acc : CdmLoop) : Prop :=
  (lineNos acc.segments).Sublist (lineNos (segs.take cursor)) ∧
  ∀ sl ∈ directSegListsEntries acc.loops, (lineNos sl).Sublist (lineNos segs)

/-- The gates of `_find_best_schema_match` as the code computes them:
usage strictly below the (99999-capped) repeat limit, starting-id match,
and an identifier-error-free trial validation. -/
def codeGate (schema : ImplementationGuideSchema) (compSep : Char)
    (seg : CdmSegment) (counts : Nat → Nat) (i : Nat)
    (node : StructureChild) : Prop :=
  (counts i : Int) < maxRepeatsOf node ∧
  getStartingSegmentId node = some seg.segment_id ∧
  ∃ errs, validateSegment schema compSep seg (contextIdOf node) = .ok errs ∧
    (errs.filter (fun e => e.is_identifier_error)).isEmpty = true

/-- Modelled from the claim's wording, for comparison with the code: the
usage gate with a non-integer repeat token treated as *unbounded*
(the code instead caps it at 99999). -/
def specUsageGate (counts : Nat → Nat) (i : Nat) (node : StructureChild) : Prop :=
  match node with
  | .segment _ _ _ mu _ _ _ => (counts i : Int) < mu
  | .loop _ _ _ rep _ =>
    match rep with
    | .int n => (counts i : Int) < n
    | .str s =>
      match pyIntParse s with
      | some n => (counts i : Int) < n
      | none => True

/-- Whether a string is free of the generator's two wire delimiters. -/
def noStarTilde (s : String) : Bool :=
  s.data.all (fun ch => ch ≠ '*' && ch ≠ '~')

/-- Fields of the `segIdx`-th `~`-terminated segment of a generated TA1
interchange, split on `*`. -/
def ta1Fields (out : String) (segIdx : Nat) : List String :=
  (splitOnChar '*' ((splitOnChar '~' out.data).getD segIdx [])).map String.mk

/-- `'*'.intercalate`-style join of raw field character lists. -/
def joinStar : List (List Char) → List Char
  | [] => []
  | [f] => f
  | f :: rest => f ++ '*' :: joinStar rest

/-- Safety of one syntax-rule condition clause: its element reference
contains a digit, and `IS`/`IS_NOT` clauses carry a value. -/
def clauseSafeB (c : ConditionClause) : Bool :=
  !(keepDigits c.element).data.isEmpty &&
  (if c.operator = "IS" || c.operator = "IS_NOT" then c.value.isSome else true)

/-- Safety of one syntax-rule assertion: the fields it reads exist and its
element references contain digits. -/
def assertionSafeB (a : AssertionClause) : Bool :=
  if a.assertion = "MUST_BE_PRESENT" then
    match a.element with
    | some e => !(keepDigits e).data.isEmpty
    | none => false
  else if a.assertion = "MUST_HAVE_LENGTH" then
    (match a.element with
     | some e => !(keepDigits e).data.isEmpty
     | none => false) && a.value.isSome
  else if a.assertion = "ANY_OF_MUST_BE_PRESENT" then
    match a.elements with
    | some l => l.all (fun e => !(keepDigits e).data.isEmpty)
    | none => false
  else true

/-- Safety of one syntax rule. -/
def ruleSafeB (r : SyntaxRule) : Bool :=
  (match r.conditions.all_of with
   | some cs => cs.all clauseSafeB
   | none => true) &&
  (match r.conditions.any_of with
   | some cs => cs.all clauseSafeB
   | none => true) &&
  r.thenList.all assertionSafeB

mutual

/-- All sequence numbers of an element definition (at every depth) are
non-negative, so no negative Python list index can arise. -/
def edefSeqSafeB : EDef → Bool
  | .mk _ _ seq _ _ _ _ _ subs _ =>
    decide (0 ≤ seq) &&
      (match subs with
       | some l => edefsSeqSafeB l
       | none => true)

def edefsSeqSafeB : List EDef → Bool
  | [] => true
  | e :: rest => edefSeqSafeB e && edefsSeqSafeB rest

end

/-- Safety of one override's sequence number. -/
def ovScalarSeqSafeB (o : EOvScalar) : Bool :=
  match o.seq with
  | some v => decide (0 ≤ v)
  | none => true

/-- Safety of a contextual definition: overridden sequence numbers stay
non-negative. -/
def ctxSafeB (c : ContextualDefinition) : Bool :=
  c.elements.all (fun p =>
    ovScalarSeqSafeB p.2.scalar &&
      (match p.2.sub_elements with
       | some l => l.all (fun q => ovScalarSeqSafeB q.2)
       | none => true))

/-- Schema well-formedness under which the validator never raises: every
syntax rule is safe and every sequence number (base or override) is
non-negative. -/
def schemaSafeB (schema : ImplementationGuideSchema) : Bool :=
  schema.segmentDefinitions.all (fun p =>
    p.2.rules.all ruleSafeB && edefsSeqSafeB p.2.elements) &&
  schema.contextualDefinitions.all (fun p => ctxSafeB p.2)

end EdiJson

namespace EdiJson

/-! ### Concrete fixtures used by the claim witnesses and counterexamples -/

/-- A schema with no definitions: every segment validates to the single
base-definition-not-found finding (which is not an identifier error). -/
def emptySchema : ImplementationGuideSchema := ⟨[], [], []⟩

def c1Seg : CdmSegment := ⟨"X", [⟨"1", 1⟩], 1, "X*1", []⟩

def c1NodeW : StructureChild := .segment "W" (some "W SEG") "S" 1 none none none

def c1NodeX : StructureChild := .segment "X" (some "X SEG") "S" 1 none none none

/-- A loop with the non-integer repeat token `">1"`. -/
def c1LoopUnbounded : StructureChild :=
  .loop "XL" "X LOOP" "S" (.str ">1") [c1NodeX]

/-- A syntax rule whose condition references element `"ISA"`: the
position extraction `int(re.sub(r'\D', '', "ISA"))` raises `ValueError`. -/
def c2BadRule : SyntaxRule :=
  ⟨"R1", ⟨some [⟨"ISA", "IS_PRESENT", none⟩], none⟩, []⟩

def c2BadSegDef : SegmentDefinition := ⟨"ISA", "R", 1, [], [c2BadRule]⟩

def c2BadSchema : ImplementationGuideSchema :=
  ⟨[("ISA", c2BadSegDef)], [], []⟩

def c2BadInput : String := "ISA*1~IEA*1~"

/-- A required segment node; two copies of it in one sibling list produce
two identical required-missing findings. -/
def c3NodeM : StructureChild := .segment "M" (some "M SEG") "R" 1 none none none

def c3Msg : String :=
  "Required segment or loop 'M' (M SEG) is missing from loop 'P'."

/-- An ISA header with only 15 elements, the 14th being `"1"`. -/
def c4Isa15 : CdmSegment :=
  ⟨"ISA", [⟨"00", 1⟩, ⟨"", 2⟩, ⟨"00", 3⟩, ⟨"", 4⟩, ⟨"ZZ", 5⟩, ⟨"S", 6⟩,
    ⟨"ZZ", 7⟩, ⟨"R", 8⟩, ⟨"240101", 9⟩, ⟨"1200", 10⟩, ⟨"^", 11⟩,
    ⟨"00501", 12⟩, ⟨"000000001", 13⟩, ⟨"1", 14⟩, ⟨"P", 15⟩], 1, "", []⟩

/-- A fully populated 16-element ISA header requesting acknowledgement. -/
def c5Isa : CdmSegment :=
  ⟨"ISA", [⟨"00", 1⟩, ⟨"AUTHINFO15", 2⟩, ⟨"00", 3⟩, ⟨"SECINFO", 4⟩,
    ⟨"ZZ", 5⟩, ⟨"SENDERID", 6⟩, ⟨"YY", 7⟩, ⟨"RECEIVERID", 8⟩,
    ⟨"240718", 9⟩, ⟨"1200", 10⟩, ⟨"^", 11⟩, ⟨"00501", 12⟩,
    ⟨"000000001", 13⟩, ⟨"1", 14⟩, ⟨"P", 15⟩, ⟨":", 16⟩], 1, "", []⟩

/-- Like `c5Isa` but with an empty component-separator element (ISA16). -/
def c9Isa : CdmSegment :=
  ⟨"ISA", [⟨"00", 1⟩, ⟨"AUTHINFO15", 2⟩, ⟨"00", 3⟩, ⟨"SECINFO", 4⟩,
    ⟨"ZZ", 5⟩, ⟨"SENDERID", 6⟩, ⟨"YY", 7⟩, ⟨"RECEIVERID", 8⟩,
    ⟨"240718", 9⟩, ⟨"1200", 10⟩, ⟨"^", 11⟩, ⟨"00501", 12⟩,
    ⟨"000000001", 13⟩, ⟨"1", 14⟩, ⟨"P", 15⟩, ⟨"", 16⟩], 1, "", []⟩

/-- Like `c5Isa` but with an empty receiver qualifier (ISA07). -/
def c5IsaEmptyReceiver : CdmSegment :=
  ⟨"ISA", [⟨"00", 1⟩, ⟨"AUTHINFO15", 2⟩, ⟨"00", 3⟩, ⟨"SECINFO", 4⟩,
    ⟨"ZZ", 5⟩, ⟨"SENDERID", 6⟩, ⟨"", 7⟩, ⟨"RECEIVERID", 8⟩,
    ⟨"240718", 9⟩, ⟨"1200", 10⟩, ⟨"^", 11⟩, ⟨"00501", 12⟩,
    ⟨"000000001", 13⟩, ⟨"1", 14⟩, ⟨"P", 15⟩, ⟨":", 16⟩], 1, "", []⟩

def c6Input : String := "FOO*1~ISA*1~IEA*1~"

def c6NodeX : StructureChild := .segment "X" (some "X SEG") "R" 1 none none none

def c6StLoop : StructureChild :=
  .loop "ST_LOOP" "TRANSACTION" "R" (.int 1) [c6NodeX]

def c6Schema : ImplementationGuideSchema := ⟨[], [], [c6StLoop]⟩

def c6SegSt : CdmSegment := ⟨"ST", [⟨"837", 1⟩], 1, "ST*837", []⟩

def c6SegX : CdmSegment := ⟨"X", [⟨"1", 1⟩], 2, "X*1", []⟩

def c6SegQ : CdmSegment := ⟨"Q", [⟨"1", 1⟩], 3, "Q*1", []⟩

def c6SegSe : CdmSegment := ⟨"SE", [⟨"2", 1⟩], 4, "SE*2", []⟩

/-- `c6SegX` as the matcher commits it: the schema-missing finding of the
trial validation is attached. -/
def c6SegXErr : CdmSegment :=
  ⟨"X", [⟨"1", 1⟩], 2, "X*1",
    [⟨"Base definition for segment 'X' not found in schema.", none, none, none, false⟩]⟩

/-- The transaction produced for the `c6` body window: one committed
segment and the unparsed-tail finding naming `Q`. -/
def c6T : CdmTransaction :=
  ⟨c6SegSt, c6SegSe, .mk "ST_LOOP" [c6SegXErr] [] [],
    [⟨"Transaction parsing incomplete. Could not process 1 remaining segments starting with 'Q' (line 3). This may indicate an unsupported structure or validation issue.",
      some 3, some "Q", none, false⟩]⟩

/-- The ISA header of `c6Input` as `parse` returns it. -/
def c6IsaErr : CdmSegment :=
  ⟨"ISA", [⟨"1", 1⟩], 2, "ISA*1",
    [⟨"Base definition for segment 'ISA' not found in schema.", none, none, none, false⟩]⟩

/-- The IEA trailer of `c6Input` as `parse` returns it. -/
def c6IeaErr : CdmSegment :=
  ⟨"IEA", [⟨"1", 1⟩], 3, "IEA*1",
    [⟨"Base definition for segment 'IEA' not found in schema.", none, none, none, false⟩]⟩

def c7SegX : CdmSegment := ⟨"X", [⟨"1", 1⟩], 4, "X*1", []⟩

def c7SegA : CdmSegment := ⟨"A", [⟨"1", 1⟩], 5, "A*1", []⟩

def c7SegY : CdmSegment := ⟨"Y", [⟨"1", 1⟩], 6, "Y*1", []⟩

def c7SegXErr : CdmSegment :=
  ⟨"X", [⟨"1", 1⟩], 4, "X*1",
    [⟨"Base definition for segment 'X' not found in schema.", none, none, none, false⟩]⟩

def c7SegAErr : CdmSegment :=
  ⟨"A", [⟨"1", 1⟩], 5, "A*1",
    [⟨"Base definition for segment 'A' not found in schema.", none, none, none, false⟩]⟩

def c7SegYErr : CdmSegment :=
  ⟨"Y", [⟨"1", 1⟩], 6, "Y*1",
    [⟨"Base definition for segment 'Y' not found in schema.", none, none, none, false⟩]⟩

def c7NodeX : StructureChild := .segment "X" (some "X SEG") "R" 1 none none none

def c7NodeA : StructureChild := .segment "A" (some "A SEG") "R" 1 none none none

def c7NodeY : StructureChild := .segment "Y" (some "Y SEG") "R" 1 none none none

def c7LoopA : StructureChild := .loop "A" "A LOOP" "R" (.int 1) [c7NodeA]

def c7StLoop : StructureChild :=
  .loop "ST_LOOP" "TRANSACTION" "R" (.int 1) [c7NodeX, c7LoopA, c7NodeY]

def c7Schema : ImplementationGuideSchema := ⟨[], [], [c7StLoop]⟩

def c7Input : String := "ISA*1~GS*1~ST*1~X*1~A*1~Y*1~SE*1~GE*1~IEA*1~"

/-- A raw interchange whose segment terminator (offset 105) is a carriage
return; offsets 0–3 are `ISA*`, offset 104 is `:`, total length 107. -/
def c8RawCr : String :=
  "ISA*" ++ String.mk (List.replicate 100 'Z') ++ String.mk [':', '\r', 'X']

/-- A raw interchange whose element separator (offset 3) is alphanumeric. -/
def c8RawBadElem : String :=
  "ISA" ++ String.mk (List.replicate 101 'Z') ++ String.mk [':', '|', 'X']

/-- An envelope pair that passes every later (element-level) check, with
zero functional groups matching `IEA01 = "0"`. -/
def c8Isa : CdmSegment :=
  ⟨"ISA", [⟨"00", 1⟩, ⟨"", 2⟩, ⟨"00", 3⟩, ⟨"", 4⟩, ⟨"ZZ", 5⟩, ⟨"SENDER", 6⟩,
    ⟨"ZZ", 7⟩, ⟨"RECEIVER", 8⟩, ⟨"240718", 9⟩, ⟨"1200", 10⟩, ⟨"^", 11⟩,
    ⟨"00501", 12⟩, ⟨"000000001", 13⟩, ⟨"1", 14⟩, ⟨"P", 15⟩, ⟨":", 16⟩], 1, "", []⟩

def c8Iea : CdmSegment :=
  ⟨"IEA", [⟨"0", 1⟩, ⟨"000000001", 2⟩], 2, "", []⟩

def c8Ic : CdmInterchange := ⟨c8Isa, c8Iea, [], []⟩

end EdiJson

namespace EdiJson

/-! ## Helper lemmas -/

theorem appendErrors_errors (l : CdmLoop) (es : List CdmValidationError) :
    (l.appendErrors es).errors = l.errors ++ es := by
  cases l; rfl

theorem appendErrors_segments (l : CdmLoop) (es : List CdmValidationError) :
    (l.appendErrors es).segments = l.segments := by
  cases l; rfl

theorem appendErrors_loops (l : CdmLoop) (es : List CdmValidationError) :
    (l.appendErrors es).loops = l.loops := by
  cases l; rfl

theorem appendSegment_segments (l : CdmLoop) (s : CdmSegment) :
    (l.appendSegment s).segments = l.segments ++ [s] := by
  cases l; rfl

theorem appendSegment_loops (l : CdmLoop) (s : CdmSegment) :
    (l.appendSegment s).loops = l.loops := by
  cases l; rfl

theorem add_loop_segments (l : CdmLoop) (sub : CdmLoop) :
    (l.add_loop sub).segments = l.segments := by
  cases l; rfl

theorem add_loop_loops (l : CdmLoop) (sub : CdmLoop) :
    (l.add_loop sub).loops = addLoopEntry l.loops sub := by
  cases l; rfl

theorem requiredMissingAux_eq (pid : String) (counts : Nat → Nat) :
    ∀ (nodes : List StructureChild) (i : Nat),
      requiredMissingAux pid counts i nodes =
        ((nodes.enumFrom i).filter
          (fun p => p.2.usage = "R" && counts p.1 = 0)).map
          (fun p => requiredMissingError pid p.2) := by
  intro nodes
  induction nodes with
  | nil => intro i; simp [requiredMissingAux]
  | cons node rest ih =>
    intro i
    simp only [requiredMissingAux, List.enumFrom, List.filter]
    by_cases hc : (node.usage = "R" && counts i = 0) = true
    · simp [hc, ih (i + 1)]
    · simp [List.filter_cons]
      rw [if_neg (by simpa using hc)]
      simp [hc, ih (i + 1)]

/-! ## Claim C3 -/

/-- C3 (amended): when the matching loop of `_build_tree` finishes with
usage counts `counts`, the loop returned by `_build_tree` carries exactly
the accumulated (sub-loop-propagated) findings followed by one
required-missing finding per child node whose usage is `R` and whose
count is zero — the appended block is literally the filtered map over the
enumerated children, so a node with nonzero count or non-`R` usage
contributes nothing, and each missed required node contributes exactly
one finding (so two sibling nodes with the same xid and name contribute
two identical messages). -/
theorem c3_required_missing :
    ∀ (schema : ImplementationGuideSchema) (compSep : Char)
      (segs : List CdmSegment) (nodes : List StructureChild) (pid : String)
      (acc : CdmLoop) (cursor : Nat) (counts : Nat → Nat),
      buildTreeGo schema compSep segs nodes pid (fun _ => 0) 0 (.mk pid [] [] []) =
        .ok (acc, cursor, counts) →
      buildTree schema compSep segs nodes pid =
        .ok (acc.appendErrors (requiredMissingErrors nodes counts pid), cursor) ∧
      (acc.appendErrors (requiredMissingErrors nodes counts pid)).errors =
        acc.errors ++
          ((nodes.enum.filter (fun p => p.2.usage = "R" && counts p.1 = 0)).map
            (fun p => requiredMissingError pid p.2)) := by
  intro schema compSep segs nodes pid acc cursor counts h
  constructor
  · rw [buildTree, h]
  · rw [appendErrors_errors, requiredMissingErrors, requiredMissingAux_eq]
    rfl

/-- Witness for C3 at a concrete input: an empty window against one
required node `M` and one situational node `W` yields exactly the single
required-missing finding for `M`. -/
theorem c3_required_missing_witness :
    buildTree emptySchema ':' [] [c3NodeM, c1NodeW] "P" =
      .ok ((CdmLoop.mk "P" [] [] []).appendErrors
        (requiredMissingErrors [c3NodeM, c1NodeW] (fun _ => 0) "P"), 0) ∧
    ((CdmLoop.mk "P" [] [] []).appendErrors
        (requiredMissingErrors [c3NodeM, c1NodeW] (fun _ => 0) "P")).errors =
      [requiredMissingError "P" c3NodeM] := by
  have h0 : buildTreeGo emptySchema ':' [] [c3NodeM, c1NodeW] "P" (fun _ => 0) 0
      (.mk "P" [] [] []) = .ok (.mk "P" [] [] [], 0, fun _ => 0) := by
    rw [buildTreeGo]
    rfl
  have h := c3_required_missing emptySchema ':' [] [c3NodeM, c1NodeW] "P"
    (.mk "P" [] [] []) 0 (fun _ => 0) h0
  refine ⟨h.1, ?_⟩
  rw [h.2]
  rfl

/-- Counterexample to C3 as frozen: with two required sibling nodes that
share xid `M` and name `M SEG`, the loop built over an empty window
records *two* findings with the required-missing message, not exactly
one. -/
theorem c3_counterexample :
    (match buildTree emptySchema ':' [] [c3NodeM, c3NodeM] "P" with
     | .ok (l, _) => l.errors.countP (fun e => e.message = c3Msg)
     | .error _ => 0) = 2 := by
  have h0 : buildTreeGo emptySchema ':' [] [c3NodeM, c3NodeM] "P" (fun _ => 0) 0
      (.mk "P" [] [] []) = .ok (.mk "P" [] [] [], 0, fun _ => 0) := by
    rw [buildTreeGo]
    rfl
  have h : buildTree emptySchema ':' [] [c3NodeM, c3NodeM] "P" =
      .ok ((CdmLoop.mk "P" [] [] []).appendErrors
        (requiredMissingErrors [c3NodeM, c3NodeM] (fun _ => 0) "P"), 0) := by
    rw [buildTree, h0]
  rw [h]
  rfl

/-! ## Claim C4 -/

/-- C4 (amended): `generate(isa, [], force=False)` returns nothing iff the
ISA header has fewer than 16 elements (the malformed-header guard) or its
element 14, stripped of surrounding whitespace, is not `"1"`. -/
theorem c4_ta1_suppression :
    ∀ (isa : CdmSegment) (d t : String),
      generateTA1 isa [] false d t = none ↔
        isa.elements.length < 16 ∨ pyStrip ((isa.get_element 14).getD "") ≠ "1" := by
  intro isa d t
  by_cases hlen : isa.elements.length < 16
  · simp [generateTA1, hlen]
  · cases hget : isa.get_element 14 with
    | none => simp [generateTA1, hlen, hget, pyStrip]
    | some v =>
      by_cases hv : v = ""
      · subst hv
        simp [generateTA1, hlen, hget, pyStrip]
      · by_cases hs : pyStrip v = "1"
        · simp [generateTA1, hlen, hget, hv, hs]
        · simp [generateTA1, hlen, hget, hv, hs]

/-- Counterexample to C4 as frozen: a 15-element ISA whose element 14 is
exactly `"1"` still yields no acknowledgement (the malformed-header guard
fires first), refuting "returns nothing iff ISA14 ≠ 1". -/
theorem c4_counterexample :
    generateTA1 c4Isa15 [] false "240101" "1200" = none ∧
    c4Isa15.get_element 14 = some "1" := by
  exact ⟨rfl, rfl⟩

end EdiJson

namespace EdiJson

/-! ## Claim C10 -/

theorem get_element_congr (s1 s2 : CdmSegment) (h : s1.elements = s2.elements)
    (p : Nat) : s1.get_element p = s2.get_element p := by
  obtain ⟨a, b, c, d, e⟩ := s1
  obtain ⟨a', b', c', d', e'⟩ := s2
  dsimp only at h
  subst h
  rfl

theorem evalConditionClause_congr (s1 s2 : CdmSegment)
    (h : s1.elements = s2.elements) (c : ConditionClause) :
    evalConditionClause s1 c = evalConditionClause s2 c := by
  simp only [evalConditionClause]
  exact bind_congr (fun pos => by rw [get_element_congr s1 s2 h])

theorem allE_congr {α : Type} (f g : α → Except String Bool)
    (hfg : ∀ x, f x = g x) : ∀ l, allE f l = allE g l := by
  intro l
  induction l with
  | nil => rfl
  | cons x rest ih => simp only [allE, hfg, ih]

theorem anyE_congr {α : Type} (f g : α → Except String Bool)
    (hfg : ∀ x, f x = g x) : ∀ l, anyE f l = anyE g l := by
  intro l
  induction l with
  | nil => rfl
  | cons x rest ih => simp only [anyE, hfg, ih]

theorem evalConditions_congr (s1 s2 : CdmSegment)
    (h : s1.elements = s2.elements) (conds : Conditions) :
    evalConditions s1 conds = evalConditions s2 conds := by
  simp only [evalConditions]
  cases conds.all_of with
  | some cs => exact allE_congr _ _ (evalConditionClause_congr s1 s2 h) cs
  | none =>
    cases conds.any_of with
    | some cs => exact anyE_congr _ _ (evalConditionClause_congr s1 s2 h) cs
    | none => rfl

theorem execAssertion_congr (s1 s2 : CdmSegment)
    (h : s1.elements = s2.elements) (a : AssertionClause) (ruleId : String) :
    execAssertion s1 a ruleId = execAssertion s2 a ruleId := by
  simp only [execAssertion]
  split
  · cases a.element with
    | none => rfl
    | some e =>
      apply bind_congr; intro y
      apply bind_congr; intro pos
      rw [get_element_congr s1 s2 h]
  · split
    · cases a.element with
      | none => rfl
      | some e =>
        apply bind_congr; intro y
        apply bind_congr; intro pos
        cases a.value with
        | none => rw [get_element_congr s1 s2 h]
        | some v =>
          apply bind_congr; intro expected
          rw [get_element_congr s1 s2 h]
    · split
      · cases a.elements with
        | none => rfl
        | some l =>
          apply bind_congr; intro ys
          apply bind_congr; intro positions
          have hfun : (fun pos => match s1.get_element pos with
              | some v => v != ""
              | none => false) = (fun pos => match s2.get_element pos with
              | some v => v != ""
              | none => false) := by
            funext pos
            rw [get_element_congr s1 s2 h]
          rw [hfun]
      · rfl

theorem runAssertions_congr (s1 s2 : CdmSegment)
    (h : s1.elements = s2.elements) (ruleId : String) :
    ∀ l, runAssertions s1 ruleId l = runAssertions s2 ruleId l := by
  intro l
  induction l with
  | nil => rfl
  | cons a rest ih =>
    simp only [runAssertions, execAssertion_congr s1 s2 h, ih]

theorem runRules_congr (s1 s2 : CdmSegment)
    (h : s1.elements = s2.elements) :
    ∀ l, runRules s1 l = runRules s2 l := by
  intro l
  induction l with
  | nil => rfl
  | cons r rest ih =>
    simp only [runRules, evalConditions_congr s1 s2 h,
      runAssertions_congr s1 s2 h, ih]

theorem runElementChecks_congr (compSep : Char) (s1 s2 : CdmSegment)
    (h : s1.elements = s2.elements) :
    ∀ l, runElementChecks compSep s1 l = runElementChecks compSep s2 l := by
  intro l
  induction l with
  | nil => rfl
  | cons edef rest ih =>
    simp only [runElementChecks, h, ih]

/-- C10: `SegmentValidator.validate` is effect-free on its argument.  In
this embedding the source's lack of mutation is itself structural (the
function only returns a finding list), and this theorem pins down the
observable content: both `validate` and the matcher's trial-selection
scan `_find_best_schema_match` read only the segment's identifier and
elements — the attached findings list, raw text, and line number of the
argument influence neither, so a discarded trial validation can leave no trace
on the document, and findings reach a segment only through the matcher's
commit step. -/
theorem c10_validate_effect_free :
    ∀ (schema : ImplementationGuideSchema) (compSep : Char) (sid : String)
      (els : List CdmElement) (ln ln' : Nat) (raw raw' : String)
      (errs errs' : List CdmValidationError) (ctx : Option String)
      (nodes : List StructureChild) (counts : Nat → Nat),
      validateSegment schema compSep ⟨sid, els, ln, raw, errs⟩ ctx =
        validateSegment schema compSep ⟨sid, els, ln', raw', errs'⟩ ctx ∧
      findBestSchemaMatch schema compSep ⟨sid, els, ln, raw, errs⟩ nodes counts =
        findBestSchemaMatch schema compSep ⟨sid, els, ln', raw', errs'⟩ nodes counts := by
  intro schema compSep sid els ln ln' raw raw' errs errs' ctx nodes counts
  have hval : ∀ (c : Option String),
      validateSegment schema compSep ⟨sid, els, ln, raw, errs⟩ c =
        validateSegment schema compSep ⟨sid, els, ln', raw', errs'⟩ c := by
    intro c
    simp only [validateSegment]
    cases lookupA schema.segmentDefinitions sid with
    | none => rfl
    | some baseDef =>
      have h1 := runElementChecks_congr compSep ⟨sid, els, ln, raw, errs⟩
        ⟨sid, els, ln', raw', errs'⟩ rfl
      have h2 := runRules_congr ⟨sid, els, ln, raw, errs⟩
        ⟨sid, els, ln', raw', errs'⟩ rfl
      simp only [validateSyntaxRules]
      rw [h1]
      exact bind_congr (fun elemErrs => by rw [h2])
  refine ⟨hval ctx, ?_⟩
  have haux : ∀ (l : List StructureChild) (i : Nat),
      findBestAux schema compSep ⟨sid, els, ln, raw, errs⟩ counts i l =
        findBestAux schema compSep ⟨sid, els, ln', raw', errs'⟩ counts i l := by
    intro l
    induction l with
    | nil => intro i; rfl
    | cons node rest ih =>
      intro i
      simp only [findBestAux, hval, ih]
  exact haux nodes 0

end EdiJson

namespace EdiJson

/-! ## Claim C8 -/

/-- C8 (amended): for a raw input whose trimmed form starts with `ISA` and
has length at least 106, the delimiter self-test checks: the *element*
separator (offset 3) must be non-alphanumeric and not CR or LF (note code
026); the segment terminator (offset 105) and component separator (offset
104) must merely be non-alphanumeric (note codes 004 and 027) — CR and LF
are accepted as segment terminators and printability is never checked.
When any of these fails, the returned list contains exactly the delimiter
note codes and all later envelope checks are skipped. -/
theorem envelopeDelimiterErrors_spec (raw : String) :
    ((⟨.INVALID_ELEMENT_SEPARATOR⟩ : InterchangeError) ∈ envelopeDelimiterErrors raw ↔
      (pyIsAlnumChar ((pyStrip raw).data.getD 3 ' ') ||
        (pyStrip raw).data.getD 3 ' ' = '\r' ||
        (pyStrip raw).data.getD 3 ' ' = '\n') = true) ∧
    ((⟨.INVALID_SEGMENT_TERMINATOR⟩ : InterchangeError) ∈ envelopeDelimiterErrors raw ↔
      pyIsAlnumChar ((pyStrip raw).data.getD 105 ' ') = true) ∧
    ((⟨.INVALID_COMPONENT_SEPARATOR⟩ : InterchangeError) ∈ envelopeDelimiterErrors raw ↔
      pyIsAlnumChar ((pyStrip raw).data.getD 104 ' ') = true) ∧
    (∀ err ∈ envelopeDelimiterErrors raw,
      err.note_code = TA1NoteCode.INVALID_ELEMENT_SEPARATOR ∨
      err.note_code = TA1NoteCode.INVALID_SEGMENT_TERMINATOR ∨
      err.note_code = TA1NoteCode.INVALID_COMPONENT_SEPARATOR) ∧
    (envelopeDelimiterErrors raw = [] ↔
      ((pyIsAlnumChar ((pyStrip raw).data.getD 3 ' ') ||
        (pyStrip raw).data.getD 3 ' ' = '\r' ||
        (pyStrip raw).data.getD 3 ' ' = '\n') = false ∧
       pyIsAlnumChar ((pyStrip raw).data.getD 105 ' ') = false ∧
       pyIsAlnumChar ((pyStrip raw).data.getD 104 ' ') = false)) := by
  cases h1 : (pyIsAlnumChar ((pyStrip raw).data.getD 3 ' ') ||
      (pyStrip raw).data.getD 3 ' ' = '\r' ||
      (pyStrip raw).data.getD 3 ' ' = '\n') <;>
    cases h2 : pyIsAlnumChar ((pyStrip raw).data.getD 105 ' ') <;>
    cases h3 : pyIsAlnumChar ((pyStrip raw).data.getD 104 ' ') <;>
    simp_all [envelopeDelimiterErrors, addNote, InterchangeError.mk.injEq]

/-- C8 (amended): for a raw input whose trimmed form starts with `ISA` and
has length at least 106, the delimiter self-test checks: the *element*
separator (offset 3) must be non-alphanumeric and not CR or LF (note code
026); the segment terminator (offset 105) and component separator (offset
104) must merely be non-alphanumeric (note codes 004 and 027) — CR and LF
are accepted as segment terminators and printability is never checked.
When any of these fails, the returned list contains exactly the delimiter
note codes and all later envelope checks are skipped. -/
theorem c8_delimiter_self_test :
    ∀ (ic : CdmInterchange) (raw : String),
      pyStartsWith (pyStrip raw) "ISA" = true →
      106 ≤ (pyStrip raw).length →
      ((pyIsAlnumChar ((pyStrip raw).data.getD 3 ' ') ||
        (pyStrip raw).data.getD 3 ' ' = '\r' ||
        (pyStrip raw).data.getD 3 ' ' = '\n' ||
        pyIsAlnumChar ((pyStrip raw).data.getD 105 ' ') ||
        pyIsAlnumChar ((pyStrip raw).data.getD 104 ' ')) = true) →
      ∃ L, validateInterchangeEnvelope ic raw = .ok L ∧
        ((⟨.INVALID_ELEMENT_SEPARATOR⟩ : InterchangeError) ∈ L ↔
          (pyIsAlnumChar ((pyStrip raw).data.getD 3 ' ') ||
            (pyStrip raw).data.getD 3 ' ' = '\r' ||
            (pyStrip raw).data.getD 3 ' ' = '\n') = true) ∧
        ((⟨.INVALID_SEGMENT_TERMINATOR⟩ : InterchangeError) ∈ L ↔
          pyIsAlnumChar ((pyStrip raw).data.getD 105 ' ') = true) ∧
        ((⟨.INVALID_COMPONENT_SEPARATOR⟩ : InterchangeError) ∈ L ↔
          pyIsAlnumChar ((pyStrip raw).data.getD 104 ' ') = true) ∧
        (∀ err ∈ L, err.note_code = TA1NoteCode.INVALID_ELEMENT_SEPARATOR ∨
          err.note_code = TA1NoteCode.INVALID_SEGMENT_TERMINATOR ∨
          err.note_code = TA1NoteCode.INVALID_COMPONENT_SEPARATOR) := by
  intro ic raw hstart hlen hbad
  obtain ⟨hm1, hm2, hm3, honly, hnil⟩ := envelopeDelimiterErrors_spec raw
  simp only [validateInterchangeEnvelope]
  split
  · rename_i hfail
    simp only [Bool.not_eq_eq_eq_not, Bool.not_true, Bool.and_eq_false_imp] at hfail
    exact absurd (hfail hstart) (by simp [hlen])
  · split
    · exact ⟨envelopeDelimiterErrors raw, rfl, hm1, hm2, hm3, honly⟩
    · rename_i hemp
      exfalso
      simp only [Bool.not_eq_true', Bool.not_eq_false] at hemp
      have hE : envelopeDelimiterErrors raw = [] := by
        cases hE2 : envelopeDelimiterErrors raw with
        | nil => rfl
        | cons a l => rw [hE2] at hemp; simp at hemp
      obtain ⟨f1, f2, f3⟩ := hnil.mp hE
      simp only [f1, f2, f3, Bool.false_or, Bool.or_false] at hbad
      exact absurd hbad (by simp)

set_option maxRecDepth 8000 in
/-- Witness for C8 at a concrete input: an alphanumeric element separator
(`Z` at offset 3) makes the validator return exactly the delimiter-phase
list, which contains note code 026. -/
theorem c8_delimiter_self_test_witness :
    validateInterchangeEnvelope c8Ic c8RawBadElem =
      .ok (envelopeDelimiterErrors c8RawBadElem) ∧
    (⟨TA1NoteCode.INVALID_ELEMENT_SEPARATOR⟩ : InterchangeError) ∈
      envelopeDelimiterErrors c8RawBadElem := by
  obtain ⟨L, hok, h026, _, _, _⟩ :=
    c8_delimiter_self_test c8Ic c8RawBadElem (by rfl) (by decide) (by rfl)
  have hE : validateInterchangeEnvelope c8Ic c8RawBadElem =
      .ok (envelopeDelimiterErrors c8RawBadElem) := by rfl
  have hL : L = envelopeDelimiterErrors c8RawBadElem := by
    rw [hE] at hok
    injection hok with hok
    exact hok.symm
  subst hL
  exact ⟨hE, h026.mpr (by rfl)⟩

set_option maxRecDepth 8000 in
/-- Counterexample to C8 as frozen: a raw input whose segment terminator
at offset 105 is a carriage return passes the validator's delimiter
self-test — the returned list carries no 004 (nor any) note code, whereas
the claim requires CR to be rejected as a segment terminator. -/
theorem c8_counterexample :
    (pyStrip c8RawCr).data.getD 105 ' ' = '\r' ∧
    pyStartsWith (pyStrip c8RawCr) "ISA" = true ∧
    106 ≤ (pyStrip c8RawCr).length ∧
    validateInterchangeEnvelope c8Ic c8RawCr = .ok [] := by
  refine ⟨by rfl, by rfl, by decide, by rfl⟩

end EdiJson

namespace EdiJson

/-! ## Claim C1 -/

theorem findBestAux_char (schema : ImplementationGuideSchema) (compSep : Char)
    (seg : CdmSegment) (counts : Nat → Nat)
    (hv : ∀ ctx, ∃ errs, validateSegment schema compSep seg ctx = .ok errs) :
    ∀ (nodes : List StructureChild) (i : Nat),
      (∀ n j, findBestAux schema compSep seg counts i nodes = .ok (some (n, j)) ↔
        (i ≤ j ∧ nodes.get? (j - i) = some n ∧
         codeGate schema compSep seg counts j n ∧
         ∀ k, i ≤ k → k < j → ∀ m, nodes.get? (k - i) = some m →
           ¬ codeGate schema compSep seg counts k m)) ∧
      (findBestAux schema compSep seg counts i nodes = .ok none ↔
        ∀ k m, nodes.get? k = some m →
          ¬ codeGate schema compSep seg counts (i + k) m) := by
  intro nodes
  induction nodes with
  | nil =>
    intro i
    constructor
    · intro n j
      simp [findBestAux]
    · simp [findBestAux]
  | cons node rest ih =>
    intro i
    have skipStep : ¬ codeGate schema compSep seg counts i node →
        findBestAux schema compSep seg counts i (node :: rest) =
          findBestAux schema compSep seg counts (i + 1) rest →
        (∀ n j, findBestAux schema compSep seg counts i (node :: rest) =
            .ok (some (n, j)) ↔
          (i ≤ j ∧ (node :: rest).get? (j - i) = some n ∧
           codeGate schema compSep seg counts j n ∧
           ∀ k, i ≤ k → k < j → ∀ m, (node :: rest).get? (k - i) = some m →
             ¬ codeGate schema compSep seg counts k m)) ∧
        (findBestAux schema compSep seg counts i (node :: rest) = .ok none ↔
          ∀ k m, (node :: rest).get? k = some m →
            ¬ codeGate schema compSep seg counts (i + k) m) := by
      intro hng heq
      constructor
      · intro n j
        rw [heq, (ih (i + 1)).1 n j]
        constructor
        · rintro ⟨hij, hget, hgate, hmin⟩
          refine ⟨by omega, ?_, hgate, ?_⟩
          · have : j - i = (j - (i + 1)) + 1 := by omega
            rw [this]
            simpa using hget
          · intro k hk1 hk2 m hm
            by_cases hki : k = i
            · subst hki
              simp only [Nat.sub_self, List.get?_cons_zero] at hm
              injection hm with hm
              subst hm
              exact hng
            · have : k - i = (k - (i + 1)) + 1 := by omega
              rw [this, List.get?_cons_succ] at hm
              exact hmin k (by omega) hk2 m hm
        · rintro ⟨hij, hget, hgate, hmin⟩
          have hji : j ≠ i := by
            intro hcon
            subst hcon
            simp only [Nat.sub_self, List.get?_cons_zero] at hget
            injection hget with hget
            subst hget
            exact hng hgate
          refine ⟨by omega, ?_, hgate, ?_⟩
          · have : j - i = (j - (i + 1)) + 1 := by omega
            rw [this, List.get?_cons_succ] at hget
            exact hget
          · intro k hk1 hk2 m hm
            refine hmin k (by omega) hk2 m ?_
            have hsub : k - i = (k - (i + 1)) + 1 := by omega
            rw [hsub, List.get?_cons_succ]
            exact hm
      · rw [heq, (ih (i + 1)).2]
        constructor
        · intro hall k m hm
          cases k with
          | zero =>
            simp only [List.get?_cons_zero] at hm
            injection hm with hm
            subst hm
            simpa using hng
          | succ k' =>
            rw [List.get?_cons_succ] at hm
            have := hall k' m hm
            have harith : i + 1 + k' = i + (k' + 1) := by omega
            rwa [harith] at this
        · intro hall k m hm
          have := hall (k + 1) m (by simpa using hm)
          have harith : i + (k + 1) = i + 1 + k := by omega
          rwa [harith] at this
    by_cases h1 : (counts i : Int) ≥ maxRepeatsOf node
    · exact skipStep (fun hg => absurd hg.1 (by omega)) (by rw [findBestAux, if_pos h1])
    · by_cases h2 : getStartingSegmentId node ≠ some seg.segment_id
      · exact skipStep (fun hg => h2 hg.2.1)
          (by rw [findBestAux, if_neg h1, if_pos h2])
      · obtain ⟨errs, herrs⟩ := hv (contextIdOf node)
        by_cases h3 : (errs.filter (fun e => e.is_identifier_error)).isEmpty = true
        · have heqI : findBestAux schema compSep seg counts i (node :: rest) =
              .ok (some (node, i)) := by
            rw [findBestAux, if_neg h1, if_neg h2, herrs]
            simp only [Bind.bind, Except.bind]
            rw [if_pos h3]
          have hgatei : codeGate schema compSep seg counts i node :=
            ⟨by omega, by push_neg at h2; exact h2, errs, herrs, h3⟩
          rw [heqI]
          constructor
          · intro n j
            constructor
            · intro hok
              simp only [Except.ok.injEq, Option.some.injEq, Prod.mk.injEq] at hok
              obtain ⟨hn, hj⟩ := hok
              subst hn; subst hj
              exact ⟨le_refl i, by simp, hgatei, fun k hk1 hk2 _ _ => by omega⟩
            · rintro ⟨hij, hget, hgate, hmin⟩
              by_cases hji : j = i
              · subst hji
                simp only [Nat.sub_self, List.get?_cons_zero] at hget
                injection hget with hget
                subst hget
                rfl
              · exact absurd hgatei
                  (hmin i (le_refl i) (by omega) node (by simp))
          · constructor
            · intro hcon
              simp at hcon
            · intro hall
              exact absurd hgatei (by simpa using hall 0 node (by simp))
        · have hng : ¬ codeGate schema compSep seg counts i node := by
            rintro ⟨_, _, errs2, herrs2, h3'⟩
            rw [herrs] at herrs2
            injection herrs2 with herrs2
            subst herrs2
            exact h3 h3'
          have heq2 : findBestAux schema compSep seg counts i (node :: rest) =
              findBestAux schema compSep seg counts (i + 1) rest := by
            rw [findBestAux, if_neg h1, if_neg h2, herrs]
            simp only [Bind.bind, Except.bind]
            rw [if_neg h3]
          exact skipStep hng heq2

end EdiJson

namespace EdiJson

/-- C1 (amended): at every loop-matching step, provided the validator does
not raise on the current segment, `_find_best_schema_match` selects
exactly the earliest sibling (in schema order) passing all three gates —
usage strictly below the repeat limit (`max_use` for a segment node,
`repeat` for a loop node, a non-integer token treated as the finite cap
99999 rather than as unbounded), starting segment id equal to the current
segment's id, and a trial validation under the node's contextual
definition with no `is_identifier_error` finding; when no sibling passes
all three, the scan reports no match and the matching loop of
`_build_tree` stops at the current cursor without consuming the segment. -/
theorem c1_best_match_selection :
    ∀ (schema : ImplementationGuideSchema) (compSep : Char) (seg : CdmSegment)
      (nodes : List StructureChild) (counts : Nat → Nat),
      (∀ ctx, ∃ errs, validateSegment schema compSep seg ctx = .ok errs) →
      (∀ n j, findBestSchemaMatch schema compSep seg nodes counts = .ok (some (n, j)) ↔
        (nodes.get? j = some n ∧ codeGate schema compSep seg counts j n ∧
         ∀ k, k < j → ∀ m, nodes.get? k = some m →
           ¬ codeGate schema compSep seg counts k m)) ∧
      (findBestSchemaMatch schema compSep seg nodes counts = .ok none ↔
        ∀ k m, nodes.get? k = some m →
          ¬ codeGate schema compSep seg counts k m) ∧
      (∀ (segs : List CdmSegment) (pid : String) (cursor : Nat) (acc : CdmLoop)
         (h : cursor < segs.length),
         segs.get ⟨cursor, h⟩ = seg →
         findBestSchemaMatch schema compSep seg nodes counts = .ok none →
         buildTreeGo schema compSep segs nodes pid counts cursor acc =
           .ok (acc, cursor, counts)) := by
  intro schema compSep seg nodes counts hv
  have hc := findBestAux_char schema compSep seg counts hv nodes 0
  refine ⟨?_, ?_, ?_⟩
  · intro n j
    rw [findBestSchemaMatch, hc.1 n j]
    constructor
    · rintro ⟨_, hget, hgate, hmin⟩
      exact ⟨by simpa using hget, hgate,
        fun k hk m hm => hmin k (by omega) hk m (by simpa using hm)⟩
    · rintro ⟨hget, hgate, hmin⟩
      exact ⟨by omega, by simpa using hget, hgate,
        fun k _ hk m hm => hmin k hk m (by simpa using hm)⟩
  · rw [findBestSchemaMatch, hc.2]
    constructor
    · intro hall k m hm
      simpa using hall k m hm
    · intro hall k m hm
      simpa using hall k m hm
  · intro segs pid cursor acc h hseg hnone
    rw [buildTreeGo, dif_pos h]
    subst hseg
    split
    · rename_i e heq
      rw [hnone] at heq
      simp at heq
    · rfl
    · rename_i p heq
      rw [hnone] at heq
      simp at heq

/-- Witness for C1 at a concrete input: against siblings `[W, X]` and a
data segment `X`, the matcher skips node 0 (starting-id mismatch) and
selects node 1, whose three gates hold while node 0's do not. -/
theorem c1_best_match_selection_witness :
    findBestSchemaMatch emptySchema ':' c1Seg [c1NodeW, c1NodeX] (fun _ => 0) =
      .ok (some (c1NodeX, 1)) := by
  have h := (c1_best_match_selection emptySchema ':' c1Seg [c1NodeW, c1NodeX]
    (fun _ => 0) (fun ctx => ⟨_, rfl⟩)).1 c1NodeX 1
  refine h.mpr ⟨by rfl, ⟨by decide, by rfl, _, rfl, by rfl⟩, ?_⟩
  intro k hk m hm
  interval_cases k
  simp only [List.get?_cons_zero] at hm
  injection hm with hm
  subst hm
  rintro ⟨_, hid, _⟩
  exact absurd hid (by decide)

/-- Counterexample to C1 as frozen: the claim treats a non-integer repeat
token as *unbounded*, but the code maps it to the finite cap 99999.  With
usage count 99999 on a loop node whose repeat is `">1"`, the claim's
usage gate passes (and the other two gates hold), yet the matcher reports
no match. -/
theorem c1_counterexample :
    specUsageGate (fun _ => 99999) 0 c1LoopUnbounded ∧
    getStartingSegmentId c1LoopUnbounded = some c1Seg.segment_id ∧
    validateSegment emptySchema ':' c1Seg (contextIdOf c1LoopUnbounded) =
      .ok [⟨"Base definition for segment 'X' not found in schema.",
            none, none, none, false⟩] ∧
    (([⟨"Base definition for segment 'X' not found in schema.",
        none, none, none, false⟩] : List CdmValidationError).filter
      (fun e => e.is_identifier_error)).isEmpty = true ∧
    findBestSchemaMatch emptySchema ':' c1Seg [c1LoopUnbounded] (fun _ => 99999) =
      .ok none := by
  refine ⟨by trivial, by rfl, by rfl, by rfl, by rfl⟩

end EdiJson

namespace EdiJson

/-! ## Claims C5 and C9: extraction of fields from the generated TA1 -/

theorem noStarTilde_spec (s : String) :
    noStarTilde s = true ↔ ∀ x ∈ s.data, x ≠ '*' ∧ x ≠ '~' := by
  simp [noStarTilde, List.all_eq_true]

theorem splitOnChar_sep_free (c : Char) :
    ∀ (a : List Char), (∀ x ∈ a, x ≠ c) → splitOnChar c a = [a] := by
  intro a
  induction a with
  | nil => intro _; rfl
  | cons x xs ih =>
    intro h
    rw [splitOnChar]
    rw [if_neg (h x (by simp))]
    rw [ih (fun y hy => h y (by simp [hy]))]

theorem splitOnChar_append_sep (c : Char) :
    ∀ (a b : List Char), (∀ x ∈ a, x ≠ c) →
      splitOnChar c (a ++ c :: b) = a :: splitOnChar c b := by
  intro a
  induction a with
  | nil =>
    intro b _
    simp [splitOnChar]
  | cons x xs ih =>
    intro b h
    rw [List.cons_append, splitOnChar]
    rw [if_neg (h x (by simp))]
    rw [ih b (fun y hy => h y (by simp [hy]))]

theorem joinStar_sep_free :
    ∀ (fs : List (List Char)),
      (∀ f ∈ fs, ∀ x ∈ f, x ≠ '*' ∧ x ≠ '~') →
      ∀ x ∈ joinStar fs, x ≠ '~' := by
  intro fs
  induction fs with
  | nil => intro _ x hx; simp [joinStar] at hx
  | cons f rest ih =>
    intro h x hx
    cases rest with
    | nil =>
      simp only [joinStar] at hx
      exact (h f (by simp) x hx).2
    | cons g rest2 =>
      simp only [joinStar, List.mem_append, List.mem_cons] at hx
      rcases hx with hx | hx | hx
      · exact (h f (by simp) x hx).2
      · subst hx; decide
      · exact ih (fun f2 hf2 => h f2 (by simp [hf2])) x hx

theorem splitStar_joinStar :
    ∀ (fs : List (List Char)), fs ≠ [] →
      (∀ f ∈ fs, ∀ x ∈ f, x ≠ '*') →
      splitOnChar '*' (joinStar fs) = fs := by
  intro fs
  induction fs with
  | nil => intro h; exact absurd rfl h
  | cons f rest ih =>
    intro _ h
    cases rest with
    | nil =>
      simp only [joinStar]
      rw [splitOnChar_sep_free '*' f (fun x hx => h f (by simp) x hx)]
    | cons g rest2 =>
      simp only [joinStar]
      rw [splitOnChar_append_sep '*' f _ (fun x hx => h f (by simp) x hx)]
      rw [ih (by simp) (fun f2 hf2 => h f2 (by simp [hf2]))]

theorem map_mk_map_data (l : List String) :
    (l.map String.data).map String.mk = l := by
  induction l with
  | nil => rfl
  | cons s rest ih =>
    simp only [List.map_cons]
    rw [ih]

/-- Fields of a three-segment TA1 build whose interpolated strings are
free of the wire delimiters. -/
theorem ta1Fields_of_build (a b cfs : List String)
    (ha : a ≠ []) (hb : b ≠ []) (hc : cfs ≠ [])
    (hfa : ∀ f ∈ a, noStarTilde f = true)
    (hfb : ∀ f ∈ b, noStarTilde f = true)
    (hfc : ∀ f ∈ cfs, noStarTilde f = true) :
    ta1Fields (String.mk (joinStar (a.map String.data) ++ '~' ::
      (joinStar (b.map String.data) ++ '~' ::
        (joinStar (cfs.map String.data) ++ ['~'])))) 0 = a ∧
    ta1Fields (String.mk (joinStar (a.map String.data) ++ '~' ::
      (joinStar (b.map String.data) ++ '~' ::
        (joinStar (cfs.map String.data) ++ ['~'])))) 1 = b ∧
    ta1Fields (String.mk (joinStar (a.map String.data) ++ '~' ::
      (joinStar (b.map String.data) ++ '~' ::
        (joinStar (cfs.map String.data) ++ ['~'])))) 2 = cfs := by
  have hmem : ∀ (l : List String), (∀ f ∈ l, noStarTilde f = true) →
      ∀ f ∈ l.map String.data, ∀ x ∈ f, x ≠ '*' ∧ x ≠ '~' := by
    intro l hl f hf x hx
    simp only [List.mem_map] at hf
    obtain ⟨s, hs, hfs⟩ := hf
    subst hfs
    exact (noStarTilde_spec s).mp (hl s hs) x hx
  have hsplit : splitOnChar '~' (joinStar (a.map String.data) ++ '~' ::
      (joinStar (b.map String.data) ++ '~' ::
        (joinStar (cfs.map String.data) ++ ['~']))) =
      [joinStar (a.map String.data), joinStar (b.map String.data),
       joinStar (cfs.map String.data), []] := by
    rw [splitOnChar_append_sep '~' _ _ (joinStar_sep_free _ (hmem a hfa))]
    rw [splitOnChar_append_sep '~' _ _ (joinStar_sep_free _ (hmem b hfb))]
    have : joinStar (cfs.map String.data) ++ ['~'] =
        joinStar (cfs.map String.data) ++ '~' :: [] := rfl
    rw [this, splitOnChar_append_sep '~' _ _ (joinStar_sep_free _ (hmem cfs hfc))]
    rfl
  have hstar : ∀ (l : List String), l ≠ [] → (∀ f ∈ l, noStarTilde f = true) →
      (splitOnChar '*' (joinStar (l.map String.data))).map String.mk = l := by
    intro l hl hfree
    rw [splitStar_joinStar _ (by simpa using hl)
      (fun f hf x hx => ((hmem l hfree) f hf x hx).1)]
    exact map_mk_map_data l
  refine ⟨?_, ?_, ?_⟩ <;>
    simp only [ta1Fields, hsplit, List.getD] <;>
    simp only [List.get?_cons_zero, List.get?_cons_succ, Option.getD_some]
  · exact hstar a ha hfa
  · exact hstar b hb hfb
  · exact hstar cfs hc hfc

end EdiJson

namespace EdiJson

theorem noStarTilde_append (a b : String)
    (ha : noStarTilde a = true) (hb : noStarTilde b = true) :
    noStarTilde (a ++ b) = true := by
  rw [noStarTilde_spec] at ha hb ⊢
  intro x hx
  rw [String.data_append, List.mem_append] at hx
  rcases hx with hx | hx
  · exact ha x hx
  · exact hb x hx

theorem noStarTilde_zfill (n : Nat) (s : String)
    (h : noStarTilde s = true) : noStarTilde (zfill n s) = true := by
  rw [zfill]
  split
  · exact h
  · apply noStarTilde_append
    · rw [noStarTilde_spec]
      intro x hx
      have hx' : x ∈ List.replicate (n - s.length) '0' := hx
      rw [List.eq_of_mem_replicate hx']
      decide
    · exact h

theorem noStarTilde_pyStrip (s : String)
    (h : noStarTilde s = true) : noStarTilde (pyStrip s) = true := by
  rw [noStarTilde_spec] at h ⊢
  intro x hx
  have hx' : x ∈ ((s.data.dropWhile isPySpace).reverse.dropWhile isPySpace).reverse := hx
  rw [List.mem_reverse] at hx'
  have h1 := (List.dropWhile_sublist (l := (s.data.dropWhile isPySpace).reverse)
    (p := isPySpace)).subset hx'
  rw [List.mem_reverse] at h1
  exact h x ((List.dropWhile_sublist (l := s.data) (p := isPySpace)).subset h1)

theorem noStarTilde_dropData (s : String) (n : Nat)
    (h : noStarTilde s = true) : noStarTilde (String.mk (s.data.drop n)) = true := by
  rw [noStarTilde_spec] at h ⊢
  intro x hx
  have hx' : x ∈ s.data.drop n := hx
  exact h x ((List.drop_sublist n s.data).subset hx')

theorem ackValue_free (c : TA1AcknowledgementCode) : noStarTilde c.value = true := by
  cases c <;> decide

theorem noteValue_free (n : TA1NoteCode) : noStarTilde n.value = true := by
  cases n <;> decide

/-- Inversion of `generateTA1`: a produced acknowledgement string is
exactly the three-segment concatenation built from the input header. -/
theorem generateTA1_inv (isa : CdmSegment) (errors : List InterchangeError)
    (force : Bool) (d t out : String)
    (hgen : generateTA1 isa errors force d t = some out) :
    out =
      "ISA*" ++ pyOrStr (isa.get_element 1) "00" ++ "*" ++
        pyOrStr (isa.get_element 2) "          " ++ "*" ++
        pyOrStr (isa.get_element 3) "00" ++ "*" ++
        pyOrStr (isa.get_element 4) "          " ++ "*" ++
        pyOrStr (isa.get_element 7) "ZZ" ++ "*" ++
        pyOrStr (isa.get_element 8) "               " ++ "*" ++
        pyOrStr (isa.get_element 5) "ZZ" ++ "*" ++
        pyOrStr (isa.get_element 6) "               " ++ "*" ++
        d ++ "*" ++ t ++ "*" ++
        pyOrStr (isa.get_element 11) "^" ++ "*" ++
        pyOrStr (isa.get_element 12) "00501" ++ "*" ++
        zfill 9 (d ++ t) ++ "*0*" ++
        pyOrStr (isa.get_element 15) "P" ++ "*" ++
        pyOrStr (isa.get_element 16) ">" ++ "~" ++
      ("TA1*" ++ zfill 9 (pyStrip ((isa.get_element 13).getD "")) ++ "*" ++
        (if ((isa.get_element 9).getD "").length = 8 then
          String.mk (((isa.get_element 9).getD "").data.drop 2)
        else (isa.get_element 9).getD "") ++ "*" ++
        (isa.get_element 10).getD "" ++ "*" ++
        (if errors.isEmpty then TA1AcknowledgementCode.ACCEPTED
          else TA1AcknowledgementCode.REJECTED).value ++ "*" ++
        (if errors.isEmpty then TA1NoteCode.NO_ERROR
          else (errors.headD ⟨TA1NoteCode.NO_ERROR⟩).note_code).value) ++ "~" ++
      ("IEA*1*" ++ zfill 9 (d ++ t) ++ "~") := by
  simp only [generateTA1] at hgen
  split at hgen
  · exact Option.noConfusion hgen
  · split at hgen
    · exact Option.noConfusion hgen
    · simp only [Option.some.injEq] at hgen
      rw [← hgen]
      simp only [Bool.not_not]

end EdiJson

namespace EdiJson

/-- The explicit TA1 concatenation in `String.mk`/`joinStar` form. -/
theorem ta1_build_shape
    (q1 q2 q3 q4 q5 q6 q7 q8 q9 q10 q11 q12 q13 q15 q16 t1 t2 t3 t4 t5 i2 : String) :
    ("ISA*" ++ q1 ++ "*" ++ q2 ++ "*" ++ q3 ++ "*" ++ q4 ++ "*" ++
      q5 ++ "*" ++ q6 ++ "*" ++ q7 ++ "*" ++ q8 ++ "*" ++
      q9 ++ "*" ++ q10 ++ "*" ++ q11 ++ "*" ++ q12 ++ "*" ++ q13 ++ "*0*" ++ q15 ++
      "*" ++ q16 ++ "~" ++
      ("TA1*" ++ t1 ++ "*" ++ t2 ++ "*" ++ t3 ++ "*" ++ t4 ++ "*" ++ t5) ++ "~" ++
      ("IEA*1*" ++ i2 ++ "~")) =
    String.mk (joinStar (["ISA", q1, q2, q3, q4, q5, q6, q7, q8, q9, q10, q11, q12,
        q13, "0", q15, q16].map String.data) ++ '~' ::
      (joinStar (["TA1", t1, t2, t3, t4, t5].map String.data) ++ '~' ::
        (joinStar (["IEA", "1", i2].map String.data) ++ ['~']))) := by
  apply String.ext
  simp [String.data_append, joinStar]

/-- Field lists of every generated TA1 acknowledgement, provided the
interpolated header values are free of the `*` and `~` delimiters. -/
theorem ta1Fields_of_generate (isa : CdmSegment) (errors : List InterchangeError)
    (force : Bool) (d t out : String)
    (hgen : generateTA1 isa errors force d t = some out)
    (h1 : noStarTilde (pyOrStr (isa.get_element 1) "00") = true)
    (h2 : noStarTilde (pyOrStr (isa.get_element 2) "          ") = true)
    (h3 : noStarTilde (pyOrStr (isa.get_element 3) "00") = true)
    (h4 : noStarTilde (pyOrStr (isa.get_element 4) "          ") = true)
    (h5 : noStarTilde (pyOrStr (isa.get_element 5) "ZZ") = true)
    (h6 : noStarTilde (pyOrStr (isa.get_element 6) "               ") = true)
    (h7 : noStarTilde (pyOrStr (isa.get_element 7) "ZZ") = true)
    (h8 : noStarTilde (pyOrStr (isa.get_element 8) "               ") = true)
    (h9 : noStarTilde ((isa.get_element 9).getD "") = true)
    (h10 : noStarTilde ((isa.get_element 10).getD "") = true)
    (h11 : noStarTilde (pyOrStr (isa.get_element 11) "^") = true)
    (h12 : noStarTilde (pyOrStr (isa.get_element 12) "00501") = true)
    (h13 : noStarTilde ((isa.get_element 13).getD "") = true)
    (h15 : noStarTilde (pyOrStr (isa.get_element 15) "P") = true)
    (h16 : noStarTilde (pyOrStr (isa.get_element 16) ">") = true)
    (hd : noStarTilde d = true) (ht : noStarTilde t = true) :
    ta1Fields out 0 =
      ["ISA", pyOrStr (isa.get_element 1) "00",
        pyOrStr (isa.get_element 2) "          ",
        pyOrStr (isa.get_element 3) "00",
        pyOrStr (isa.get_element 4) "          ",
        pyOrStr (isa.get_element 7) "ZZ",
        pyOrStr (isa.get_element 8) "               ",
        pyOrStr (isa.get_element 5) "ZZ",
        pyOrStr (isa.get_element 6) "               ",
        d, t,
        pyOrStr (isa.get_element 11) "^",
        pyOrStr (isa.get_element 12) "00501",
        zfill 9 (d ++ t), "0",
        pyOrStr (isa.get_element 15) "P",
        pyOrStr (isa.get_element 16) ">"] ∧
    ta1Fields out 1 =
      ["TA1", zfill 9 (pyStrip ((isa.get_element 13).getD "")),
        (if ((isa.get_element 9).getD "").length = 8 then
          String.mk (((isa.get_element 9).getD "").data.drop 2)
        else (isa.get_element 9).getD ""),
        (isa.get_element 10).getD "",
        (if errors.isEmpty then TA1AcknowledgementCode.ACCEPTED
          else TA1AcknowledgementCode.REJECTED).value,
        (if errors.isEmpty then TA1NoteCode.NO_ERROR
          else (errors.headD ⟨TA1NoteCode.NO_ERROR⟩).note_code).value] ∧
    ta1Fields out 2 = ["IEA", "1", zfill 9 (d ++ t)] := by
  have hout := generateTA1_inv isa errors force d t out hgen
  rw [ta1_build_shape] at hout
  have hicn : noStarTilde (zfill 9 (d ++ t)) = true :=
    noStarTilde_zfill _ _ (noStarTilde_append _ _ hd ht)
  have hoicn : noStarTilde (zfill 9 (pyStrip ((isa.get_element 13).getD ""))) = true :=
    noStarTilde_zfill _ _ (noStarTilde_pyStrip _ h13)
  have hdate : noStarTilde (if ((isa.get_element 9).getD "").length = 8 then
      String.mk (((isa.get_element 9).getD "").data.drop 2)
    else (isa.get_element 9).getD "") = true := by
    split
    · exact noStarTilde_dropData _ _ h9
    · exact h9
  have hfa : ∀ f ∈ ["ISA", pyOrStr (isa.get_element 1) "00",
      pyOrStr (isa.get_element 2) "          ",
      pyOrStr (isa.get_element 3) "00",
      pyOrStr (isa.get_element 4) "          ",
      pyOrStr (isa.get_element 7) "ZZ",
      pyOrStr (isa.get_element 8) "               ",
      pyOrStr (isa.get_element 5) "ZZ",
      pyOrStr (isa.get_element 6) "               ",
      d, t,
      pyOrStr (isa.get_element 11) "^",
      pyOrStr (isa.get_element 12) "00501",
      zfill 9 (d ++ t), "0",
      pyOrStr (isa.get_element 15) "P",
      pyOrStr (isa.get_element 16) ">"], noStarTilde f = true := by
    simp only [List.forall_mem_cons, List.forall_mem_nil]
    exact ⟨by decide, h1, h2, h3, h4, h7, h8, h5, h6, hd, ht, h11, h12, hicn,
      by decide, h15, h16, List.forall_mem_nil _⟩
  have hfb : ∀ f ∈ ["TA1", zfill 9 (pyStrip ((isa.get_element 13).getD "")),
      (if ((isa.get_element 9).getD "").length = 8 then
        String.mk (((isa.get_element 9).getD "").data.drop 2)
      else (isa.get_element 9).getD ""),
      (isa.get_element 10).getD "",
      (if errors.isEmpty then TA1AcknowledgementCode.ACCEPTED
        else TA1AcknowledgementCode.REJECTED).value,
      (if errors.isEmpty then TA1NoteCode.NO_ERROR
        else (errors.headD ⟨TA1NoteCode.NO_ERROR⟩).note_code).value],
      noStarTilde f = true := by
    simp only [List.forall_mem_cons, List.forall_mem_nil]
    exact ⟨by decide, hoicn, hdate, h10, ackValue_free _, noteValue_free _, List.forall_mem_nil _⟩
  have hfc : ∀ f ∈ ["IEA", "1", zfill 9 (d ++ t)], noStarTilde f = true := by
    simp only [List.forall_mem_cons, List.forall_mem_nil]
    exact ⟨by decide, by decide, hicn, List.forall_mem_nil _⟩
  have hb := ta1Fields_of_build _ _ _ (by simp) (by simp) (by simp) hfa hfb hfc
  rw [hout]
  exact hb

end EdiJson

namespace EdiJson

/-- C5: whenever `generateTA1` produces an acknowledgement, the response
ISA's sender pair (ISA05, ISA06) is the input's receiver pair (ISA07,
ISA08) and vice versa — but each through the `or`-defaults of the
generator (`"ZZ"` / fifteen spaces substituted for missing or empty
input elements); the acknowledgement code is `A` exactly when the error
list is empty and `R` otherwise, with note code `000` on acceptance and
the first listed error's note code on rejection. -/
theorem c5_ta1_swap (isa : CdmSegment) (errors : List InterchangeError)
    (force : Bool) (d t out : String)
    (hgen : generateTA1 isa errors force d t = some out)
    (h1 : noStarTilde (pyOrStr (isa.get_element 1) "00") = true)
    (h2 : noStarTilde (pyOrStr (isa.get_element 2) "          ") = true)
    (h3 : noStarTilde (pyOrStr (isa.get_element 3) "00") = true)
    (h4 : noStarTilde (pyOrStr (isa.get_element 4) "          ") = true)
    (h5 : noStarTilde (pyOrStr (isa.get_element 5) "ZZ") = true)
    (h6 : noStarTilde (pyOrStr (isa.get_element 6) "               ") = true)
    (h7 : noStarTilde (pyOrStr (isa.get_element 7) "ZZ") = true)
    (h8 : noStarTilde (pyOrStr (isa.get_element 8) "               ") = true)
    (h9 : noStarTilde ((isa.get_element 9).getD "") = true)
    (h10 : noStarTilde ((isa.get_element 10).getD "") = true)
    (h11 : noStarTilde (pyOrStr (isa.get_element 11) "^") = true)
    (h12 : noStarTilde (pyOrStr (isa.get_element 12) "00501") = true)
    (h13 : noStarTilde ((isa.get_element 13).getD "") = true)
    (h15 : noStarTilde (pyOrStr (isa.get_element 15) "P") = true)
    (h16 : noStarTilde (pyOrStr (isa.get_element 16) ">") = true)
    (hd : noStarTilde d = true) (ht : noStarTilde t = true) :
    (ta1Fields out 0).getD 5 "" = pyOrStr (isa.get_element 7) "ZZ" ∧
    (ta1Fields out 0).getD 6 "" = pyOrStr (isa.get_element 8) "               " ∧
    (ta1Fields out 0).getD 7 "" = pyOrStr (isa.get_element 5) "ZZ" ∧
    (ta1Fields out 0).getD 8 "" = pyOrStr (isa.get_element 6) "               " ∧
    (ta1Fields out 1).getD 4 "" = (if errors.isEmpty then "A" else "R") ∧
    (ta1Fields out 1).getD 5 "" =
      (if errors.isEmpty then "000"
       else (errors.headD ⟨TA1NoteCode.NO_ERROR⟩).note_code.value) := by
  obtain ⟨hA, hB, _⟩ := ta1Fields_of_generate isa errors force d t out hgen
    h1 h2 h3 h4 h5 h6 h7 h8 h9 h10 h11 h12 h13 h15 h16 hd ht
  rw [hA, hB]
  refine ⟨rfl, rfl, rfl, rfl, ?_, ?_⟩ <;>
    cases herr : errors.isEmpty <;>
    simp [herr, TA1AcknowledgementCode.value, TA1NoteCode.value, List.getD]

theorem c5_ta1_swap_witness :
    generateTA1 c5Isa [] false "240101" "1200" = some
      "ISA*00*AUTHINFO15*00*SECINFO*YY*RECEIVERID*ZZ*SENDERID*240101*1200*^*00501*2401011200*0*P*:~TA1*000000001*240718*1200*A*000~IEA*1*2401011200~" ∧
    ((ta1Fields "ISA*00*AUTHINFO15*00*SECINFO*YY*RECEIVERID*ZZ*SENDERID*240101*1200*^*00501*2401011200*0*P*:~TA1*000000001*240718*1200*A*000~IEA*1*2401011200~" 0).getD 5 "" =
        pyOrStr (c5Isa.get_element 7) "ZZ" ∧
      (ta1Fields "ISA*00*AUTHINFO15*00*SECINFO*YY*RECEIVERID*ZZ*SENDERID*240101*1200*^*00501*2401011200*0*P*:~TA1*000000001*240718*1200*A*000~IEA*1*2401011200~" 0).getD 6 "" =
        pyOrStr (c5Isa.get_element 8) "               " ∧
      (ta1Fields "ISA*00*AUTHINFO15*00*SECINFO*YY*RECEIVERID*ZZ*SENDERID*240101*1200*^*00501*2401011200*0*P*:~TA1*000000001*240718*1200*A*000~IEA*1*2401011200~" 0).getD 7 "" =
        pyOrStr (c5Isa.get_element 5) "ZZ" ∧
      (ta1Fields "ISA*00*AUTHINFO15*00*SECINFO*YY*RECEIVERID*ZZ*SENDERID*240101*1200*^*00501*2401011200*0*P*:~TA1*000000001*240718*1200*A*000~IEA*1*2401011200~" 0).getD 8 "" =
        pyOrStr (c5Isa.get_element 6) "               " ∧
      (ta1Fields "ISA*00*AUTHINFO15*00*SECINFO*YY*RECEIVERID*ZZ*SENDERID*240101*1200*^*00501*2401011200*0*P*:~TA1*000000001*240718*1200*A*000~IEA*1*2401011200~" 1).getD 4 "" =
        (if ([] : List InterchangeError).isEmpty then "A" else "R") ∧
      (ta1Fields "ISA*00*AUTHINFO15*00*SECINFO*YY*RECEIVERID*ZZ*SENDERID*240101*1200*^*00501*2401011200*0*P*:~TA1*000000001*240718*1200*A*000~IEA*1*2401011200~" 1).getD 5 "" =
        (if ([] : List InterchangeError).isEmpty then "000"
         else (([] : List InterchangeError).headD ⟨TA1NoteCode.NO_ERROR⟩).note_code.value)) :=
  ⟨rfl, c5_ta1_swap c5Isa [] false "240101" "1200"
    "ISA*00*AUTHINFO15*00*SECINFO*YY*RECEIVERID*ZZ*SENDERID*240101*1200*^*00501*2401011200*0*P*:~TA1*000000001*240718*1200*A*000~IEA*1*2401011200~"
    rfl (by decide) (by decide) (by decide) (by decide) (by decide) (by decide)
    (by decide) (by decide) (by decide) (by decide) (by decide) (by decide)
    (by decide) (by decide) (by decide) (by decide) (by decide)⟩

/-- C5 counterexample: with an empty receiver qualifier in the input ISA
(element 7 is the empty string), the generated response's sender
qualifier is the default `"ZZ"`, not the input's receiver qualifier, so
the literal swap stated by the claim fails. -/
theorem c5_counterexample :
    generateTA1 c5IsaEmptyReceiver [] false "240101" "1200" = some
      "ISA*00*AUTHINFO15*00*SECINFO*ZZ*RECEIVERID*ZZ*SENDERID*240101*1200*^*00501*2401011200*0*P*:~TA1*000000001*240718*1200*A*000~IEA*1*2401011200~" ∧
    (ta1Fields "ISA*00*AUTHINFO15*00*SECINFO*ZZ*RECEIVERID*ZZ*SENDERID*240101*1200*^*00501*2401011200*0*P*:~TA1*000000001*240718*1200*A*000~IEA*1*2401011200~" 0).getD 5 "" = "ZZ" ∧
    (c5IsaEmptyReceiver.get_element 7).getD "" = "" ∧
    ¬ ((ta1Fields "ISA*00*AUTHINFO15*00*SECINFO*ZZ*RECEIVERID*ZZ*SENDERID*240101*1200*^*00501*2401011200*0*P*:~TA1*000000001*240718*1200*A*000~IEA*1*2401011200~" 0).getD 5 "" =
      (c5IsaEmptyReceiver.get_element 7).getD "") :=
  ⟨rfl, rfl, rfl, by decide⟩

/-- C9: every generated TA1 acknowledgement is exactly three segments,
each terminated by `~` and with its fields joined by `*` — but the
emitted component separator (field 16 of the response ISA) is the
incoming interchange's ISA16 whenever that element is present and
non-empty, with `>` only as the fallback, so it is not independent of
the incoming delimiters. -/
theorem c9_wire_format (isa : CdmSegment) (errors : List InterchangeError)
    (force : Bool) (d t out : String)
    (hgen : generateTA1 isa errors force d t = some out)
    (h1 : noStarTilde (pyOrStr (isa.get_element 1) "00") = true)
    (h2 : noStarTilde (pyOrStr (isa.get_element 2) "          ") = true)
    (h3 : noStarTilde (pyOrStr (isa.get_element 3) "00") = true)
    (h4 : noStarTilde (pyOrStr (isa.get_element 4) "          ") = true)
    (h5 : noStarTilde (pyOrStr (isa.get_element 5) "ZZ") = true)
    (h6 : noStarTilde (pyOrStr (isa.get_element 6) "               ") = true)
    (h7 : noStarTilde (pyOrStr (isa.get_element 7) "ZZ") = true)
    (h8 : noStarTilde (pyOrStr (isa.get_element 8) "               ") = true)
    (h9 : noStarTilde ((isa.get_element 9).getD "") = true)
    (h10 : noStarTilde ((isa.get_element 10).getD "") = true)
    (h11 : noStarTilde (pyOrStr (isa.get_element 11) "^") = true)
    (h12 : noStarTilde (pyOrStr (isa.get_element 12) "00501") = true)
    (h13 : noStarTilde ((isa.get_element 13).getD "") = true)
    (h15 : noStarTilde (pyOrStr (isa.get_element 15) "P") = true)
    (h16 : noStarTilde (pyOrStr (isa.get_element 16) ">") = true)
    (hd : noStarTilde d = true) (ht : noStarTilde t = true) :
    out = String.mk (joinStar ((ta1Fields out 0).map String.data) ++ '~' ::
      (joinStar ((ta1Fields out 1).map String.data) ++ '~' ::
        (joinStar ((ta1Fields out 2).map String.data) ++ ['~']))) ∧
    (ta1Fields out 0).length = 17 ∧
    (ta1Fields out 0).getD 16 "" = pyOrStr (isa.get_element 16) ">" := by
  obtain ⟨hA, hB, hC⟩ := ta1Fields_of_generate isa errors force d t out hgen
    h1 h2 h3 h4 h5 h6 h7 h8 h9 h10 h11 h12 h13 h15 h16 hd ht
  have hout := generateTA1_inv isa errors force d t out hgen
  rw [ta1_build_shape] at hout
  refine ⟨?_, ?_, ?_⟩
  · rw [hA, hB, hC]
    exact hout
  · rw [hA]
    rfl
  · rw [hA]
    rfl

theorem c9_wire_format_witness :
    generateTA1 c9Isa [] false "240101" "1200" = some
      "ISA*00*AUTHINFO15*00*SECINFO*YY*RECEIVERID*ZZ*SENDERID*240101*1200*^*00501*2401011200*0*P*>~TA1*000000001*240718*1200*A*000~IEA*1*2401011200~" ∧
    ("ISA*00*AUTHINFO15*00*SECINFO*YY*RECEIVERID*ZZ*SENDERID*240101*1200*^*00501*2401011200*0*P*>~TA1*000000001*240718*1200*A*000~IEA*1*2401011200~" : String) =
      String.mk (joinStar ((ta1Fields "ISA*00*AUTHINFO15*00*SECINFO*YY*RECEIVERID*ZZ*SENDERID*240101*1200*^*00501*2401011200*0*P*>~TA1*000000001*240718*1200*A*000~IEA*1*2401011200~" 0).map String.data) ++ '~' ::
        (joinStar ((ta1Fields "ISA*00*AUTHINFO15*00*SECINFO*YY*RECEIVERID*ZZ*SENDERID*240101*1200*^*00501*2401011200*0*P*>~TA1*000000001*240718*1200*A*000~IEA*1*2401011200~" 1).map String.data) ++ '~' ::
          (joinStar ((ta1Fields "ISA*00*AUTHINFO15*00*SECINFO*YY*RECEIVERID*ZZ*SENDERID*240101*1200*^*00501*2401011200*0*P*>~TA1*000000001*240718*1200*A*000~IEA*1*2401011200~" 2).map String.data) ++ ['~']))) ∧
    (ta1Fields "ISA*00*AUTHINFO15*00*SECINFO*YY*RECEIVERID*ZZ*SENDERID*240101*1200*^*00501*2401011200*0*P*>~TA1*000000001*240718*1200*A*000~IEA*1*2401011200~" 0).length = 17 ∧
    (ta1Fields "ISA*00*AUTHINFO15*00*SECINFO*YY*RECEIVERID*ZZ*SENDERID*240101*1200*^*00501*2401011200*0*P*>~TA1*000000001*240718*1200*A*000~IEA*1*2401011200~" 0).getD 16 "" =
      pyOrStr (c9Isa.get_element 16) ">" :=
  ⟨rfl, c9_wire_format c9Isa [] false "240101" "1200"
    "ISA*00*AUTHINFO15*00*SECINFO*YY*RECEIVERID*ZZ*SENDERID*240101*1200*^*00501*2401011200*0*P*>~TA1*000000001*240718*1200*A*000~IEA*1*2401011200~"
    rfl (by decide) (by decide) (by decide) (by decide) (by decide) (by decide)
    (by decide) (by decide) (by decide) (by decide) (by decide) (by decide)
    (by decide) (by decide) (by decide) (by decide) (by decide)⟩

/-- C9 counterexample: the input interchange uses `:` as its component
separator (ISA16) and the generated acknowledgement echoes that `:` in
its own ISA16 rather than emitting the fixed `>` the claim states. -/
theorem c9_counterexample :
    generateTA1 c5Isa [⟨TA1NoteCode.ICN_MISMATCH_IN_HEADER_TRAILER⟩] false "240101" "1200" = some
      "ISA*00*AUTHINFO15*00*SECINFO*YY*RECEIVERID*ZZ*SENDERID*240101*1200*^*00501*2401011200*0*P*:~TA1*000000001*240718*1200*R*001~IEA*1*2401011200~" ∧
    (ta1Fields "ISA*00*AUTHINFO15*00*SECINFO*YY*RECEIVERID*ZZ*SENDERID*240101*1200*^*00501*2401011200*0*P*:~TA1*000000001*240718*1200*R*001~IEA*1*2401011200~" 0).getD 16 "" = ":" ∧
    (":" : String) ≠ ">" :=
  ⟨rfl, rfl, by decide⟩

end EdiJson

namespace EdiJson

theorem lookupA_mem {α : Type} (m : List (String × α)) (k : String) (v : α)
    (h : lookupA m k = some v) : ∃ p, p ∈ m ∧ p.2 = v := by
  rw [lookupA] at h
  cases hf : m.find? (fun p => p.1 = k) with
  | none => rw [hf] at h; exact Option.noConfusion h
  | some p =>
    rw [hf] at h
    injection h with h
    exact ⟨p, List.mem_of_find?_eq_some hf, h⟩

theorem extractPos_ok (e : String)
    (h : (keepDigits e).data.isEmpty = false) : ∃ n, extractPos e = .ok n := by
  refine ⟨decimalValue (keepDigits e).data, ?_⟩
  rw [extractPos]
  rw [if_neg (by simp [h])]

theorem allE_ok {α : Type} (f : α → Except String Bool) (l : List α)
    (h : ∀ x ∈ l, ∃ b, f x = .ok b) : ∃ b, allE f l = .ok b := by
  induction l with
  | nil => exact ⟨true, rfl⟩
  | cons x rest ih =>
    obtain ⟨b, hb⟩ := h x (by simp)
    obtain ⟨br, hbr⟩ := ih (fun y hy => h y (by simp [hy]))
    rw [allE]
    simp only [Bind.bind, Except.bind, hb]
    cases b
    · exact ⟨false, rfl⟩
    · exact ⟨br, by simpa using hbr⟩

theorem anyE_ok {α : Type} (f : α → Except String Bool) (l : List α)
    (h : ∀ x ∈ l, ∃ b, f x = .ok b) : ∃ b, anyE f l = .ok b := by
  induction l with
  | nil => exact ⟨false, rfl⟩
  | cons x rest ih =>
    obtain ⟨b, hb⟩ := h x (by simp)
    obtain ⟨br, hbr⟩ := ih (fun y hy => h y (by simp [hy]))
    rw [anyE]
    simp only [Bind.bind, Except.bind, hb]
    cases b
    · exact ⟨br, by simpa using hbr⟩
    · exact ⟨true, rfl⟩

theorem evalConditionClause_ok (seg : CdmSegment) (c : ConditionClause)
    (hc : clauseSafeB c = true) : ∃ b, evalConditionClause seg c = .ok b := by
  rw [clauseSafeB, Bool.and_eq_true] at hc
  obtain ⟨hdig, hval⟩ := hc
  rw [Bool.not_eq_true'] at hdig
  obtain ⟨n, hn⟩ := extractPos_ok c.element hdig
  rw [evalConditionClause]
  simp only [Bind.bind, Except.bind, hn]
  split
  · exact ⟨_, rfl⟩
  · split
    · exact ⟨_, rfl⟩
    · split
      · rename_i hop
        rw [if_pos (by simp [hop])] at hval
        cases hv : c.value with
        | none => rw [hv] at hval; exact Bool.noConfusion hval
        | some v => exact ⟨_, rfl⟩
      · split
        · rename_i hop1 hop2 hop3 hop
          rw [if_pos (by simp [hop])] at hval
          cases hv : c.value with
          | none => rw [hv] at hval; exact Bool.noConfusion hval
          | some v => exact ⟨_, rfl⟩
        · exact ⟨_, rfl⟩

theorem evalConditions_ok (seg : CdmSegment) (conds : Conditions)
    (hall : ∀ cs, conds.all_of = some cs → cs.all clauseSafeB = true)
    (hany : ∀ cs, conds.any_of = some cs → cs.all clauseSafeB = true) :
    ∃ b, evalConditions seg conds = .ok b := by
  rw [evalConditions]
  cases hao : conds.all_of with
  | some cs =>
    refine allE_ok _ _ (fun x hx => evalConditionClause_ok seg x ?_)
    have := hall cs hao
    rw [List.all_eq_true] at this
    exact this x hx
  | none =>
    cases hae : conds.any_of with
    | some cs =>
      refine anyE_ok _ _ (fun x hx => evalConditionClause_ok seg x ?_)
      have := hany cs hae
      rw [List.all_eq_true] at this
      exact this x hx
    | none => exact ⟨true, rfl⟩

theorem mapM_extractPos_ok (l : List String)
    (h : ∀ e ∈ l, (keepDigits e).data.isEmpty = false) :
    ∃ ps, l.mapM extractPos = .ok ps := by
  induction l with
  | nil => exact ⟨[], rfl⟩
  | cons x rest ih =>
    obtain ⟨n, hn⟩ := extractPos_ok x (h x (by simp))
    obtain ⟨ps, hps⟩ := ih (fun e he => h e (by simp [he]))
    refine ⟨n :: ps, ?_⟩
    rw [List.mapM_cons]
    simp only [Bind.bind, Except.bind, hn, hps, Pure.pure, Except.pure]

end EdiJson

namespace EdiJson

theorem execAssertion_ok (seg : CdmSegment) (a : AssertionClause) (ruleId : String)
    (ha : assertionSafeB a = true) : ∃ es, execAssertion seg a ruleId = .ok es := by
  rw [assertionSafeB] at ha
  rw [execAssertion]
  split
  · rename_i hass
    rw [if_pos hass] at ha
    cases he : a.element with
    | none => rw [he] at ha; exact Bool.noConfusion ha
    | some e =>
      rw [he] at ha
      rw [Bool.not_eq_true'] at ha
      obtain ⟨n, hn⟩ := extractPos_ok e ha
      simp only [Bind.bind, Except.bind, hn]
      exact ⟨_, rfl⟩
  · split
    · rename_i hass1 hass
      rw [if_neg hass1, if_pos hass, Bool.and_eq_true] at ha
      obtain ⟨hel, hv⟩ := ha
      cases he : a.element with
      | none => rw [he] at hel; exact Bool.noConfusion hel
      | some e =>
        rw [he] at hel
        rw [Bool.not_eq_true'] at hel
        obtain ⟨n, hn⟩ := extractPos_ok e hel
        simp only [Bind.bind, Except.bind, hn]
        cases hve : a.value with
        | none => rw [hve] at hv; exact Bool.noConfusion hv
        | some v => exact ⟨_, rfl⟩
    · split
      · rename_i hass1 hass2 hass
        rw [if_neg hass1, if_neg hass2, if_pos hass] at ha
        cases he : a.elements with
        | none => rw [he] at ha; exact Bool.noConfusion ha
        | some l =>
          rw [he] at ha
          rw [List.all_eq_true] at ha
          obtain ⟨ps, hps⟩ := mapM_extractPos_ok l (fun e hme => by
            have := ha e hme
            rw [Bool.not_eq_true'] at this
            exact this)
          simp only [Bind.bind, Except.bind, hps]
          exact ⟨_, rfl⟩
      · exact ⟨_, rfl⟩

theorem runAssertions_ok (seg : CdmSegment) (ruleId : String)
    (l : List AssertionClause) (h : l.all assertionSafeB = true) :
    ∃ es, runAssertions seg ruleId l = .ok es := by
  induction l with
  | nil => exact ⟨[], rfl⟩
  | cons a rest ih =>
    rw [List.all_cons, Bool.and_eq_true] at h
    obtain ⟨e1, he1⟩ := execAssertion_ok seg a ruleId h.1
    obtain ⟨e2, he2⟩ := ih h.2
    refine ⟨e1 ++ e2, ?_⟩
    rw [runAssertions]
    simp only [Bind.bind, Except.bind, he1, he2]

theorem runRules_ok (seg : CdmSegment) (rules : List SyntaxRule)
    (h : rules.all ruleSafeB = true) :
    ∃ es, runRules seg rules = .ok es := by
  induction rules with
  | nil => exact ⟨[], rfl⟩
  | cons r rest ih =>
    rw [List.all_cons, Bool.and_eq_true] at h
    obtain ⟨hr, hrest⟩ := h
    rw [ruleSafeB, Bool.and_eq_true, Bool.and_eq_true] at hr
    obtain ⟨⟨hall, hany⟩, hthen⟩ := hr
    obtain ⟨met, hmet⟩ := evalConditions_ok seg r.conditions
      (fun cs hcs => by rw [hcs] at hall; exact hall)
      (fun cs hcs => by rw [hcs] at hany; exact hany)
    obtain ⟨e2, he2⟩ := ih hrest
    rw [runRules]
    simp only [Bind.bind, Except.bind, hmet]
    cases met
    · simp only [Bool.false_eq_true, if_false, Pure.pure, Except.pure, he2]
      exact ⟨_, rfl⟩
    · obtain ⟨e1, he1⟩ := runAssertions_ok seg r.ruleId r.thenList hthen
      simp only [if_true, he1, he2]
      exact ⟨_, rfl⟩

theorem pyIndex_ok {α : Type} (l : List α) (i : Int)
    (h0 : 0 ≤ i) (hl : i < (l.length : Int)) : ∃ a, pyIndex l i = .ok a := by
  have hj : (if i ≥ 0 then i else i + l.length) = i := if_pos h0
  simp only [pyIndex, hj]
  rw [dif_pos ⟨h0, hl⟩]
  exact ⟨_, rfl⟩

end EdiJson

namespace EdiJson

theorem edefSeqSafeB_seq (e : EDef) (h : edefSeqSafeB e = true) : 0 ≤ e.seq := by
  cases e with
  | mk xid usage seq dataType minLength maxLength format valid_codes subs is_id =>
    rw [edefSeqSafeB.eq_def] at h
    simp only [Bool.and_eq_true, decide_eq_true_eq] at h
    exact h.1

theorem edefSeqSafeB_subs (xid usage : String) (seq : Int) (dataType : String)
    (minLength maxLength : Option Int) (format : Option FormatTok)
    (valid_codes : Option (List CodeDefinition)) (subs : List EDef) (is_id : Bool)
    (h : edefSeqSafeB (.mk xid usage seq dataType minLength maxLength format
      valid_codes (some subs) is_id) = true) : edefsSeqSafeB subs = true := by
  rw [edefSeqSafeB.eq_def] at h
  simp only [Bool.and_eq_true] at h
  exact h.2

end EdiJson

namespace EdiJson

set_option maxHeartbeats 1000000 in
theorem validateElementRec_ok (compSep : Char) (edef : EDef) (value : String)
    (parentXid : Option String) (hsafe : edefSeqSafeB edef = true) :
    ∃ es, validateElementRec compSep edef value parentXid = .ok es := by
  revert hsafe
  induction edef, value, parentXid using validateElementRec.induct compSep
  case motive_2 =>
    rename_i subs subVals pfx
    exact edefsSeqSafeB subs = true →
      ∃ es, validateSubElements compSep subs subVals pfx = .ok es
  case case1 =>
    rename_i xid usage seq dt minL maxL fmt codes subs isIdent value parentXid isP hcond
    intro _
    rw [validateElementRec, if_pos hcond]
    exact ⟨_, rfl⟩
  case case2 =>
    rename_i xid usage seq dt minL maxL fmt codes subs isIdent value parentXid isP hnc hnp
    intro _
    rw [validateElementRec, if_neg hnc, if_pos hnp]
    exact ⟨_, rfl⟩
  case case3 =>
    rename_i xid usage seq minL maxL fmt codes subs isIdent value parentXid fullXid isP hnc hp ih1
    intro hsafe
    obtain ⟨es, hes⟩ := ih1 (edefSeqSafeB_subs _ _ _ _ _ _ _ _ _ _ hsafe)
    have hfx : fullXid = fullXidOf parentXid xid := rfl
    rw [hfx] at hes
    rw [validateElementRec, if_neg hnc, if_neg hp, if_pos rfl]
    simp only [Bind.bind, Except.bind, hes]
    exact ⟨_, rfl⟩
  case case4 =>
    rename_i xid usage seq dt minL maxL fmt codes subs isIdent value parentXid isP hnc hp hnd
    intro _
    rw [validateElementRec, if_neg hnc, if_neg hp, if_neg hnd]
    exact ⟨_, rfl⟩
  case case5 =>
    rename_i xid usage seq dt minL maxL fmt codes isIdent value parentXid isP hcond
    intro _
    rw [validateElementRec, if_pos hcond]
    exact ⟨_, rfl⟩
  case case6 =>
    rename_i xid usage seq dt minL maxL fmt codes isIdent value parentXid isP hnc hnp
    intro _
    rw [validateElementRec, if_neg hnc, if_pos hnp]
    exact ⟨_, rfl⟩
  case case7 =>
    rename_i xid usage seq minL maxL fmt codes isIdent value parentXid isP hnc hp
    intro _
    rw [validateElementRec, if_neg hnc, if_neg hp, if_pos rfl]
    exact ⟨_, rfl⟩
  case case8 =>
    rename_i xid usage seq dt minL maxL fmt codes isIdent value parentXid isP hnc hp hnd
    intro _
    rw [validateElementRec, if_neg hnc, if_neg hp, if_neg hnd]
    exact ⟨_, rfl⟩
  case case9 =>
    rename_i subVals pfx
    intro _
    exact ⟨[], rfl⟩
  case case10 =>
    rename_i subVals pfx sub rest ih_sv ih_empty ih_rest
    intro hsafe
    rw [edefsSeqSafeB, Bool.and_eq_true] at hsafe
    obtain ⟨hsub, hrest⟩ := hsafe
    obtain ⟨es2, hes2⟩ := ih_rest hrest
    rw [validateSubElements]
    by_cases hz : sub.seq = 0
    · rw [if_pos hz]
      simp only [Bind.bind, Except.bind, Pure.pure, Except.pure, hes2]
      exact ⟨_, rfl⟩
    · by_cases hlt : sub.seq - 1 < (subVals.length : Int)
      · have hseq := edefSeqSafeB_seq sub hsub
        have h0 : 0 ≤ sub.seq - 1 := by omega
        obtain ⟨sv, hsv⟩ := pyIndex_ok subVals (sub.seq - 1) h0 hlt
        obtain ⟨es1, hes1⟩ := ih_sv sv hsub
        rw [if_neg hz, if_pos hlt]
        simp only [Bind.bind, Except.bind, hsv, hes1, hes2]
        exact ⟨_, rfl⟩
      · obtain ⟨es1, hes1⟩ := ih_empty hsub
        rw [if_neg hz, if_neg hlt]
        simp only [Bind.bind, Except.bind, hes1, hes2]
        exact ⟨_, rfl⟩

end EdiJson

namespace EdiJson

theorem edefSeqSafeB_mk (xid usage : String) (seq : Int) (dt : String)
    (minL maxL : Option Int) (fmt : Option FormatTok)
    (codes : Option (List CodeDefinition)) (subs : Option (List EDef)) (isIdent : Bool) :
    edefSeqSafeB (.mk xid usage seq dt minL maxL fmt codes subs isIdent) =
      (decide (0 ≤ seq) &&
        (match subs with | some l => edefsSeqSafeB l | none => true)) := by
  rw [edefSeqSafeB.eq_def]

theorem edefsSeqSafeB_mem (l : List EDef) (h : edefsSeqSafeB l = true) :
    ∀ e ∈ l, edefSeqSafeB e = true := by
  induction l with
  | nil => intro e he; simp at he
  | cons x rest ih =>
    rw [edefsSeqSafeB, Bool.and_eq_true] at h
    intro e he
    rcases List.mem_cons.mp he with rfl | hm
    · exact h.1
    · exact ih h.2 e hm

theorem edefsSeqSafeB_of_forall (l : List EDef)
    (h : ∀ e ∈ l, edefSeqSafeB e = true) : edefsSeqSafeB l = true := by
  induction l with
  | nil => rfl
  | cons x rest ih =>
    rw [edefsSeqSafeB, Bool.and_eq_true]
    exact ⟨h x (by simp), ih (fun e he => h e (by simp [he]))⟩

theorem runElementChecks_ok (compSep : Char) (seg : CdmSegment) (l : List EDef)
    (h : ∀ e ∈ l, edefSeqSafeB e = true) :
    ∃ es, runElementChecks compSep seg l = .ok es := by
  induction l with
  | nil => exact ⟨[], rfl⟩
  | cons edef rest ih =>
    obtain ⟨e2, he2⟩ := ih (fun e he => h e (by simp [he]))
    rw [runElementChecks]
    by_cases hz : edef.seq = 0
    · rw [if_pos hz]
      simp only [Bind.bind, Except.bind, Pure.pure, Except.pure, he2]
      exact ⟨_, rfl⟩
    · obtain ⟨e1, he1⟩ := validateElementRec_ok compSep edef
        (elemDataGet seg.elements edef.seq) none (h edef (by simp))
      rw [if_neg hz]
      simp only [Bind.bind, Except.bind, he1, he2]
      exact ⟨_, rfl⟩

theorem applyScalar_safe (el : EDef) (o : EOvScalar)
    (hel : edefSeqSafeB el = true) (ho : ovScalarSeqSafeB o = true) :
    edefSeqSafeB (applyScalar el o) = true := by
  cases el with
  | mk xid usage seq dt minL maxL fmt codes subs isIdent =>
    rw [edefSeqSafeB_mk, Bool.and_eq_true] at hel
    rw [applyScalar]
    simp only [EDef.xid, EDef.usage, EDef.seq, EDef.dataType, EDef.minLength,
      EDef.maxLength, EDef.format, EDef.valid_codes, EDef.sub_elements,
      EDef.is_identifier]
    rw [edefSeqSafeB_mk, Bool.and_eq_true]
    refine ⟨?_, hel.2⟩
    cases hos : o.seq with
    | none => simpa using hel.1
    | some v =>
      rw [ovScalarSeqSafeB, hos] at ho
      simpa using ho

end EdiJson

namespace EdiJson

theorem mergeElement_safe (el : EDef) (ov : EOverride)
    (hel : edefSeqSafeB el = true) (hsc : ovScalarSeqSafeB ov.scalar = true)
    (hsub : ∀ l, ov.sub_elements = some l →
      l.all (fun q => ovScalarSeqSafeB q.2) = true) :
    edefSeqSafeB (mergeElement el ov) = true := by
  rw [mergeElement]
  refine applyScalar_safe _ _ ?_ hsc
  cases hov : ov.sub_elements with
  | none =>
    cases el
    exact hel
  | some subOv =>
    cases el with
    | mk xid usage seq dt minL maxL fmt codes subs isIdent =>
      cases hse : subs with
      | none =>
        simp only [EDef.sub_elements]
        rw [hse] at hel
        exact hel
      | some subList =>
        subst hse
        simp only [EDef.sub_elements, EDef.xid, EDef.usage, EDef.seq,
          EDef.dataType, EDef.minLength, EDef.maxLength, EDef.format,
          EDef.valid_codes, EDef.is_identifier]
        rw [edefSeqSafeB_mk, Bool.and_eq_true] at hel
        rw [edefSeqSafeB_mk, Bool.and_eq_true]
        refine ⟨hel.1, ?_⟩
        have hmem := edefsSeqSafeB_mem subList hel.2
        refine edefsSeqSafeB_of_forall _ (fun e he => ?_)
        rw [List.mem_map] at he
        obtain ⟨sb, hsb, hfe⟩ := he
        subst hfe
        have hsbSafe := hmem sb hsb
        cases sb with
        | mk bx busage bseq bdt bminL bmaxL bfmt bcodes bsubs bisId =>
          simp only [EDef.xid]
          cases hlk : lookupA subOv bx with
          | none => exact hsbSafe
          | some so =>
            obtain ⟨p, pmem, hp2⟩ := lookupA_mem _ _ _ hlk
            have hall := hsub subOv hov
            rw [List.all_eq_true] at hall
            have hps := hall p pmem
            rw [hp2] at hps
            exact applyScalar_safe _ so hsbSafe hps

theorem getEffectiveDefinition_rules (b : SegmentDefinition)
    (ctx : Option ContextualDefinition) :
    (getEffectiveDefinition b ctx).rules = b.rules := by
  rw [getEffectiveDefinition.eq_def]
  cases ctx with
  | none => rfl
  | some c =>
    cases c with
    | mk cid celems =>
      cases celems with
      | nil => rfl
      | cons p rest => rfl

theorem getEffectiveDefinition_elements_safe (b : SegmentDefinition)
    (ctx : Option ContextualDefinition)
    (hb : edefsSeqSafeB b.elements = true)
    (hc : ∀ c, ctx = some c → ctxSafeB c = true) :
    edefsSeqSafeB (getEffectiveDefinition b ctx).elements = true := by
  rw [getEffectiveDefinition.eq_def]
  cases ctx with
  | none => exact hb
  | some c =>
    obtain ⟨cid, celems⟩ := c
    cases hce : celems with
    | nil => exact hb
    | cons p0 rest0 =>
      subst hce
      simp only [ContextualDefinition.elements]
      have hmem := edefsSeqSafeB_mem b.elements hb
      refine edefsSeqSafeB_of_forall _ (fun e he => ?_)
      rw [List.mem_map] at he
      obtain ⟨el, hmel, hfe⟩ := he
      subst hfe
      cases hlk : lookupA (p0 :: rest0) el.xid with
      | none => exact hmem el hmel
      | some ov =>
        obtain ⟨p, pmem, hp2⟩ := lookupA_mem _ _ _ hlk
        have hctx := hc ⟨cid, p0 :: rest0⟩ rfl
        rw [ctxSafeB, List.all_eq_true] at hctx
        have hp := hctx p pmem
        rw [Bool.and_eq_true] at hp
        rw [hp2] at hp
        refine mergeElement_safe el ov (hmem el hmel) hp.1 (fun l hl => ?_)
        have := hp.2
        rw [hl] at this
        exact this

theorem validateSegment_ok (schema : ImplementationGuideSchema)
    (hsafe : schemaSafeB schema = true) (compSep : Char) (seg : CdmSegment)
    (ctxId : Option String) :
    ∃ es, validateSegment schema compSep seg ctxId = .ok es := by
  rw [validateSegment.eq_def]
  cases hlk : lookupA schema.segmentDefinitions seg.segment_id with
  | none => exact ⟨_, rfl⟩
  | some baseDef =>
    rw [schemaSafeB, Bool.and_eq_true] at hsafe
    obtain ⟨hsegs, hctxs⟩ := hsafe
    rw [List.all_eq_true] at hsegs hctxs
    obtain ⟨p, pmem, hp2⟩ := lookupA_mem _ _ _ hlk
    have hbase := hsegs p pmem
    rw [hp2, Bool.and_eq_true] at hbase
    obtain ⟨hrules, helems⟩ := hbase
    have hctxOk : ∀ c, ctxLookup schema ctxId = some c → ctxSafeB c = true := by
      intro c hceq
      cases ctxId with
      | none => exact Option.noConfusion hceq
      | some cid =>
        rw [ctxLookup] at hceq
        obtain ⟨q, qmem, hq2⟩ := lookupA_mem _ _ _ hceq
        have := hctxs q qmem
        rw [hq2] at this
        exact this
    obtain ⟨e1, he1⟩ := runElementChecks_ok compSep seg
      (getEffectiveDefinition baseDef (ctxLookup schema ctxId)).elements
      (edefsSeqSafeB_mem _
        (getEffectiveDefinition_elements_safe baseDef _ helems hctxOk))
    obtain ⟨e2, he2⟩ := runRules_ok seg
      (getEffectiveDefinition baseDef (ctxLookup schema ctxId)).rules
      (by rw [getEffectiveDefinition_rules]; exact hrules)
    simp only [Bind.bind, Except.bind, he1, validateSyntaxRules, he2]
    exact ⟨_, rfl⟩

end EdiJson

namespace EdiJson

theorem parseTransactionSet_ok (schema : ImplementationGuideSchema)
    (compSep : Char) (segs : List CdmSegment) (hne : segs ≠ []) :
    ∃ t, parseTransactionSet schema compSep segs = .ok t := by
  cases segs with
  | nil => exact absurd rfl hne
  | cons st rest =>
    rw [parseTransactionSet]
    split
    · exact ⟨_, rfl⟩
    · exact ⟨_, rfl⟩

theorem parseTransactions_ok (schema : ImplementationGuideSchema) (compSep : Char)
    (tsegs : List CdmSegment) (cursor : Nat) :
    ∃ r, parseTransactions schema compSep tsegs cursor = .ok r := by
  induction cursor using parseTransactions.induct schema compSep tsegs with
  | case1 x hst =>
    rw [parseTransactions]
    split
    · exact ⟨_, rfl⟩
    · rename_i stIdx heq
      rw [hst] at heq
      exact Option.noConfusion heq
  | case2 x stIdx hst hse =>
    rw [parseTransactions]
    split
    · exact ⟨_, rfl⟩
    · rename_i stIdx' heq
      rw [hst] at heq
      injection heq with heq
      subst heq
      split
      · exact ⟨_, rfl⟩
      · rename_i seIdx' heq2
        rw [hse] at heq2
        exact Option.noConfusion heq2
  | case3 x stIdx hst seIdx hse ih =>
    rw [parseTransactions]
    split
    · exact ⟨_, rfl⟩
    · rename_i stIdx' heq
      rw [hst] at heq
      injection heq with heq
      subst heq
      split
      · exact ⟨_, rfl⟩
      · rename_i seIdx' heq2
        rw [hse] at heq2
        injection heq2 with heq2
        subst heq2
        have hb1 := findNextSegment_okBound "ST" tsegs x stIdx hst
        have hb2 := findNextSegment_okBound "SE" tsegs stIdx seIdx hse
        have hblockne : (tsegs.drop stIdx).take (seIdx + 1 - stIdx) ≠ [] := by
          intro hcon
          have hlen := congrArg List.length hcon
          simp only [List.length_take, List.length_drop, List.length_nil] at hlen
          omega
        obtain ⟨t, ht⟩ := parseTransactionSet_ok schema compSep _ hblockne
        obtain ⟨r, hr⟩ := ih
        simp only [Bind.bind, Except.bind, ht, hr]
        exact ⟨_, rfl⟩

theorem parseGroups_ok (schema : ImplementationGuideSchema)
    (hsafe : schemaSafeB schema = true) (compSep : Char)
    (gsegs : List CdmSegment) (cursor : Nat) :
    ∃ r, parseGroups schema compSep gsegs cursor = .ok r := by
  induction cursor using parseGroups.induct schema compSep gsegs with
  | case1 x hgs =>
    rw [parseGroups]
    split
    · exact ⟨_, rfl⟩
    · rename_i gsIdx heq
      rw [hgs] at heq
      exact Option.noConfusion heq
  | case2 x gsIdx hgs hge =>
    rw [parseGroups]
    split
    · exact ⟨_, rfl⟩
    · rename_i gsIdx' heq
      rw [hgs] at heq
      injection heq with heq
      subst heq
      split
      · exact ⟨_, rfl⟩
      · rename_i geIdx' heq2
        rw [hge] at heq2
        exact Option.noConfusion heq2
  | case3 x gsIdx hgs geIdx hge ih =>
    rw [parseGroups]
    split
    · exact ⟨_, rfl⟩
    · rename_i gsIdx' heq
      rw [hgs] at heq
      injection heq with heq
      subst heq
      split
      · exact ⟨_, rfl⟩
      · rename_i geIdx' heq2
        rw [hge] at heq2
        injection heq2 with heq2
        subst heq2
        obtain ⟨e1, h1⟩ := validateSegment_ok schema hsafe compSep
          (gsegs.getD gsIdx dummySeg) none
        obtain ⟨e2, h2⟩ := validateSegment_ok schema hsafe compSep
          (gsegs.getD geIdx dummySeg) none
        obtain ⟨⟨ts, terrs⟩, h3⟩ := parseTransactions_ok schema compSep
          ((gsegs.drop (gsIdx + 1)).take (geIdx - (gsIdx + 1))) 0
        obtain ⟨⟨rg, rerrs⟩, hr⟩ := ih
        simp only [Bind.bind, Except.bind, h1, h2, h3, hr]
        exact ⟨_, rfl⟩

/-- C2: under a delimiter-safe loaded schema (every syntax-rule element
reference contains a digit, rule clauses carry their operand keys, and
every sequence number is non-negative), `parse` is total: it returns an
interchange for every input, and when no ISA segment is found it returns
the interchange carrying the single `ISA/IEA envelope not found.`
finding.  (Corrected: totality needs the schema-safety hypothesis — the
envelope-segment validations run outside the source's `try`, so a schema
whose rules reference digit-less element ids makes `parse` raise.) -/
theorem c2_parse_total (ediString : String) (schema : ImplementationGuideSchema)
    (hsafe : schemaSafeB schema = true) :
    isOkB (parse ediString schema) = true ∧
    (findNextSegment "ISA"
        (segmentize ediString (detectDelimiters ediString).1
          (detectDelimiters ediString).2.1) 0 = none →
      parse ediString schema = .ok ⟨⟨"ISA", [], 0, "", []⟩, ⟨"IEA", [], 0, "", []⟩, [],
        [⟨"ISA/IEA envelope not found.", none, none, none, false⟩]⟩) := by
  constructor
  · simp only [parse]
    split
    · rename_i isaIdx ieaIdx heq1 heq2
      obtain ⟨e1, h1⟩ := validateSegment_ok schema hsafe
        (detectDelimiters ediString).2.2
        ((segmentize ediString (detectDelimiters ediString).1
          (detectDelimiters ediString).2.1).getD isaIdx dummySeg) none
      obtain ⟨e2, h2⟩ := validateSegment_ok schema hsafe
        (detectDelimiters ediString).2.2
        ((segmentize ediString (detectDelimiters ediString).1
          (detectDelimiters ediString).2.1).getD ieaIdx dummySeg) none
      obtain ⟨⟨gs, gerrs⟩, h3⟩ := parseGroups_ok schema hsafe
        (detectDelimiters ediString).2.2
        (((segmentize ediString (detectDelimiters ediString).1
          (detectDelimiters ediString).2.1).drop (isaIdx + 1)).take
            (ieaIdx - (isaIdx + 1))) 0
      simp only [Bind.bind, Except.bind, h1, h2, h3]
      rfl
    · rfl
  · intro hnone
    simp only [parse]
    split
    · rename_i isaIdx ieaIdx heq1 heq2
      rw [hnone] at heq1
      exact Option.noConfusion heq1
    · rfl

theorem c2_parse_total_witness :
    isOkB (parse "hello" emptySchema) = true ∧
    parse "hello" emptySchema = .ok ⟨⟨"ISA", [], 0, "", []⟩, ⟨"IEA", [], 0, "", []⟩, [],
      [⟨"ISA/IEA envelope not found.", none, none, none, false⟩]⟩ :=
  ⟨(c2_parse_total "hello" emptySchema (by decide)).1,
   (c2_parse_total "hello" emptySchema (by decide)).2 (by decide)⟩

/-- C2 counterexample: a loaded schema whose ISA syntax rule references
the digit-less element id `"ISA"` makes `parse` raise the `int()`
ValueError on a well-enveloped input, so `parse` is not total for every
loaded schema. -/
theorem c2_counterexample :
    parse c2BadInput c2BadSchema =
      .error "ValueError: invalid literal for int() with base 10" := by
  rfl

end EdiJson

namespace EdiJson

theorem treeSegCount_mk (i : String) (segs : List CdmSegment)
    (entries : List (String × List CdmLoop)) (errs : List CdmValidationError) :
    treeSegCount (.mk i segs entries errs) = segs.length + treeSegCountEntries entries := rfl

theorem treeSegCountEntries_cons (k : String) (ls : List CdmLoop)
    (rest : List (String × List CdmLoop)) :
    treeSegCountEntries ((k, ls) :: rest) =
      treeSegCountList ls + treeSegCountEntries rest := rfl

theorem treeSegCountList_cons (l : CdmLoop) (ls : List CdmLoop) :
    treeSegCountList (l :: ls) = treeSegCount l + treeSegCountList ls := rfl

theorem treeSegCountList_nil : treeSegCountList [] = 0 := rfl

theorem treeSegCountEntries_nil : treeSegCountEntries [] = 0 := rfl

theorem treeSegCountList_append (a b : List CdmLoop) :
    treeSegCountList (a ++ b) = treeSegCountList a + treeSegCountList b := by
  induction a with
  | nil =>
    rw [List.nil_append, treeSegCountList_nil]
    omega
  | cons x xs ih =>
    rw [List.cons_append, treeSegCountList_cons, treeSegCountList_cons, ih]
    omega

theorem treeSegCount_appendErrors (l : CdmLoop) (es : List CdmValidationError) :
    treeSegCount (l.appendErrors es) = treeSegCount l := by
  cases l
  rfl

theorem treeSegCount_appendSegment (l : CdmLoop) (s : CdmSegment) :
    treeSegCount (l.appendSegment s) = treeSegCount l + 1 := by
  cases l with
  | mk i s0 lp e =>
    show treeSegCount (.mk i (s0 ++ [s]) lp e) = _
    rw [treeSegCount_mk, treeSegCount_mk, List.length_append]
    simp only [List.length_cons, List.length_nil]
    omega

theorem treeSegCountEntries_add (entries : List (String × List CdmLoop))
    (sub : CdmLoop) :
    treeSegCountEntries (addLoopEntry entries sub) =
      treeSegCountEntries entries + treeSegCount sub := by
  induction entries with
  | nil =>
    show treeSegCountEntries [(sub.loop_id, [sub])] = _
    rw [treeSegCountEntries_cons, treeSegCountList_cons, treeSegCountList_nil,
      treeSegCountEntries_nil]
    omega
  | cons p rest ih =>
    obtain ⟨k, ls⟩ := p
    rw [addLoopEntry]
    by_cases hk : k = sub.loop_id
    · rw [if_pos hk, treeSegCountEntries_cons, treeSegCountEntries_cons,
        treeSegCountList_append, treeSegCountList_cons, treeSegCountList_nil]
      omega
    · rw [if_neg hk, treeSegCountEntries_cons, treeSegCountEntries_cons, ih]
      omega

theorem treeSegCount_add_loop (l sub : CdmLoop) :
    treeSegCount (l.add_loop sub) = treeSegCount l + treeSegCount sub := by
  cases l with
  | mk i s0 lp e =>
    show treeSegCount (.mk i s0 (addLoopEntry lp sub) e) = _
    rw [treeSegCount_mk, treeSegCount_mk, treeSegCountEntries_add]
    omega

theorem directSegLists_mk (i : String) (segs : List CdmSegment)
    (entries : List (String × List CdmLoop)) (errs : List CdmValidationError) :
    directSegLists (.mk i segs entries errs) =
      segs :: directSegListsEntries entries := rfl

theorem directSegListsEntries_cons (k : String) (ls : List CdmLoop)
    (rest : List (String × List CdmLoop)) :
    directSegListsEntries ((k, ls) :: rest) =
      directSegListsList ls ++ directSegListsEntries rest := rfl

theorem directSegListsList_cons (l : CdmLoop) (ls : List CdmLoop) :
    directSegListsList (l :: ls) =
      directSegLists l ++ directSegListsList ls := rfl

theorem directSegListsList_nil : directSegListsList [] = [] := rfl

theorem directSegListsEntries_nil : directSegListsEntries [] = [] := rfl

theorem directSegListsList_append (a b : List CdmLoop) :
    directSegListsList (a ++ b) =
      directSegListsList a ++ directSegListsList b := by
  induction a with
  | nil => rfl
  | cons x xs ih =>
    rw [List.cons_append, directSegListsList_cons, directSegListsList_cons, ih,
      List.append_assoc]

theorem directSegLists_appendErrors (l : CdmLoop) (es : List CdmValidationError) :
    directSegLists (l.appendErrors es) = directSegLists l := by
  cases l
  rfl

theorem mem_directSegListsEntries_add (entries : List (String × List CdmLoop))
    (sub : CdmLoop) (sl : List CdmSegment)
    (h : sl ∈ directSegListsEntries (addLoopEntry entries sub)) :
    sl ∈ directSegListsEntries entries ∨ sl ∈ directSegLists sub := by
  induction entries with
  | nil =>
    rw [addLoopEntry, directSegListsEntries_cons, directSegListsList_cons,
      directSegListsList_nil, directSegListsEntries_nil, List.append_nil,
      List.append_nil] at h
    exact Or.inr h
  | cons p rest ih =>
    obtain ⟨k, ls⟩ := p
    rw [addLoopEntry] at h
    by_cases hk : k = sub.loop_id
    · rw [if_pos hk, directSegListsEntries_cons, directSegListsList_append,
        directSegListsList_cons, directSegListsList_nil, List.append_nil] at h
      rw [directSegListsEntries_cons]
      rw [List.mem_append, List.mem_append] at h
      rw [List.mem_append]
      rcases h with (h | h) | h
      · exact Or.inl (Or.inl h)
      · exact Or.inr h
      · exact Or.inl (Or.inr h)
    · rw [if_neg hk, directSegListsEntries_cons] at h
      rw [directSegListsEntries_cons]
      rw [List.mem_append] at h ⊢
      rcases h with h | h
      · exact Or.inl (Or.inl h)
      · rcases ih h with h2 | h2
        · exact Or.inl (Or.inr h2)
        · exact Or.inr h2

theorem mem_directSegLists_add_loop (acc sub : CdmLoop) (sl : List CdmSegment)
    (h : sl ∈ directSegLists (acc.add_loop sub)) :
    sl ∈ directSegLists acc ∨ sl ∈ directSegLists sub := by
  cases acc with
  | mk i s0 lp e =>
    rw [CdmLoop.add_loop, directSegLists_mk] at h
    rw [directSegLists_mk]
    rcases List.mem_cons.mp h with rfl | h2
    · exact Or.inl (by simp)
    · rcases mem_directSegListsEntries_add lp sub sl h2 with h3 | h3
      · exact Or.inl (by simp [h3])
      · exact Or.inr h3

theorem take_sub_take {α : Type} (l : List α) {m n : Nat} (h : m ≤ n) :
    List.Sublist (l.take m) (l.take n) := by
  have h2 : (l.take n).take m = l.take m := by
    rw [List.take_take, Nat.min_eq_left h]
  rw [← h2]
  exact List.take_sublist m (l.take n)

theorem lineNos_append (a b : List CdmSegment) :
    lineNos (a ++ b) = lineNos a ++ lineNos b := by
  rw [lineNos, lineNos, lineNos, List.map_append]

end EdiJson

namespace EdiJson

theorem window_sublist (segs : List CdmSegment) (cursor consumed : Nat) :
    List.Sublist ((segs.drop cursor).take consumed) (segs.take (cursor + consumed)) := by
  have h := List.drop_take (cursor + consumed) cursor segs
  have h2 : cursor + consumed - cursor = consumed := by omega
  rw [h2] at h
  rw [← h]
  exact List.drop_sublist cursor (segs.take (cursor + consumed))

theorem directSegLists_eq (l : CdmLoop) :
    directSegLists l = l.segments :: directSegListsEntries l.loops := by
  cases l
  rfl

theorem directSegLists_appendSegment (l : CdmLoop) (s : CdmSegment) :
    directSegLists (l.appendSegment s) =
      (l.segments ++ [s]) :: directSegListsEntries l.loops := by
  cases l
  rfl

theorem lineNos_take_succ (segs : List CdmSegment) (cursor : Nat)
    (h : cursor < segs.length) :
    lineNos (segs.take (cursor + 1)) =
      lineNos (segs.take cursor) ++ [(segs.get ⟨cursor, h⟩).line_number] := by
  rw [List.take_succ]
  rw [lineNos_append]
  have : segs[cursor]? = some (segs.get ⟨cursor, h⟩) := by
    rw [List.getElem?_eq_getElem h]
    rfl
  rw [this]
  rfl

/-- Joint structural facts about the matcher: the consumed count bounds,
segment-count conservation into the built tree, and order preservation of
every directly-contained segment list relative to the input window. -/
theorem buildTree_facts (schema : ImplementationGuideSchema) (compSep : Char)
    (segs : List CdmSegment) (nodes : List StructureChild) (pid : String) :
    ∀ (l : CdmLoop) (consumed : Nat),
      buildTree schema compSep segs nodes pid = .ok (l, consumed) →
      consumed ≤ segs.length ∧ treeSegCount l = consumed ∧
      ∀ sl ∈ directSegLists l,
        List.Sublist (lineNos sl) (lineNos (segs.take consumed)) := by
  induction segs, nodes, pid using buildTree.induct schema compSep
  case motive2 =>
    rename_i segs nodes pid counts cursor acc
    exact ∀ (acc' : CdmLoop) (cursor' : Nat) (counts' : Nat → Nat),
      buildTreeGo schema compSep segs nodes pid counts cursor acc =
        .ok (acc', cursor', counts') →
      cursor ≤ segs.length →
      cursor ≤ cursor' ∧ cursor' ≤ segs.length ∧
      treeSegCount acc' = treeSegCount acc + (cursor' - cursor) ∧
      ((∀ sl ∈ directSegLists acc,
          List.Sublist (lineNos sl) (lineNos (segs.take cursor))) →
        ∀ sl ∈ directSegLists acc',
          List.Sublist (lineNos sl) (lineNos (segs.take cursor')))
  case case1 =>
    rename_i segs nodes pid e hgo ih
    intro l consumed hbt
    rw [buildTree] at hbt
    rw [hgo] at hbt
    exact Except.noConfusion hbt
  case case2 =>
    rename_i segs nodes pid acc cursor counts hgo ih
    intro l consumed hbt
    rw [buildTree] at hbt
    rw [hgo] at hbt
    have hbt2 : (Except.ok (acc.appendErrors (requiredMissingErrors nodes counts pid), cursor) :
        Except String (CdmLoop × Nat)) = .ok (l, consumed) := hbt
    injection hbt2 with hpair
    rw [Prod.mk.injEq] at hpair
    obtain ⟨hl, hc⟩ := hpair
    subst hl
    subst hc
    obtain ⟨h0, hlen, hcount, htrans⟩ := ih acc cursor counts hgo (Nat.zero_le _)
    have hbase : ∀ sl ∈ directSegLists (CdmLoop.mk pid [] [] []),
        List.Sublist (lineNos sl) (lineNos (segs.take 0)) := by
      intro sl hsl
      rw [directSegLists_mk, directSegListsEntries_nil] at hsl
      rcases List.mem_cons.mp hsl with rfl | hmem
      · exact List.nil_sublist _
      · simp at hmem
    have hsl2 := htrans hbase
    have hcnt0 : treeSegCount (CdmLoop.mk pid [] [] []) = 0 := rfl
    refine ⟨hlen, ?_, ?_⟩
    · rw [treeSegCount_appendErrors, hcount, hcnt0]
      omega
    · intro sl hsl
      rw [directSegLists_appendErrors] at hsl
      exact hsl2 sl hsl
  case case3 =>
    rename_i segs nodes pid counts cursor acc h e hfb
    intro acc' cursor' counts' hg hcle
    rw [buildTreeGo] at hg
    rw [dif_pos h] at hg
    split at hg
    · exact Except.noConfusion hg
    · rename_i heq
      rw [hfb] at heq
      exact Except.noConfusion heq
    · rename_i node j heq
      rw [hfb] at heq
      exact Except.noConfusion heq
  case case4 =>
    rename_i segs nodes pid counts cursor acc h hfb
    intro acc' cursor' counts' hg hcle
    rw [buildTreeGo] at hg
    rw [dif_pos h] at hg
    split at hg
    · rename_i heq
      rw [hfb] at heq
      exact Except.noConfusion heq
    · have hg2 : (Except.ok (acc, cursor, counts) :
          Except String (CdmLoop × Nat × (Nat → Nat))) = .ok (acc', cursor', counts') := hg
      injection hg2 with hpair
      rw [Prod.mk.injEq] at hpair
      obtain ⟨ha, hpair2⟩ := hpair
      rw [Prod.mk.injEq] at hpair2
      obtain ⟨hc, hcs⟩ := hpair2
      subst ha
      subst hc
      refine ⟨le_refl _, hcle, by omega, fun hb => ?_⟩
      simpa using hb
    · rename_i node j heq
      rw [hfb] at heq
      injection heq with heq2
      exact Option.noConfusion heq2
  case case5 =>
    rename_i segs nodes pid counts cursor acc h j xid nm usage mu sdi bdi ctxId hfb1 e hv hfb2
    intro acc' cursor' counts' hg hcle
    rw [buildTreeGo] at hg
    rw [dif_pos h] at hg
    split at hg
    · exact Except.noConfusion hg
    · rename_i heq
      rw [hfb1] at heq
      injection heq with h2
      exact Option.noConfusion h2
    · rename_i node j' heq
      rw [hfb1] at heq
      injection heq with h2
      injection h2 with h3
      rw [Prod.mk.injEq] at h3
      obtain ⟨hnode, hj⟩ := h3
      subst hnode
      subst hj
      split at hg
      · rename_i heqc heqh
        injection heqc with e1 e2 e3 e4 e5 e6 e7
        subst e1; subst e2; subst e3; subst e4; subst e5; subst e6; subst e7
        split at hg
        · exact Except.noConfusion hg
        · rename_i vErrs' heq2
          rw [hv] at heq2
          exact Except.noConfusion heq2
      · rename_i heqc heqh
        exact StructureChild.noConfusion heqc
  case case6 =>
    rename_i segs nodes pid counts cursor acc h j xid nm usage mu sdi bdi ctxId hfb1
      vErrs hv seg' hfb2 ih
    intro acc' cursor' counts' hg hcle
    rw [buildTreeGo] at hg
    rw [dif_pos h] at hg
    split at hg
    · exact Except.noConfusion hg
    · rename_i heq
      rw [hfb1] at heq
      injection heq with h2
      exact Option.noConfusion h2
    · rename_i node j' heq
      rw [hfb1] at heq
      injection heq with h2
      injection h2 with h3
      rw [Prod.mk.injEq] at h3
      obtain ⟨hnode, hj⟩ := h3
      subst hnode
      subst hj
      split at hg
      · rename_i heqc heqh
        injection heqc with e1 e2 e3 e4 e5 e6 e7
        subst e1; subst e2; subst e3; subst e4; subst e5; subst e6; subst e7
        split at hg
        · rename_i e heq2
          rw [hv] at heq2
          exact Except.noConfusion heq2
        · rename_i vErrs' heq2
          rw [hv] at heq2
          injection heq2 with h4
          subst h4
          have res := ih acc' cursor' counts' hg (by omega)
          obtain ⟨ha', hb', hc', hd'⟩ := res
          have hline : seg'.line_number = (segs.get ⟨cursor, h⟩).line_number := by
            have hseg : seg' = (if _h1 : vErrs.isEmpty = true then segs.get ⟨cursor, h⟩
              else { segs.get ⟨cursor, h⟩ with
                     errors := (segs.get ⟨cursor, h⟩).errors ++ vErrs }) := rfl
            rw [hseg]
            split
            · rfl
            · rfl
          refine ⟨by omega, hb', ?_, ?_⟩
          · rw [treeSegCount_appendSegment] at hc'
            omega
          · intro hbase
            refine hd' ?_
            intro sl hsl
            rw [directSegLists_appendSegment] at hsl
            rcases List.mem_cons.mp hsl with rfl | hmem
            · rw [lineNos_append, lineNos_take_succ segs cursor h]
              refine List.Sublist.append ?_ ?_
              · exact hbase acc.segments (by rw [directSegLists_eq]; simp)
              · have hone : lineNos [seg'] = [seg'.line_number] := rfl
                rw [hone, hline]
            · have h1 := hbase sl (by
                rw [directSegLists_eq]
                exact List.mem_cons_of_mem _ hmem)
              refine h1.trans ?_
              exact List.Sublist.map _ (take_sub_take segs (Nat.le_succ _))
      · rename_i heqc heqh
        exact StructureChild.noConfusion heqc
  case case7 =>
    rename_i segs nodes pid counts cursor acc h j x nm usage rep children hfb1 e hbt hfb2 ih1
    intro acc' cursor' counts' hg hcle
    rw [buildTreeGo] at hg
    rw [dif_pos h] at hg
    split at hg
    · exact Except.noConfusion hg
    · rename_i heq
      rw [hfb1] at heq
      injection heq with h2
      exact Option.noConfusion h2
    · rename_i node j' heq
      rw [hfb1] at heq
      injection heq with h2
      injection h2 with h3
      rw [Prod.mk.injEq] at h3
      obtain ⟨hnode, hj⟩ := h3
      subst hnode
      subst hj
      split at hg
      · rename_i heqc heqh
        exact StructureChild.noConfusion heqc
      · rename_i heqc heqh
        injection heqc with e1 e2 e3 e4 e5
        subst e1; subst e2; subst e3; subst e4; subst e5
        split at hg
        · exact Except.noConfusion hg
        · rename_i sub' consumed' heq3
          rw [hbt] at heq3
          exact Except.noConfusion heq3
  case case8 =>
    rename_i segs nodes pid counts cursor acc h j x nm usage rep children hfb1
      sub consumed hsub hfb2 ih1 ihgo
    intro acc' cursor' counts' hg hcle
    rw [buildTreeGo] at hg
    rw [dif_pos h] at hg
    split at hg
    · exact Except.noConfusion hg
    · rename_i heq
      rw [hfb1] at heq
      injection heq with h2
      exact Option.noConfusion h2
    · rename_i node j' heq
      rw [hfb1] at heq
      injection heq with h2
      injection h2 with h3
      rw [Prod.mk.injEq] at h3
      obtain ⟨hnode, hj⟩ := h3
      subst hnode
      subst hj
      split at hg
      · rename_i heqc heqh
        exact StructureChild.noConfusion heqc
      · rename_i heqc heqh
        injection heqc with e1 e2 e3 e4 e5
        subst e1; subst e2; subst e3; subst e4; subst e5
        split at hg
        · rename_i e heq3
          rw [hsub] at heq3
          exact Except.noConfusion heq3
        · rename_i sub' consumed' heq3
          rw [hsub] at heq3
          injection heq3 with h4
          rw [Prod.mk.injEq] at h4
          obtain ⟨hs, hcn⟩ := h4
          subst hs
          subst hcn
          obtain ⟨hcw, hcsub, hsubsl⟩ := ih1 sub consumed hsub
          have hlen2 : cursor + consumed ≤ segs.length := by
            rw [List.length_drop] at hcw
            omega
          have res := ihgo acc' cursor' counts' hg hlen2
          obtain ⟨ha', hb', hc', hd'⟩ := res
          refine ⟨by omega, hb', ?_, ?_⟩
          · rw [treeSegCount_appendErrors, treeSegCount_add_loop, hcsub] at hc'
            omega
          · intro hbase
            refine hd' ?_
            intro sl hsl
            rw [directSegLists_appendErrors] at hsl
            rcases mem_directSegLists_add_loop acc sub sl hsl with hm | hm
            · refine (hbase sl hm).trans ?_
              exact List.Sublist.map _ (take_sub_take segs (by omega))
            · refine (hsubsl sl hm).trans ?_
              exact List.Sublist.map _ (window_sublist segs cursor consumed)
  case case9 =>
    rename_i segs nodes pid counts cursor acc hnl
    intro acc' cursor' counts' hg hcle
    rw [buildTreeGo] at hg
    rw [dif_neg hnl] at hg
    have hg2 : (Except.ok (acc, cursor, counts) :
        Except String (CdmLoop × Nat × (Nat → Nat))) = .ok (acc', cursor', counts') := hg
    injection hg2 with hpair
    rw [Prod.mk.injEq] at hpair
    obtain ⟨ha, hpair2⟩ := hpair
    rw [Prod.mk.injEq] at hpair2
    obtain ⟨hc, hcs⟩ := hpair2
    subst ha
    subst hc
    refine ⟨le_refl _, hcle, by omega, fun hb => ?_⟩
    simpa using hb

end EdiJson

namespace EdiJson

/-- C6: segment-count conservation holds per transaction window — the
segments stored in a parsed transaction are ST, SE, and exactly the
`consumed` body segments the matcher committed; a strict tail of
unconsumed body segments is accounted for by one finding naming the first
such segment, and with no tail the transaction carries exactly the body
loop's findings.  (Corrected: conservation is *not* global — segments of
the decoded stream outside every envelope window, such as pre-ISA
garbage, are dropped without any finding.) -/
theorem c6_segment_conservation (schema : ImplementationGuideSchema) (compSep : Char)
    (stSeg seSeg : CdmSegment) (bodySegs : List CdmSegment) (t : CdmTransaction)
    (h : parseTransactionSetBody schema compSep stSeg seSeg bodySegs = .ok t) :
    ∃ consumed, consumed ≤ bodySegs.length ∧
      t.header = stSeg ∧ t.trailer = seSeg ∧
      transactionSegCount t = 2 + consumed ∧
      (consumed < bodySegs.length →
        ∃ problematic rest2, bodySegs.drop consumed = problematic :: rest2 ∧
          t.errors = t.body.errors ++
            [⟨"Transaction parsing incomplete. Could not process " ++
              toString (bodySegs.length - consumed) ++
              " remaining segments starting with '" ++ problematic.segment_id ++
              "' (line " ++ toString problematic.line_number ++
              "). This may indicate an unsupported structure or validation issue.",
              some problematic.line_number, some problematic.segment_id, none, false⟩]) ∧
      (¬ consumed < bodySegs.length → t.errors = t.body.errors) := by
  rw [parseTransactionSetBody] at h
  simp only [Bind.bind, Except.bind] at h
  split at h
  · exact Except.noConfusion h
  · rename_i stLoopSchema heqst
    split at h
    · exact Except.noConfusion h
    · rename_i pr heqbt
      obtain ⟨bodyLoop, consumed⟩ := pr
      obtain ⟨hcons, hcount, _⟩ := buildTree_facts schema compSep bodySegs _ _ _ _ heqbt
      refine ⟨consumed, hcons, ?_⟩
      by_cases hlt : consumed < bodySegs.length
      · rw [if_pos hlt] at h
        split at h
        · rename_i heqdrop
          exfalso
          have := congrArg List.length heqdrop
          rw [List.length_drop, List.length_nil] at this
          omega
        · rename_i problematic tail heqdrop
          injection h with h3
          subst h3
          refine ⟨rfl, rfl, ?_, ?_, ?_⟩
          · show 2 + treeSegCount bodyLoop = 2 + consumed
            rw [hcount]
          · intro _
            exact ⟨problematic, tail, heqdrop, rfl⟩
          · intro hnlt
            exact absurd hlt hnlt
      · rw [if_neg hlt] at h
        injection h with h3
        subst h3
        refine ⟨rfl, rfl, ?_, ?_, ?_⟩
        · show 2 + treeSegCount bodyLoop = 2 + consumed
          rw [hcount]
        · intro hlt2
          exact absurd hlt2 hlt
        · intro _
          rfl

end EdiJson

namespace EdiJson

/-- Evaluation form of `parseTransactionSetBody` once the `ST_LOOP`
lookup has succeeded. -/
theorem parseTransactionSetBody_eq (schema : ImplementationGuideSchema)
    (compSep : Char) (stSeg seSeg : CdmSegment) (bodySegs : List CdmSegment)
    (st : StructureChild) (hst : findStLoopSchema schema = .ok st) :
    parseTransactionSetBody schema compSep stSeg seSeg bodySegs =
      (match buildTree schema compSep bodySegs
          ((loopChildren st).filter (fun c => c.xid ≠ "ST" && c.xid ≠ "SE"))
          "ST_LOOP" with
       | .error e => .error e
       | .ok pr =>
         if pr.2 < bodySegs.length then
           match bodySegs.drop pr.2 with
           | [] => .ok ⟨stSeg, seSeg, pr.1, pr.1.errors⟩
           | problematic :: _ =>
             .ok ⟨stSeg, seSeg, pr.1, pr.1.errors ++
               [⟨"Transaction parsing incomplete. Could not process " ++
                 toString (bodySegs.length - pr.2) ++
                 " remaining segments starting with '" ++ problematic.segment_id ++
                 "' (line " ++ toString problematic.line_number ++
                 "). This may indicate an unsupported structure or validation issue.",
                 some problematic.line_number, some problematic.segment_id, none,
                 false⟩]⟩
         else .ok ⟨stSeg, seSeg, pr.1, pr.1.errors⟩) := by
  rw [parseTransactionSetBody]
  simp only [Bind.bind, Except.bind, hst]
  cases hb : buildTree schema compSep bodySegs
      ((loopChildren st).filter (fun c => c.xid ≠ "ST" && c.xid ≠ "SE"))
      "ST_LOOP" with
  | error e => rfl
  | ok pr =>
    obtain ⟨b, c⟩ := pr
    rfl

theorem c6_segment_conservation_witness :
    parseTransactionSetBody c6Schema ':' c6SegSt c6SegSe [c6SegX, c6SegQ] = .ok c6T ∧
    1 ≤ ([c6SegX, c6SegQ] : List CdmSegment).length ∧
    c6T.header = c6SegSt ∧ c6T.trailer = c6SegSe ∧
    transactionSegCount c6T = 2 + 1 ∧
    ([c6SegX, c6SegQ] : List CdmSegment).drop 1 = c6SegQ :: [] ∧
    c6T.errors = c6T.body.errors ++
      [⟨"Transaction parsing incomplete. Could not process " ++ toString (2 - 1) ++
        " remaining segments starting with '" ++ c6SegQ.segment_id ++
        "' (line " ++ toString c6SegQ.line_number ++
        "). This may indicate an unsupported structure or validation issue.",
        some c6SegQ.line_number, some c6SegQ.segment_id, none, false⟩] := by
  have hgo1 : buildTreeGo c6Schema ':' [c6SegX, c6SegQ] [c6NodeX] "ST_LOOP"
      (fun _ => 0) 0 (.mk "ST_LOOP" [] [] []) =
      buildTreeGo c6Schema ':' [c6SegX, c6SegQ] [c6NodeX] "ST_LOOP"
        (bump 0 (fun _ => 0)) 1 (.mk "ST_LOOP" [c6SegXErr] [] []) := by
    rw [buildTreeGo]
    rfl
  have hgo2 : buildTreeGo c6Schema ':' [c6SegX, c6SegQ] [c6NodeX] "ST_LOOP"
      (bump 0 (fun _ => 0)) 1 (.mk "ST_LOOP" [c6SegXErr] [] []) =
      .ok (.mk "ST_LOOP" [c6SegXErr] [] [], 1, bump 0 (fun _ => 0)) := by
    rw [buildTreeGo]
    rfl
  have hbt : buildTree c6Schema ':' [c6SegX, c6SegQ] [c6NodeX] "ST_LOOP" =
      .ok (.mk "ST_LOOP" [c6SegXErr] [] [], 1) := by
    rw [buildTree, hgo1.trans hgo2]
    rfl
  have hbody : parseTransactionSetBody c6Schema ':' c6SegSt c6SegSe [c6SegX, c6SegQ] =
      .ok c6T := by
    rw [parseTransactionSetBody_eq c6Schema ':' c6SegSt c6SegSe [c6SegX, c6SegQ]
      c6StLoop rfl]
    rw [show (loopChildren c6StLoop).filter (fun c => c.xid ≠ "ST" && c.xid ≠ "SE") =
      [c6NodeX] from rfl]
    rw [hbt]
    rfl
  obtain ⟨c, hc1, hh, ht, hcnt, htail, _⟩ :=
    c6_segment_conservation c6Schema ':' c6SegSt c6SegSe [c6SegX, c6SegQ] c6T hbody
  have hc : c = 1 := by
    have h3 : (2 : Nat) + 1 = 2 + c := by
      rw [← hcnt]
      rfl
    omega
  subst hc
  obtain ⟨p, r2, hdrop, herr⟩ := htail (by decide)
  have hd2 : ([c6SegQ] : List CdmSegment) = p :: r2 := hdrop
  injection hd2 with hp hr
  subst hp
  subst hr
  exact ⟨hbody, by decide, hh, ht, hcnt, hdrop, herr⟩

/-- C6 counterexample: the decoded stream of `c6Input` has three non-empty
segments (`FOO`, `ISA`, `IEA`), but the returned interchange stores only
two, and carries no finding at all for the dropped pre-envelope `FOO`
segment: conservation does not hold globally. -/
theorem c6_counterexample :
    parse c6Input emptySchema = .ok ⟨c6IsaErr, c6IeaErr, [], []⟩ ∧
    (segmentize c6Input '*' '~').length = 3 ∧
    interchangeSegCount ⟨c6IsaErr, c6IeaErr, [], []⟩ = 2 ∧
    (⟨c6IsaErr, c6IeaErr, [], []⟩ : CdmInterchange).errors = [] := by
  have hpg : parseGroups emptySchema ':' [] 0 = .ok ([], []) := by
    rw [parseGroups]
    rfl
  have h1 : parse c6Input emptySchema =
      Except.bind (parseGroups emptySchema ':' [] 0)
        (fun p => .ok ⟨c6IsaErr, c6IeaErr, p.1, p.2⟩) := by
    rfl
  refine ⟨?_, rfl, rfl, rfl⟩
  rw [h1, hpg]
  rfl

end EdiJson

namespace EdiJson

/-- C7: the matcher preserves source order *within every single loop*: each
directly-contained segment list of the built tree is an order-preserving
sublist of the consumed input window, so a source-ordered window yields
sorted line numbers in every such list.  (Corrected: the global pre-order
of the returned document is *not* source-ordered — a loop's dict groups
all instances of a child loop after the parent's direct segments, so a
segment committed to the parent after a sub-loop closes precedes the
sub-loop's segments in the stream but follows them in pre-order.) -/
theorem c7_source_order (schema : ImplementationGuideSchema) (compSep : Char)
    (segs : List CdmSegment) (nodes : List StructureChild) (pid : String)
    (l : CdmLoop) (consumed : Nat)
    (h : buildTree schema compSep segs nodes pid = .ok (l, consumed)) :
    (∀ sl ∈ directSegLists l,
      List.Sublist (lineNos sl) (lineNos (segs.take consumed))) ∧
    (List.Pairwise (fun a b => a ≤ b) (lineNos segs) →
      ∀ sl ∈ directSegLists l, List.Pairwise (fun a b => a ≤ b) (lineNos sl)) := by
  obtain ⟨hcons, _, hsub⟩ := buildTree_facts schema compSep segs nodes pid l consumed h
  refine ⟨hsub, fun hpw sl hsl => ?_⟩
  have h1 := hsub sl hsl
  have h2 : List.Sublist (lineNos (segs.take consumed)) (lineNos segs) :=
    List.Sublist.map _ (List.take_sublist _ _)
  exact List.Pairwise.sublist (h1.trans h2) hpw

theorem c7_source_order_witness :
    buildTree emptySchema ':' [c7SegX] [c7NodeX] "ST_LOOP" =
      .ok (.mk "ST_LOOP" [c7SegXErr] [] [], 1) ∧
    List.Sublist (lineNos [c7SegXErr]) (lineNos (([c7SegX] : List CdmSegment).take 1)) ∧
    List.Pairwise (fun a b : Nat => a ≤ b) (lineNos [c7SegXErr]) := by
  have hgo1 : buildTreeGo emptySchema ':' [c7SegX] [c7NodeX] "ST_LOOP"
      (fun _ => 0) 0 (.mk "ST_LOOP" [] [] []) =
      buildTreeGo emptySchema ':' [c7SegX] [c7NodeX] "ST_LOOP"
        (bump 0 (fun _ => 0)) 1 (.mk "ST_LOOP" [c7SegXErr] [] []) := by
    rw [buildTreeGo]
    rfl
  have hgo2 : buildTreeGo emptySchema ':' [c7SegX] [c7NodeX] "ST_LOOP"
      (bump 0 (fun _ => 0)) 1 (.mk "ST_LOOP" [c7SegXErr] [] []) =
      .ok (.mk "ST_LOOP" [c7SegXErr] [] [], 1, bump 0 (fun _ => 0)) := by
    rw [buildTreeGo]
    rfl
  have heval : buildTree emptySchema ':' [c7SegX] [c7NodeX] "ST_LOOP" =
      .ok (.mk "ST_LOOP" [c7SegXErr] [] [], 1) := by
    rw [buildTree, hgo1.trans hgo2]
    rfl
  obtain ⟨hsub, hpw⟩ := c7_source_order emptySchema ':' [c7SegX] [c7NodeX] "ST_LOOP"
    (.mk "ST_LOOP" [c7SegXErr] [] []) 1 heval
  have hmem : [c7SegXErr] ∈ directSegLists (CdmLoop.mk "ST_LOOP" [c7SegXErr] [] []) := by
    rw [directSegLists_mk, directSegListsEntries_nil]
    exact List.mem_cons_self _ _
  exact ⟨heval, hsub _ hmem, hpw (by decide) _ hmem⟩

/-- C7 counterexample: the input window is source-ordered (lines 4, 5, 6),
but because the built loop stores its child-loop instances in a dict after
its direct segments, the pre-order of the result lists line 6 before
line 5: two segments with `a < b` in the stream where `b` precedes `a` in
the pre-order traversal. -/
theorem c7_counterexample :
    buildTree emptySchema ':' [c7SegX, c7SegA, c7SegY] [c7NodeX, c7LoopA, c7NodeY]
      "ST_LOOP" =
      .ok (.mk "ST_LOOP" [c7SegXErr, c7SegYErr]
        [("A", [.mk "A" [c7SegAErr] [] []])] [], 3) ∧
    List.Pairwise (fun a b : Nat => a ≤ b) (lineNos [c7SegX, c7SegA, c7SegY]) ∧
    lineNos (preorderLoop (.mk "ST_LOOP" [c7SegXErr, c7SegYErr]
      [("A", [.mk "A" [c7SegAErr] [] []])] [])) = [4, 6, 5] ∧
    ¬ List.Pairwise (fun a b : Nat => a ≤ b) [4, 6, 5] := by
  have hgoA1 : buildTreeGo emptySchema ':' [c7SegA, c7SegY] [c7NodeA] "A"
      (fun _ => 0) 0 (.mk "A" [] [] []) =
      buildTreeGo emptySchema ':' [c7SegA, c7SegY] [c7NodeA] "A"
        (bump 0 (fun _ => 0)) 1 (.mk "A" [c7SegAErr] [] []) := by
    rw [buildTreeGo]
    rfl
  have hgoA2 : buildTreeGo emptySchema ':' [c7SegA, c7SegY] [c7NodeA] "A"
      (bump 0 (fun _ => 0)) 1 (.mk "A" [c7SegAErr] [] []) =
      .ok (.mk "A" [c7SegAErr] [] [], 1, bump 0 (fun _ => 0)) := by
    rw [buildTreeGo]
    rfl
  have hbtA : buildTree emptySchema ':' [c7SegA, c7SegY] [c7NodeA] "A" =
      .ok (.mk "A" [c7SegAErr] [] [], 1) := by
    rw [buildTree, hgoA1.trans hgoA2]
    rfl
  have hgo1 : buildTreeGo emptySchema ':' [c7SegX, c7SegA, c7SegY]
      [c7NodeX, c7LoopA, c7NodeY] "ST_LOOP" (fun _ => 0) 0 (.mk "ST_LOOP" [] [] []) =
      buildTreeGo emptySchema ':' [c7SegX, c7SegA, c7SegY]
        [c7NodeX, c7LoopA, c7NodeY] "ST_LOOP" (bump 0 (fun _ => 0)) 1
        (.mk "ST_LOOP" [c7SegXErr] [] []) := by
    rw [buildTreeGo]
    rfl
  have hgo2 : buildTreeGo emptySchema ':' [c7SegX, c7SegA, c7SegY]
      [c7NodeX, c7LoopA, c7NodeY] "ST_LOOP" (bump 0 (fun _ => 0)) 1
      (.mk "ST_LOOP" [c7SegXErr] [] []) =
      (match buildTree emptySchema ':' [c7SegA, c7SegY] [c7NodeA] "A" with
       | .error e => .error e
       | .ok (sub, consumed) =>
         buildTreeGo emptySchema ':' [c7SegX, c7SegA, c7SegY]
           [c7NodeX, c7LoopA, c7NodeY] "ST_LOOP" (bump 1 (bump 0 (fun _ => 0)))
           (1 + consumed)
           (((CdmLoop.mk "ST_LOOP" [c7SegXErr] [] []).add_loop sub).appendErrors
             sub.errors)) := by
    rw [buildTreeGo]
    rfl
  have hgo3 : buildTreeGo emptySchema ':' [c7SegX, c7SegA, c7SegY]
      [c7NodeX, c7LoopA, c7NodeY] "ST_LOOP" (bump 1 (bump 0 (fun _ => 0))) 2
      (.mk "ST_LOOP" [c7SegXErr] [("A", [.mk "A" [c7SegAErr] [] []])] []) =
      buildTreeGo emptySchema ':' [c7SegX, c7SegA, c7SegY]
        [c7NodeX, c7LoopA, c7NodeY] "ST_LOOP"
        (bump 2 (bump 1 (bump 0 (fun _ => 0)))) 3
        (.mk "ST_LOOP" [c7SegXErr, c7SegYErr]
          [("A", [.mk "A" [c7SegAErr] [] []])] []) := by
    rw [buildTreeGo]
    rfl
  have hgo4 : buildTreeGo emptySchema ':' [c7SegX, c7SegA, c7SegY]
      [c7NodeX, c7LoopA, c7NodeY] "ST_LOOP"
      (bump 2 (bump 1 (bump 0 (fun _ => 0)))) 3
      (.mk "ST_LOOP" [c7SegXErr, c7SegYErr]
        [("A", [.mk "A" [c7SegAErr] [] []])] []) =
      .ok (.mk "ST_LOOP" [c7SegXErr, c7SegYErr]
        [("A", [.mk "A" [c7SegAErr] [] []])] [], 3,
        bump 2 (bump 1 (bump 0 (fun _ => 0)))) := by
    rw [buildTreeGo]
    rfl
  have hgo2' : buildTreeGo emptySchema ':' [c7SegX, c7SegA, c7SegY]
      [c7NodeX, c7LoopA, c7NodeY] "ST_LOOP" (bump 0 (fun _ => 0)) 1
      (.mk "ST_LOOP" [c7SegXErr] [] []) =
      buildTreeGo emptySchema ':' [c7SegX, c7SegA, c7SegY]
        [c7NodeX, c7LoopA, c7NodeY] "ST_LOOP" (bump 1 (bump 0 (fun _ => 0))) 2
        (.mk "ST_LOOP" [c7SegXErr] [("A", [.mk "A" [c7SegAErr] [] []])] []) := by
    rw [hgo2, hbtA]
    rfl
  have heval : buildTree emptySchema ':' [c7SegX, c7SegA, c7SegY]
      [c7NodeX, c7LoopA, c7NodeY] "ST_LOOP" =
      .ok (.mk "ST_LOOP" [c7SegXErr, c7SegYErr]
        [("A", [.mk "A" [c7SegAErr] [] []])] [], 3) := by
    rw [buildTree, (hgo1.trans hgo2').trans (hgo3.trans hgo4)]
    rfl
  exact ⟨heval, by decide, rfl, by decide⟩

end EdiJson
